import Mathlib

/-!
SPHinXsys: the multi-rate time-stepping loops of two test cases.

Shallow embedding of the `main` functions of

* `cases_test/test_2d_hydrostatic_fsi/src/hydrostatic_fsi.cpp` (coupled fluid-structure run),
* `cases_test/test_2d_static_confinement/src/static_confinement.cpp` (pure-fluid run).

Conventions of the embedding.

* `Real` is `double`; a value of that type is a rational number. The arithmetic of the loops
  is given two readings, which share the states, the estimators, the call traces and every
  statement that does no arithmetic on `Real` values.
  Exact reading, namespaces `HydrostaticFSI` and `StaticConfinement`: the sums and
  differences of step sizes and clocks are those of exact real arithmetic.
  Binary64 reading, namespaces `HydrostaticFSI.Double` and `StaticConfinement.Double`: the
  result of every addition, subtraction and division of the loops is rounded to the nearest
  binary64 number, ties to even (`Binary64.fl`), and the decimal literals of the source are
  the binary64 numbers nearest to them. Every operation rounds once (no extended-precision
  intermediate, no fused operation). Values are finite; the exponent range has the
  subnormal numbers at its lower end and no upper end (no overflow to infinity, no NaN).
* `size_t number_of_iterations` is a natural number (a run would need `2 ^ 64` advection
  intervals to wrap the counter).
* The dynamics objects (`parallel_exec`), the recorders (`writeToFile`) and the neighbour
  updates (`updateCellLinkedList`, `updateConfiguration`) are library code; a call of one of
  them is recorded, with its argument, as an entry of a chronological call trace.
* The three step-size estimators read particle data the loops do not see. They are oracles:
  the value returned by the `k`-th call of an estimator is `E.estimator k`, and the state
  counts the calls made so far.
* A `while` loop is a function with a fuel argument; it returns `none` when the fuel runs out
  while the loop condition still holds. Inner loops receive the fuel left over at their call.
-/

/-! ## Binary64 rounding -/

namespace Binary64

/-- The integer nearest to `q`, a tie going to the even neighbour. -/
def roundEven (q : ℚ) : ℤ :=
  if Int.fract q < 1 / 2 then ⌊q⌋
  else if 1 / 2 < Int.fract q then ⌊q⌋ + 1
  else if ⌊q⌋ % 2 = 0 then ⌊q⌋ else ⌊q⌋ + 1

/-- The position of the leading bit of `n`, found by halving at most `fuel` times
(`0` for `n ≤ 1`). -/
def log2Fuel : ℕ → ℕ → ℕ
  | 0, _ => 0
  | fuel + 1, n => if 2 ≤ n then log2Fuel fuel (n / 2) + 1 else 0

/-- The binary exponent of `x ≠ 0`: the `e` with `2 ^ e ≤ |x| < 2 ^ (e + 1)`. The difference
of the bit positions of numerator and denominator is `e` or `e + 1`. -/
def exponent (x : ℚ) : ℤ :=
  if (2 : ℚ) ^ ((log2Fuel x.num.natAbs x.num.natAbs : ℤ) - (log2Fuel x.den x.den : ℤ)) ≤ |x| then
    (log2Fuel x.num.natAbs x.num.natAbs : ℤ) - (log2Fuel x.den x.den : ℤ)
  else (log2Fuel x.num.natAbs x.num.natAbs : ℤ) - (log2Fuel x.den x.den : ℤ) - 1

/-- The exponent of the smallest normal binary64 number, `2 ^ (-1022)`. -/
def emin : ℤ := -1022

/-- The exponent that fixes the spacing around `x`: that of `x`, or `emin` for `x` in the
subnormal range. -/
def binade (x : ℚ) : ℤ := max (exponent x) emin

/-- The spacing of the binary64 numbers around `x`: 53 significant bits. -/
def ulp (x : ℚ) : ℚ := (2 : ℚ) ^ (binade x - 52)

/-- Rounding of a non-negative number to the nearest multiple of the spacing around it. -/
def flAbs (x : ℚ) : ℚ := roundEven (x / ulp x) * ulp x

/-- The binary64 number nearest to `x`, a tie going to the even significand: the result
of a `double` operation whose exact result is `x`. -/
def fl (x : ℚ) : ℚ :=
  if 0 ≤ x then flAbs x else -flAbs (-x)

/-- The value is a binary64 number. -/
def IsDouble (x : ℚ) : Prop := fl x = x

instance (x : ℚ) : Decidable (IsDouble x) := inferInstanceAs (Decidable (fl x = x))

end Binary64

namespace SPHinXsys

/-- Modelled from the spec: the library macro `SMIN` (not among the sources under study),
the smaller of two step sizes, as in "`Δt_ac = min(acousticStep(), ...)`". -/
def SMIN (a b : ℚ) : ℚ := min a b

/-- The SPH bodies created by the two programs. -/
inductive Body
  | water_block
  | wall_boundary
  | gate
  | gate_observer
  | fluid_observer
  deriving DecidableEq, Repr

/-- The body relations (neighbour configurations) created by the two programs. -/
inductive Relation
  | water_block_inner
  | gate_inner
  | water_block_complex
  | gate_contact
  | gate_observer_contact
  | fluid_observer_contact
  deriving DecidableEq, Repr

/-- The body a relation is constructed on: the first constructor argument at
`hydrostatic_fsi.cpp` lines 290-294 and `static_confinement.cpp` lines 155-156
(`water_block_complex` is constructed on `water_block_inner`, hence on `water_block`). -/
def Relation.body : Relation → Body
  | .water_block_inner => .water_block
  | .gate_inner => .gate
  | .water_block_complex => .water_block
  | .gate_contact => .gate
  | .gate_observer_contact => .gate_observer
  | .fluid_observer_contact => .fluid_observer

/-- The contact bodies of a relation: the braces of the constructor calls at
`hydrostatic_fsi.cpp` lines 292-294 and `static_confinement.cpp` line 156. -/
def Relation.contact_bodies : Relation → List Body
  | .water_block_inner => []
  | .gate_inner => []
  | .water_block_complex => [.wall_boundary, .gate]
  | .gate_contact => [.water_block]
  | .gate_observer_contact => [.gate]
  | .fluid_observer_contact => [.water_block]

/-- All bodies a relation references: the one it is constructed on and its contact bodies. -/
def Relation.bodies (r : Relation) : List Body :=
  r.body :: r.contact_bodies

/-- A list of reported values is in non-decreasing order and lies between `lo` and `hi`,
the values of the reported clock before and after the calls. -/
def Segment (lo hi : ℚ) (args : List ℚ) : Prop :=
  lo ≤ hi ∧ args.Pairwise (fun a b => a ≤ b) ∧ ∀ a ∈ args, lo ≤ a ∧ a ≤ hi

/-- Every entry of a list of sub-step sizes is at most the budget that the entries before
it have left of `T`. -/
def WithinBudget : ℚ → List ℚ → Prop
  | _, [] => True
  | T, d :: l => d ≤ T ∧ WithinBudget (T - d) l

/-- The `double` sum `x + d₁ + d₂ + ...` of a clock and a list of steps: the steps are added
one at a time, from left to right, and every sum is rounded (`t += d` on a `Real`). -/
def accumulate (x : ℚ) (steps : List ℚ) : ℚ :=
  steps.foldl (fun t d => Binary64.fl (t + d)) x

/-- Every entry of a list of sub-step sizes is at most the budget left of `T` as `double`
arithmetic computes it: the rounded difference of `T` and the rounded sum `sum` of the
entries before it. -/
def WithinRoundedBudget (T : ℚ) : ℚ → List ℚ → Prop
  | _, [] => True
  | sum, d :: l => d ≤ Binary64.fl (T - sum) ∧ WithinRoundedBudget T (Binary64.fl (sum + d)) l

end SPHinXsys

/-! ## The coupled program `hydrostatic_fsi.cpp` -/

namespace HydrostaticFSI

open SPHinXsys

/-- One entry of the call trace of `hydrostatic_fsi.cpp`, named after the object called. -/
inductive Call
  | initializeSystemCellLinkedLists
  | initializeSystemConfigurations
  | wall_initializeNormalDirectionFromGeometry
  | gate_initializeNormalDirectionFromGeometry
  | gate_corrected_configuration_in_strong_form
  | initialize_a_fluid_step
  | get_fluid_adevction_time_step_size
  | update_fluid_desnity
  | gate_update_normal
  | get_fluid_time_step_size
  | fluid_damping (dt : ℚ)
  | pressure_relaxation (dt : ℚ)
  | fluid_pressure_force_on_gate
  | density_relaxation (dt : ℚ)
  | initialize_displacement
  | gate_stress_relaxation_first_half (dt_s : ℚ)
  | gate_constrain
  | gate_stress_relaxation_second_half (dt_s : ℚ)
  | gate_computing_time_step_size
  | update_averages (dt : ℚ)
  | screen_output (N : ℕ) (time Dt dt dt_s : ℚ)
  | updateCellLinkedList (b : Body)
  | updateConfiguration (r : Relation)
  | write_beam_tip_displacement (n : ℕ)
  | write_real_body_states_to_vtu (n : Option ℕ)
  deriving DecidableEq, Repr

/-- The neighbour-rebuild calls: `updateCellLinkedList` and `updateConfiguration`. -/
def Call.isRebuild : Call → Bool
  | .updateCellLinkedList _ => true
  | .updateConfiguration _ => true
  | _ => false

/-- The body relation the called object is constructed on, lines 299-340
(`none` for objects constructed on a body or on the system). -/
def Call.relation : Call → Option Relation
  | .update_fluid_desnity => some .water_block_complex
  | .fluid_damping _ => some .water_block_complex
  | .pressure_relaxation _ => some .water_block_complex
  | .density_relaxation _ => some .water_block_complex
  | .gate_corrected_configuration_in_strong_form => some .gate_inner
  | .gate_stress_relaxation_first_half _ => some .gate_inner
  | .gate_stress_relaxation_second_half _ => some .gate_inner
  | .fluid_pressure_force_on_gate => some .gate_contact
  | .write_beam_tip_displacement _ => some .gate_observer_contact
  | _ => none

/-- The calls of `update_averages_`. -/
def Call.isUpdateAverages : Call → Bool
  | .update_averages _ => true
  | _ => false

/-- The recorders of `hydrostatic_fsi.cpp`, lines 337-340. -/
inductive Recorder
  | write_real_body_states_to_vtu
  | write_beam_tip_displacement
  deriving DecidableEq, Repr

/-- The argument a call passes to a recorder: the iteration number given to `writeToFile`.
The calls `writeToFile()` of line 434 pass none. -/
def Call.arg : Recorder → Call → Option ℚ
  | .write_real_body_states_to_vtu, .write_real_body_states_to_vtu (some n) => some n
  | .write_beam_tip_displacement, .write_beam_tip_displacement n => some n
  | _, _ => none

/-- The arguments passed to a recorder, in the order of the calls of a trace. -/
def recorded (r : Recorder) (trace : List Call) : List ℚ :=
  trace.filterMap (Call.arg r)

/-- The acoustic step sizes a trace shows: the arguments of its `update_averages_` calls,
one per acoustic sub-step (line 407). -/
def acousticSteps : List Call → List ℚ
  | [] => []
  | .update_averages dt :: l => dt :: acousticSteps l
  | _ :: l => acousticSteps l

/-- The three step-size estimators as oracles: the value of the `k`-th call. -/
structure Estimators where
  get_fluid_adevction_time_step_size : ℕ → ℚ
  get_fluid_time_step_size : ℕ → ℚ
  gate_computing_time_step_size : ℕ → ℚ

/-- The variables of `main` that the time-stepping loops read or write, the number of
estimator calls made so far, and the call trace. -/
structure State where
  physical_time_ : ℚ
  number_of_iterations : ℕ
  Dt : ℚ
  dt : ℚ
  dt_s : ℚ
  integeral_time : ℚ
  relaxation_time : ℚ
  dt_s_sum : ℚ
  advection_calls : ℕ
  acoustic_calls : ℕ
  solid_calls : ℕ
  trace : List Call
  deriving DecidableEq, Repr

/-- The clock a recorder argument is taken from: both recorders that are given an argument
are given `number_of_iterations`. -/
def Recorder.clock (_ : Recorder) (s : State) : ℚ := s.number_of_iterations

/-- The calls of one pass through `while (dt_s_sum < dt)` with solid step `d`,
lines 401-405. -/
def solidCalls (d : ℚ) : List Call :=
  [Call.gate_stress_relaxation_first_half d,
   Call.gate_constrain,
   Call.gate_stress_relaxation_second_half d,
   Call.gate_computing_time_step_size]

/-- The clamp of line 400: `if (dt - dt_s_sum < dt_s) dt_s = dt - dt_s_sum;`, in the exact
reading (`Double.clamp_dt_s` rounds the difference). -/
def clamp_dt_s (s : State) : ℚ :=
  if s.dt - s.dt_s_sum < s.dt_s then s.dt - s.dt_s_sum else s.dt_s

/-- Body of `while (dt_s_sum < dt)`, lines 400-405, in the exact reading
(`Double.solidBody` rounds the sum). -/
def solidBody (E : Estimators) (s : State) : State :=
  { s with
    dt_s_sum := s.dt_s_sum + clamp_dt_s s
    dt_s := E.gate_computing_time_step_size s.solid_calls
    solid_calls := s.solid_calls + 1
    trace := s.trace ++ solidCalls (clamp_dt_s s) }

/-- The loop `while (dt_s_sum < dt)`, lines 398-406. -/
def solidLoop (E : Estimators) : ℕ → State → Option State
  | 0, s => if s.dt_s_sum < s.dt then none else some s
  | fuel + 1, s => if s.dt_s_sum < s.dt then solidLoop E fuel (solidBody E s) else some s

/-- Lines 389-397: the acoustic step is chosen, the fluid operators run, `dt_s_sum` is
reset and the displacement average is initialised. -/
def acousticHead (E : Estimators) (s : State) : State :=
  let dt := SMIN (E.get_fluid_time_step_size s.acoustic_calls) s.Dt
  { s with
    dt := dt
    acoustic_calls := s.acoustic_calls + 1
    dt_s_sum := 0
    trace := s.trace ++
      [Call.get_fluid_time_step_size,
       Call.fluid_damping dt,
       Call.pressure_relaxation dt,
       Call.fluid_pressure_force_on_gate,
       Call.density_relaxation dt,
       Call.initialize_displacement] }

/-- Lines 407-410: the averages are updated and the three clocks advance by `dt`, in the
exact reading (`Double.acousticTail` rounds the three sums). -/
def acousticTail (s : State) : State :=
  { s with
    relaxation_time := s.relaxation_time + s.dt
    integeral_time := s.integeral_time + s.dt
    physical_time_ := s.physical_time_ + s.dt
    trace := s.trace ++ [Call.update_averages s.dt] }

/-- Body of `while (relaxation_time < Dt)`, lines 389-410. -/
def acousticBody (E : Estimators) (fuel : ℕ) (s : State) : Option State :=
  (solidLoop E fuel (acousticHead E s)).map acousticTail

/-- The loop `while (relaxation_time < Dt)`, lines 387-411. -/
def acousticLoop (E : Estimators) : ℕ → State → Option State
  | 0, s => if s.relaxation_time < s.Dt then none else some s
  | fuel + 1, s =>
    if s.relaxation_time < s.Dt then (acousticBody E fuel s).bind (acousticLoop E fuel)
    else some s

/-- One acoustic sub-step: a completed pass through `while (relaxation_time < Dt)`. -/
def subStep (E : Estimators) (s t : State) : Prop :=
  ∃ fuel, acousticBody E fuel s = some t

/-- Lines 381-386: start of an advection interval. -/
def advectionHead (E : Estimators) (s : State) : State :=
  { s with
    Dt := E.get_fluid_adevction_time_step_size s.advection_calls
    advection_calls := s.advection_calls + 1
    relaxation_time := 0
    trace := s.trace ++
      [Call.initialize_a_fluid_step,
       Call.get_fluid_adevction_time_step_size,
       Call.update_fluid_desnity,
       Call.gate_update_normal] }

/-- The value of `screen_output_interval`, line 363. -/
def screen_output_interval : ℕ := 100

/-- Lines 414-419: the console line, every `screen_output_interval` iterations. -/
def screenOutput (s : State) : List Call :=
  if s.number_of_iterations % screen_output_interval = 0 then
    [Call.screen_output s.number_of_iterations s.physical_time_ s.Dt s.dt s.dt_s]
  else []

/-- Lines 424-428: the neighbour rebuild at the end of an advection interval. -/
def rebuild : List Call :=
  [Call.updateCellLinkedList Body.water_block,
   Call.updateConfiguration Relation.water_block_complex,
   Call.updateCellLinkedList Body.gate,
   Call.updateConfiguration Relation.gate_contact]

/-- Lines 414-431: end of an advection interval. -/
def advectionTail (s : State) : State :=
  { s with
    number_of_iterations := s.number_of_iterations + 1
    trace := s.trace ++ screenOutput s ++ rebuild ++
      [Call.write_beam_tip_displacement (s.number_of_iterations + 1)] }

/-- One move inside an output interval: an acoustic sub-step, the start of an advection
interval or the end of one. -/
def intervalStep (E : Estimators) (s t : State) : Prop :=
  subStep E s t ∨ t = advectionHead E s ∨ t = advectionTail s

/-- Body of `while (integeral_time < D_Time)`, lines 380-431. -/
def advectionBody (E : Estimators) (fuel : ℕ) (s : State) : Option State :=
  (acousticLoop E fuel (advectionHead E s)).map advectionTail

/-- The loop `while (integeral_time < D_Time)`, lines 378-432. -/
def advectionLoop (E : Estimators) (D_Time : ℚ) : ℕ → State → Option State
  | 0, s => if s.integeral_time < D_Time then none else some s
  | fuel + 1, s =>
    if s.integeral_time < D_Time then
      (advectionBody E fuel s).bind (advectionLoop E D_Time fuel)
    else some s

/-- Line 434: the body states are written, `writeToFile()` without argument. -/
def outputTail (s : State) : State :=
  { s with trace := s.trace ++ [Call.write_real_body_states_to_vtu none] }

/-- Body of `while (physical_time_ < End_Time)`, lines 376-436. -/
def outputBody (E : Estimators) (D_Time : ℚ) (fuel : ℕ) (s : State) : Option State :=
  (advectionLoop E D_Time fuel { s with integeral_time := 0 }).map outputTail

/-- The main loop `while (physical_time_ < End_Time)`, lines 374-437. -/
def mainLoop (E : Estimators) (End_Time D_Time : ℚ) : ℕ → State → Option State
  | 0, s => if s.physical_time_ < End_Time then none else some s
  | fuel + 1, s =>
    if s.physical_time_ < End_Time then
      (outputBody E D_Time fuel s).bind (mainLoop E End_Time D_Time fuel)
    else some s

/-- The state in which the main loop is entered: lines 268 and 345-368. The loop-local
variables `integeral_time`, `relaxation_time` and `dt_s_sum` are set before they are read. -/
def initialState : State :=
  { physical_time_ := 0
    number_of_iterations := 0
    Dt := 0
    dt := 0
    dt_s := 0
    integeral_time := 0
    relaxation_time := 0
    dt_s_sum := 0
    advection_calls := 0
    acoustic_calls := 0
    solid_calls := 0
    trace :=
      [Call.initializeSystemCellLinkedLists,
       Call.initializeSystemConfigurations,
       Call.wall_initializeNormalDirectionFromGeometry,
       Call.gate_initializeNormalDirectionFromGeometry,
       Call.gate_corrected_configuration_in_strong_form,
       Call.write_real_body_states_to_vtu (some 0),
       Call.write_beam_tip_displacement 0] }

/-- The value of `End_Time`, line 364. -/
def End_Time : ℚ := 1 / 2

/-- The value of `D_Time`, line 365. -/
def D_Time : ℚ := End_Time / 50

/-- The time stepping of `main` with the constants of the source. -/
def main (E : Estimators) (fuel : ℕ) : Option State :=
  mainLoop E End_Time D_Time fuel initialState

end HydrostaticFSI

/-! ### The coupled program in binary64 arithmetic -/

namespace HydrostaticFSI.Double

open SPHinXsys Binary64

/-- The clamp of line 400, `if (dt - dt_s_sum < dt_s) dt_s = dt - dt_s_sum;`, the
difference being rounded. -/
def clamp_dt_s (s : State) : ℚ :=
  if fl (s.dt - s.dt_s_sum) < s.dt_s then fl (s.dt - s.dt_s_sum) else s.dt_s

/-- Body of `while (dt_s_sum < dt)`, lines 400-405; `dt_s_sum += dt_s` rounds. -/
def solidBody (E : Estimators) (s : State) : State :=
  { s with
    dt_s_sum := fl (s.dt_s_sum + clamp_dt_s s)
    dt_s := E.gate_computing_time_step_size s.solid_calls
    solid_calls := s.solid_calls + 1
    trace := s.trace ++ solidCalls (clamp_dt_s s) }

/-- The loop `while (dt_s_sum < dt)`, lines 398-406. -/
def solidLoop (E : Estimators) : ℕ → State → Option State
  | 0, s => if s.dt_s_sum < s.dt then none else some s
  | fuel + 1, s => if s.dt_s_sum < s.dt then solidLoop E fuel (solidBody E s) else some s

/-- Lines 407-410: the averages are updated and each of the three clocks is advanced by
`dt`, every sum rounded on its own. -/
def acousticTail (s : State) : State :=
  { s with
    relaxation_time := fl (s.relaxation_time + s.dt)
    integeral_time := fl (s.integeral_time + s.dt)
    physical_time_ := fl (s.physical_time_ + s.dt)
    trace := s.trace ++ [Call.update_averages s.dt] }

/-- Body of `while (relaxation_time < Dt)`, lines 389-410. Lines 389-397 do no arithmetic
on `Real` values and are those of the exact reading. -/
def acousticBody (E : Estimators) (fuel : ℕ) (s : State) : Option State :=
  (solidLoop E fuel (acousticHead E s)).map acousticTail

/-- The loop `while (relaxation_time < Dt)`, lines 387-411. -/
def acousticLoop (E : Estimators) : ℕ → State → Option State
  | 0, s => if s.relaxation_time < s.Dt then none else some s
  | fuel + 1, s =>
    if s.relaxation_time < s.Dt then (acousticBody E fuel s).bind (acousticLoop E fuel)
    else some s

/-- One acoustic sub-step: a completed pass through `while (relaxation_time < Dt)`. -/
def subStep (E : Estimators) (s t : State) : Prop :=
  ∃ fuel, acousticBody E fuel s = some t

/-- One move inside an output interval: an acoustic sub-step, the start of an advection
interval or the end of one. -/
def intervalStep (E : Estimators) (s t : State) : Prop :=
  subStep E s t ∨ t = advectionHead E s ∨ t = advectionTail s

/-- Body of `while (integeral_time < D_Time)`, lines 380-431. -/
def advectionBody (E : Estimators) (fuel : ℕ) (s : State) : Option State :=
  (acousticLoop E fuel (advectionHead E s)).map advectionTail

/-- The loop `while (integeral_time < D_Time)`, lines 378-432. -/
def advectionLoop (E : Estimators) (D_Time : ℚ) : ℕ → State → Option State
  | 0, s => if s.integeral_time < D_Time then none else some s
  | fuel + 1, s =>
    if s.integeral_time < D_Time then
      (advectionBody E fuel s).bind (advectionLoop E D_Time fuel)
    else some s

/-- Body of `while (physical_time_ < End_Time)`, lines 376-436. -/
def outputBody (E : Estimators) (D_Time : ℚ) (fuel : ℕ) (s : State) : Option State :=
  (advectionLoop E D_Time fuel { s with integeral_time := 0 }).map outputTail

/-- The main loop `while (physical_time_ < End_Time)`, lines 374-437. -/
def mainLoop (E : Estimators) (End_Time D_Time : ℚ) : ℕ → State → Option State
  | 0, s => if s.physical_time_ < End_Time then none else some s
  | fuel + 1, s =>
    if s.physical_time_ < End_Time then
      (outputBody E D_Time fuel s).bind (mainLoop E End_Time D_Time fuel)
    else some s

/-- The value of `End_Time`, line 364: the literal `0.5`. -/
def End_Time : ℚ := fl (1 / 2)

/-- The value of `D_Time`, line 365: the rounded quotient `End_Time / 50.0`. -/
def D_Time : ℚ := fl (End_Time / 50)

/-- The time stepping of `main` with the constants of the source. -/
def main (E : Estimators) (fuel : ℕ) : Option State :=
  mainLoop E End_Time D_Time fuel initialState

end HydrostaticFSI.Double

/-! ## The pure-fluid program `static_confinement.cpp` -/

namespace StaticConfinement

open SPHinXsys

/-- One entry of the call trace of `static_confinement.cpp`, named after the object called. -/
inductive Call
  | initializeSystemCellLinkedLists
  | initializeSystemConfigurations
  | readRestartFiles (restart_step : ℕ)
  | initialize_a_fluid_step
  | get_fluid_advection_time_step_size
  | update_density_by_summation
  | pressure_relaxation (dt : ℚ)
  | density_relaxation (dt : ℚ)
  | get_fluid_time_step_size
  | screen_output (N : ℕ) (time Dt dt : ℚ)
  | write_water_mechanical_energy (time : ℚ)
  | write_recorded_water_pressure (time : ℚ)
  | restart_write (n : ℚ)
  | updateCellLinkedList (b : Body)
  | updateConfiguration (r : Relation)
  | write_body_states (time : ℚ)
  deriving DecidableEq, Repr

/-- The neighbour-rebuild calls: `updateCellLinkedList` and `updateConfiguration`. -/
def Call.isRebuild : Call → Bool
  | .updateCellLinkedList _ => true
  | .updateConfiguration _ => true
  | _ => false

/-- The body relation the called object is constructed on, lines 171-196
(`none` for objects constructed on a body or on the system). -/
def Call.relation : Call → Option Relation
  | .update_density_by_summation => some .water_block_inner
  | .pressure_relaxation _ => some .water_block_inner
  | .density_relaxation _ => some .water_block_inner
  | .write_recorded_water_pressure _ => some .fluid_observer_contact
  | _ => none

/-- The relations created by `static_confinement.cpp`, lines 155-156. -/
def relations : List Relation :=
  [Relation.water_block_inner, Relation.fluid_observer_contact]

/-- The calls of `pressure_relaxation`. -/
def Call.isPressureRelaxation : Call → Bool
  | .pressure_relaxation _ => true
  | _ => false

/-- The calls of `density_relaxation`. -/
def Call.isDensityRelaxation : Call → Bool
  | .density_relaxation _ => true
  | _ => false

/-- The calls of the body-state recorder `write_body_states`. -/
def Call.isBodyStates : Call → Bool
  | .write_body_states _ => true
  | _ => false

/-- The recorders of `static_confinement.cpp`, lines 189-196. -/
inductive Recorder
  | write_body_states
  | write_water_mechanical_energy
  | write_recorded_water_pressure
  | restart_write
  deriving DecidableEq, Repr

/-- The argument a call passes to a recorder: the time or iteration number given to
`WriteToFile`. -/
def Call.arg : Recorder → Call → Option ℚ
  | .write_body_states, .write_body_states t => some t
  | .write_water_mechanical_energy, .write_water_mechanical_energy t => some t
  | .write_recorded_water_pressure, .write_recorded_water_pressure t => some t
  | .restart_write, .restart_write n => some n
  | _, _ => none

/-- The arguments passed to a recorder, in the order of the calls of a trace. -/
def recorded (r : Recorder) (trace : List Call) : List ℚ :=
  trace.filterMap (Call.arg r)

/-- The console lines of lines 267-269. -/
def Call.isScreenOutput : Call → Bool
  | .screen_output _ _ _ _ => true
  | _ => false

/-- The calls of the mechanical-energy recorder `write_water_mechanical_energy`. -/
def Call.isMechanicalEnergy : Call → Bool
  | .write_water_mechanical_energy _ => true
  | _ => false

/-- The calls of the observed-pressure recorder `write_recorded_water_pressure`. -/
def Call.isRecordedPressure : Call → Bool
  | .write_recorded_water_pressure _ => true
  | _ => false

/-- The calls of the restart writer, line 276. -/
def Call.isRestartWrite : Call → Bool
  | .restart_write _ => true
  | _ => false

/-- The two step-size estimators as oracles: the value of the `k`-th call. -/
structure Estimators where
  get_fluid_advection_time_step_size : ℕ → ℚ
  get_fluid_time_step_size : ℕ → ℚ

/-- The variables of `main` that the time-stepping loops read or write, the number of
estimator calls made so far, and the call trace. -/
structure State where
  physical_time_ : ℚ
  number_of_iterations : ℕ
  Dt : ℚ
  dt : ℚ
  integration_time : ℚ
  relaxation_time : ℚ
  advection_calls : ℕ
  acoustic_calls : ℕ
  trace : List Call
  deriving DecidableEq, Repr

/-- The clock a recorder argument is taken from: `number_of_iterations` for the restart
writer, `physical_time_` for the others. -/
def Recorder.clock : Recorder → State → ℚ
  | .restart_write, s => s.number_of_iterations
  | _, s => s.physical_time_

/-- Body of `while (relaxation_time < Dt)`, lines 256-261: the two relaxations run with the
value `dt` has on entry, then `dt` is re-estimated and the three clocks advance by it, in
the exact reading (`Double.acousticBody` rounds the three sums). -/
def acousticBody (E : Estimators) (s : State) : State :=
  let dt := E.get_fluid_time_step_size s.acoustic_calls
  { s with
    dt := dt
    acoustic_calls := s.acoustic_calls + 1
    relaxation_time := s.relaxation_time + dt
    integration_time := s.integration_time + dt
    physical_time_ := s.physical_time_ + dt
    trace := s.trace ++
      [Call.pressure_relaxation s.dt,
       Call.density_relaxation s.dt,
       Call.get_fluid_time_step_size] }

/-- The loop `while (relaxation_time < Dt)`, lines 254-262. -/
def acousticLoop (E : Estimators) : ℕ → State → Option State
  | 0, s => if s.relaxation_time < s.Dt then none else some s
  | fuel + 1, s =>
    if s.relaxation_time < s.Dt then acousticLoop E fuel (acousticBody E s) else some s

/-- Lines 246-253: start of an advection interval. -/
def advectionHead (E : Estimators) (s : State) : State :=
  { s with
    Dt := E.get_fluid_advection_time_step_size s.advection_calls
    advection_calls := s.advection_calls + 1
    relaxation_time := 0
    trace := s.trace ++
      [Call.initialize_a_fluid_step,
       Call.get_fluid_advection_time_step_size,
       Call.update_density_by_summation] }

/-- The value of `screen_output_interval`, line 220. -/
def screen_output_interval : ℕ := 100

/-- The value of `observation_sample_interval`, line 221. -/
def observation_sample_interval : ℕ := screen_output_interval * 2

/-- The value of `restart_output_interval`, line 222. -/
def restart_output_interval : ℕ := screen_output_interval * 10

/-- Lines 265-277: the console line and the recorders nested in its `if`. -/
def iterationOutput (s : State) : List Call :=
  if s.number_of_iterations % screen_output_interval = 0 then
    [Call.screen_output s.number_of_iterations s.physical_time_ s.Dt s.dt] ++
    (if s.number_of_iterations % observation_sample_interval = 0 then
      [Call.write_water_mechanical_energy s.physical_time_,
       Call.write_recorded_water_pressure s.physical_time_]
     else []) ++
    (if s.number_of_iterations % restart_output_interval = 0 then
      [Call.restart_write s.number_of_iterations]
     else [])
  else []

/-- Lines 282-284: the neighbour rebuild at the end of an advection interval. -/
def rebuild : List Call :=
  [Call.updateCellLinkedList Body.water_block,
   Call.updateConfiguration Relation.water_block_inner,
   Call.updateConfiguration Relation.fluid_observer_contact]

/-- Lines 265-285: end of an advection interval. -/
def advectionTail (s : State) : State :=
  { s with
    number_of_iterations := s.number_of_iterations + 1
    trace := s.trace ++ iterationOutput s ++ rebuild }

/-- One acoustic sub-step: a pass through `while (relaxation_time < Dt)`. -/
def subStep (E : Estimators) (s t : State) : Prop :=
  t = acousticBody E s

/-- One move inside an output interval: an acoustic sub-step, the start of an advection
interval or the end of one. -/
def intervalStep (E : Estimators) (s t : State) : Prop :=
  subStep E s t ∨ t = advectionHead E s ∨ t = advectionTail s

/-- Body of `while (integration_time < D_Time)`, lines 244-285. -/
def advectionBody (E : Estimators) (fuel : ℕ) (s : State) : Option State :=
  (acousticLoop E fuel (advectionHead E s)).map advectionTail

/-- The loop `while (integration_time < D_Time)`, lines 242-286. -/
def advectionLoop (E : Estimators) (D_Time : ℚ) : ℕ → State → Option State
  | 0, s => if s.integration_time < D_Time then none else some s
  | fuel + 1, s =>
    if s.integration_time < D_Time then
      (advectionBody E fuel s).bind (advectionLoop E D_Time fuel)
    else some s

/-- Line 289: the body states are written with the current time. -/
def outputTail (s : State) : State :=
  { s with trace := s.trace ++ [Call.write_body_states s.physical_time_] }

/-- Body of `while (physical_time_ < End_Time)`, lines 240-291. -/
def outputBody (E : Estimators) (D_Time : ℚ) (fuel : ℕ) (s : State) : Option State :=
  (advectionLoop E D_Time fuel { s with integration_time := 0 }).map outputTail

/-- The main loop `while (physical_time_ < End_Time)`, lines 238-292. -/
def mainLoop (E : Estimators) (End_Time D_Time : ℚ) : ℕ → State → Option State
  | 0, s => if s.physical_time_ < End_Time then none else some s
  | fuel + 1, s =>
    if s.physical_time_ < End_Time then
      (outputBody E D_Time fuel s).bind (mainLoop E End_Time D_Time fuel)
    else some s

/-- Lines 207-209: the restart branch, taken when `restart_step_ != 0`. -/
def restartRebuild : List Call :=
  [Call.updateCellLinkedList Body.water_block,
   Call.updateConfiguration Relation.water_block_inner]

/-- The starting time: line 138, overwritten at line 207 on a restart. -/
def startTime (restart_step_ : ℕ) (readRestartFiles : ℕ → ℚ) : ℚ :=
  if restart_step_ ≠ 0 then readRestartFiles restart_step_ else 0

/-- The state in which the main loop is entered, lines 138-226. The source sets the tag
`restart_step_` to `0` at line 140; it is a parameter here, as is the time that
`readRestartFiles` returns for a restart step. The loop-local variables `integration_time`
and `relaxation_time` are set before they are read. -/
def initialState (restart_step_ : ℕ) (readRestartFiles : ℕ → ℚ) : State :=
  { physical_time_ := startTime restart_step_ readRestartFiles
    number_of_iterations := restart_step_
    Dt := 0
    dt := 0
    integration_time := 0
    relaxation_time := 0
    advection_calls := 0
    acoustic_calls := 0
    trace :=
      [Call.initializeSystemCellLinkedLists, Call.initializeSystemConfigurations] ++
      (if restart_step_ ≠ 0 then Call.readRestartFiles restart_step_ :: restartRebuild
       else []) ++
      [Call.write_body_states (startTime restart_step_ readRestartFiles),
       Call.write_water_mechanical_energy (startTime restart_step_ readRestartFiles)] }

/-- The value of `End_Time`, line 223. -/
def End_Time : ℚ := 20

/-- The value of `D_Time`, line 224. -/
def D_Time : ℚ := 1 / 10

/-- The time stepping of `main` with the constants of the source. -/
def main (E : Estimators) (restart_step_ : ℕ) (readRestartFiles : ℕ → ℚ) (fuel : ℕ) :
    Option State :=
  mainLoop E End_Time D_Time fuel (initialState restart_step_ readRestartFiles)

end StaticConfinement

/-! ### The pure-fluid program in binary64 arithmetic -/

namespace StaticConfinement.Double

open SPHinXsys Binary64

/-- Body of `while (relaxation_time < Dt)`, lines 256-261: the two relaxations run with the
value `dt` has on entry, then `dt` is re-estimated and each of the three clocks is advanced
by it, every sum rounded on its own. -/
def acousticBody (E : Estimators) (s : State) : State :=
  let dt := E.get_fluid_time_step_size s.acoustic_calls
  { s with
    dt := dt
    acoustic_calls := s.acoustic_calls + 1
    relaxation_time := fl (s.relaxation_time + dt)
    integration_time := fl (s.integration_time + dt)
    physical_time_ := fl (s.physical_time_ + dt)
    trace := s.trace ++
      [Call.pressure_relaxation s.dt,
       Call.density_relaxation s.dt,
       Call.get_fluid_time_step_size] }

/-- The loop `while (relaxation_time < Dt)`, lines 254-262. -/
def acousticLoop (E : Estimators) : ℕ → State → Option State
  | 0, s => if s.relaxation_time < s.Dt then none else some s
  | fuel + 1, s =>
    if s.relaxation_time < s.Dt then acousticLoop E fuel (acousticBody E s) else some s

/-- The acoustic step sizes of a stretch of a run, in order: the values the estimator
returned at line 258 in its calls number `a` to `b - 1`. -/
def acousticSteps (E : Estimators) (a b : ℕ) : List ℚ :=
  (List.range' a (b - a)).map E.get_fluid_time_step_size

/-- Lines 265-277: the console line and the recorders nested in its `if`; the conversion
`Real(number_of_iterations)` of line 276 rounds. -/
def iterationOutput (s : State) : List Call :=
  if s.number_of_iterations % screen_output_interval = 0 then
    [Call.screen_output s.number_of_iterations s.physical_time_ s.Dt s.dt] ++
    (if s.number_of_iterations % observation_sample_interval = 0 then
      [Call.write_water_mechanical_energy s.physical_time_,
       Call.write_recorded_water_pressure s.physical_time_]
     else []) ++
    (if s.number_of_iterations % restart_output_interval = 0 then
      [Call.restart_write (fl s.number_of_iterations)]
     else [])
  else []

/-- Lines 265-285: end of an advection interval. -/
def advectionTail (s : State) : State :=
  { s with
    number_of_iterations := s.number_of_iterations + 1
    trace := s.trace ++ iterationOutput s ++ rebuild }

/-- One acoustic sub-step: a pass through `while (relaxation_time < Dt)`. -/
def subStep (E : Estimators) (s t : State) : Prop :=
  t = acousticBody E s

/-- One move inside an output interval: an acoustic sub-step, the start of an advection
interval or the end of one. -/
def intervalStep (E : Estimators) (s t : State) : Prop :=
  subStep E s t ∨ t = advectionHead E s ∨ t = advectionTail s

/-- Body of `while (integration_time < D_Time)`, lines 244-285. -/
def advectionBody (E : Estimators) (fuel : ℕ) (s : State) : Option State :=
  (acousticLoop E fuel (advectionHead E s)).map advectionTail

/-- The loop `while (integration_time < D_Time)`, lines 242-286. -/
def advectionLoop (E : Estimators) (D_Time : ℚ) : ℕ → State → Option State
  | 0, s => if s.integration_time < D_Time then none else some s
  | fuel + 1, s =>
    if s.integration_time < D_Time then
      (advectionBody E fuel s).bind (advectionLoop E D_Time fuel)
    else some s

/-- Body of `while (physical_time_ < End_Time)`, lines 240-291. -/
def outputBody (E : Estimators) (D_Time : ℚ) (fuel : ℕ) (s : State) : Option State :=
  (advectionLoop E D_Time fuel { s with integration_time := 0 }).map outputTail

/-- The main loop `while (physical_time_ < End_Time)`, lines 238-292. -/
def mainLoop (E : Estimators) (End_Time D_Time : ℚ) : ℕ → State → Option State
  | 0, s => if s.physical_time_ < End_Time then none else some s
  | fuel + 1, s =>
    if s.physical_time_ < End_Time then
      (outputBody E D_Time fuel s).bind (mainLoop E End_Time D_Time fuel)
    else some s

/-- The value of `End_Time`, line 223: the literal `20.0`. -/
def End_Time : ℚ := fl 20

/-- The value of `D_Time`, line 224: the literal `0.1`, rounded to binary64. -/
def D_Time : ℚ := fl (1 / 10)

/-- The time stepping of `main` with the constants of the source. -/
def main (E : Estimators) (restart_step_ : ℕ) (readRestartFiles : ℕ → ℚ) (fuel : ℕ) :
    Option State :=
  mainLoop E End_Time D_Time fuel (initialState restart_step_ readRestartFiles)

end StaticConfinement.Double

/-! ## Concrete inputs used to evaluate the programs -/

/-- An estimator that returns `first` at its first `n` calls and `rest` afterwards. -/
def switchAt (n : ℕ) (first rest : ℚ) : ℕ → ℚ :=
  fun k => if k < n then first else rest

/-- Estimators of the coupled program with constant advection and solid values and a fluid
acoustic estimator that returns `first` at its first `n` calls and `rest` afterwards. -/
def switchFSI (adv : ℚ) (n : ℕ) (first rest sol : ℚ) : HydrostaticFSI.Estimators :=
  ⟨fun _ => adv, switchAt n first rest, fun _ => sol⟩

/-- Estimators of the coupled program with constant advection and fluid acoustic values and
a solid estimator that returns `first` at its first `n` calls and `rest` afterwards. -/
def switchSolidFSI (adv ac : ℚ) (n : ℕ) (first rest : ℚ) : HydrostaticFSI.Estimators :=
  ⟨fun _ => adv, fun _ => ac, switchAt n first rest⟩

/-- Estimators of the pure-fluid program with a constant advection value and an acoustic
estimator that returns `first` at its first `n` calls and `rest` afterwards. -/
def switchFluid (adv : ℚ) (n : ℕ) (first rest : ℚ) : StaticConfinement.Estimators :=
  ⟨fun _ => adv, switchAt n first rest⟩

/-- The coupled program at the start of the first solid sub-cycle of a run: the state after
lines 381-397 of the first acoustic sub-step. -/
def firstSolidCycleFSI (E : HydrostaticFSI.Estimators) : HydrostaticFSI.State :=
  HydrostaticFSI.acousticHead E (HydrostaticFSI.advectionHead E HydrostaticFSI.initialState)

/-- Estimators of the coupled program that return the same value at every call. -/
def constFSI (adv ac sol : ℚ) : HydrostaticFSI.Estimators :=
  ⟨fun _ => adv, fun _ => ac, fun _ => sol⟩

/-- Estimators of the pure-fluid program that return the same value at every call. -/
def constFluid (adv ac : ℚ) : StaticConfinement.Estimators :=
  ⟨fun _ => adv, fun _ => ac⟩

/-- The coupled program at the start of its first advection interval, for constant
estimator values. -/
def firstAdvectionFSI (adv ac sol : ℚ) : HydrostaticFSI.State :=
  HydrostaticFSI.advectionHead (constFSI adv ac sol) HydrostaticFSI.initialState

/-- The pure-fluid program at the start of its first advection interval, without restart,
for constant estimator values. -/
def firstAdvectionFluid (adv ac : ℚ) : StaticConfinement.State :=
  StaticConfinement.advectionHead (constFluid adv ac)
    (StaticConfinement.initialState 0 (fun _ => 0))

/-! ## Facts about binary64 rounding -/

namespace Binary64

/-! ### Rounding to an integer -/

theorem roundEven_intCast (n : ℤ) : roundEven (n : ℚ) = n := by
  simp [roundEven]

theorem roundEven_cases (q : ℚ) : roundEven q = ⌊q⌋ ∨ roundEven q = ⌊q⌋ + 1 := by
  unfold roundEven
  split_ifs <;> simp

theorem roundEven_mono {a b : ℚ} (h : a ≤ b) : roundEven a ≤ roundEven b := by
  have hfl : ⌊a⌋ ≤ ⌊b⌋ := Int.floor_mono h
  rcases lt_or_eq_of_le hfl with hlt | heq
  · rcases roundEven_cases a with ha | ha <;> rcases roundEven_cases b with hb | hb <;> omega
  · have hfr : Int.fract a ≤ Int.fract b := by
      have ha := Int.floor_add_fract a
      have hb := Int.floor_add_fract b
      have : (⌊a⌋ : ℚ) = ⌊b⌋ := by rw [heq]
      linarith
    unfold roundEven
    rw [heq]
    split_ifs <;> first | omega | linarith

theorem abs_roundEven_sub_le (q : ℚ) : |(roundEven q : ℚ) - q| ≤ 1 / 2 := by
  have h0 := Int.floor_add_fract q
  have h1 := Int.fract_nonneg q
  have h2 := Int.fract_lt_one q
  rw [abs_le]
  unfold roundEven
  split_ifs <;> push_cast <;> constructor <;> linarith

/-! ### The exponent -/

theorem log2Fuel_spec : ∀ (fuel n : ℕ), n ≠ 0 → n ≤ fuel →
    2 ^ log2Fuel fuel n ≤ n ∧ n < 2 ^ (log2Fuel fuel n + 1) := by
  intro fuel
  induction fuel with
  | zero => intro n h0 h; omega
  | succ f ih =>
    intro n h0 h
    unfold log2Fuel
    split_ifs with h2
    · obtain ⟨h3, h4⟩ := ih (n / 2) (by omega) (by omega)
      rw [pow_succ, pow_succ]
      constructor <;> omega
    · simp; omega

theorem exponent_spec {x : ℚ} (hx : x ≠ 0) :
    (2 : ℚ) ^ exponent x ≤ |x| ∧ |x| < (2 : ℚ) ^ (exponent x + 1) := by
  have hn0 : x.num.natAbs ≠ 0 := by simpa using Rat.num_ne_zero.mpr hx
  obtain ⟨hN1, hN2⟩ := log2Fuel_spec x.num.natAbs x.num.natAbs hn0 le_rfl
  obtain ⟨hD1, hD2⟩ := log2Fuel_spec x.den x.den x.den_ne_zero le_rfl
  set N := log2Fuel x.num.natAbs x.num.natAbs
  set D := log2Fuel x.den x.den
  have habs : |x| = (x.num.natAbs : ℚ) / (x.den : ℚ) := by
    conv_lhs => rw [← Rat.num_div_den x]
    rw [abs_div, Nat.cast_natAbs, Int.cast_abs]
    congr 1
    exact abs_of_pos (by exact_mod_cast x.den_pos)
  have hd : (0 : ℚ) < x.den := by exact_mod_cast x.den_pos
  have hN1q : (2 : ℚ) ^ N ≤ x.num.natAbs := by exact_mod_cast hN1
  have hN2q : (x.num.natAbs : ℚ) < 2 ^ (N + 1) := by exact_mod_cast hN2
  have hD1q : (2 : ℚ) ^ D ≤ x.den := by exact_mod_cast hD1
  have hD2q : (x.den : ℚ) < 2 ^ (D + 1) := by exact_mod_cast hD2
  have e1 : (2 : ℚ) ^ ((N : ℤ) - (D : ℤ) + 1) = 2 ^ (N + 1) / 2 ^ D := by
    rw [show (N : ℤ) - (D : ℤ) + 1 = ((N + 1 : ℕ) : ℤ) - (D : ℤ) by push_cast; ring,
      zpow_sub₀ (by norm_num), zpow_natCast, zpow_natCast]
  have e2 : (2 : ℚ) ^ ((N : ℤ) - (D : ℤ) - 1) = 2 ^ N / 2 ^ (D + 1) := by
    rw [show (N : ℤ) - (D : ℤ) - 1 = (N : ℤ) - ((D + 1 : ℕ) : ℤ) by push_cast; ring,
      zpow_sub₀ (by norm_num), zpow_natCast, zpow_natCast]
  have hpD : (0 : ℚ) < 2 ^ D := by positivity
  have hpD1 : (0 : ℚ) < 2 ^ (D + 1) := by positivity
  unfold exponent
  split_ifs with hc
  · refine ⟨hc, ?_⟩
    rw [e1, habs, div_lt_div_iff₀ hd hpD]
    calc (x.num.natAbs : ℚ) * 2 ^ D ≤ x.num.natAbs * x.den :=
          mul_le_mul_of_nonneg_left hD1q (Nat.cast_nonneg _)
      _ < 2 ^ (N + 1) * x.den := mul_lt_mul_of_pos_right hN2q hd
  · refine ⟨?_, ?_⟩
    · rw [e2, habs, div_le_div_iff₀ hpD1 hd]
      calc (2 : ℚ) ^ N * x.den ≤ 2 ^ N * 2 ^ (D + 1) :=
            mul_le_mul_of_nonneg_left hD2q.le (by positivity)
        _ ≤ x.num.natAbs * 2 ^ (D + 1) := mul_le_mul_of_nonneg_right hN1q (by positivity)
    · rw [sub_add_cancel]
      exact not_le.mp hc

theorem exponent_unique {x : ℚ} {e : ℤ} (h1 : (2 : ℚ) ^ e ≤ |x|) (h2 : |x| < (2 : ℚ) ^ (e + 1)) :
    exponent x = e := by
  have hx : x ≠ 0 := by
    rintro rfl
    have : (0 : ℚ) < 2 ^ e := by positivity
    simp at h1
    linarith
  obtain ⟨h3, h4⟩ := exponent_spec hx
  have a : exponent x < e + 1 :=
    (zpow_lt_zpow_iff_right₀ (by norm_num : (1 : ℚ) < 2)).mp (lt_of_le_of_lt h3 h2)
  have b : e < exponent x + 1 :=
    (zpow_lt_zpow_iff_right₀ (by norm_num : (1 : ℚ) < 2)).mp (lt_of_le_of_lt h1 h4)
  omega

theorem exponent_neg (x : ℚ) : exponent (-x) = exponent x := by
  simp [exponent]

theorem exponent_mono {x y : ℚ} (hx : 0 < x) (hxy : x ≤ y) : exponent x ≤ exponent y := by
  have hy : 0 < y := lt_of_lt_of_le hx hxy
  obtain ⟨h1, _⟩ := exponent_spec hx.ne'
  obtain ⟨_, h4⟩ := exponent_spec hy.ne'
  rw [abs_of_pos hx] at h1
  rw [abs_of_pos hy] at h4
  have : exponent x < exponent y + 1 :=
    (zpow_lt_zpow_iff_right₀ (by norm_num : (1 : ℚ) < 2)).mp
      (lt_of_le_of_lt h1 (lt_of_le_of_lt hxy h4))
  omega

/-! ### The spacing -/

theorem emin_le_binade (x : ℚ) : emin ≤ binade x := le_max_right _ _

theorem binade_neg (x : ℚ) : binade (-x) = binade x := by
  simp [binade, exponent_neg]

theorem binade_mono {x y : ℚ} (hx : 0 < x) (hxy : x ≤ y) : binade x ≤ binade y :=
  max_le_max (exponent_mono hx hxy) le_rfl

theorem ulp_pos (x : ℚ) : 0 < ulp x := by
  unfold ulp
  positivity

theorem ulp_neg (x : ℚ) : ulp (-x) = ulp x := by
  simp [ulp, binade_neg]

theorem ulp_mono {x y : ℚ} (hx : 0 < x) (hxy : x ≤ y) : ulp x ≤ ulp y := by
  unfold ulp
  exact zpow_le_zpow_right₀ (by norm_num) (by linarith [binade_mono hx hxy])

theorem two_pow_53_mul_ulp (x : ℚ) : (2 : ℚ) ^ (53 : ℕ) * ulp x = 2 ^ (binade x + 1) := by
  unfold ulp
  rw [← zpow_natCast, ← zpow_add₀ (by norm_num)]
  congr 1
  push_cast
  ring

theorem two_pow_52_mul_ulp (x : ℚ) : (2 : ℚ) ^ (52 : ℕ) * ulp x = 2 ^ binade x := by
  unfold ulp
  rw [← zpow_natCast, ← zpow_add₀ (by norm_num)]
  congr 1
  push_cast
  ring

theorem lt_two_pow_binade {x : ℚ} (hx : 0 < x) : x < (2 : ℚ) ^ (binade x + 1) := by
  obtain ⟨_, h⟩ := exponent_spec hx.ne'
  rw [abs_of_pos hx] at h
  have hle : exponent x + 1 ≤ binade x + 1 := by
    have := le_max_left (exponent x) emin
    unfold binade
    omega
  exact lt_of_lt_of_le h (zpow_le_zpow_right₀ (by norm_num) hle)

theorem binade_eq {x : ℚ} {b : ℤ} (hx : 0 < x) (hb : emin ≤ b)
    (h1 : (2 : ℚ) ^ b ≤ x ∨ b = emin) (h2 : x < (2 : ℚ) ^ (b + 1)) : binade x = b := by
  obtain ⟨h3, _⟩ := exponent_spec hx.ne'
  rw [abs_of_pos hx] at h3
  have hle : exponent x ≤ b := by
    have : exponent x < b + 1 :=
      (zpow_lt_zpow_iff_right₀ (by norm_num : (1 : ℚ) < 2)).mp (lt_of_le_of_lt h3 h2)
    omega
  rcases h1 with h1 | h1
  · have : exponent x = b := exponent_unique (by rwa [abs_of_pos hx]) (by rwa [abs_of_pos hx])
    unfold binade
    rw [this]
    exact max_eq_left hb
  · unfold binade
    rw [h1] at hle ⊢
    exact max_eq_right hle

/-! ### Rounding of non-negative numbers -/

theorem flAbs_zero : flAbs 0 = 0 := by
  simp [flAbs, roundEven]

theorem roundEven_nonneg {q : ℚ} (h : 0 ≤ q) : 0 ≤ roundEven q := by
  have := roundEven_mono h
  rwa [show ((0 : ℚ)) = ((0 : ℤ) : ℚ) by norm_num, roundEven_intCast] at this

theorem flAbs_nonneg {x : ℚ} (hx : 0 ≤ x) : 0 ≤ flAbs x := by
  unfold flAbs
  exact mul_nonneg (by exact_mod_cast roundEven_nonneg (div_nonneg hx (ulp_pos x).le))
    (ulp_pos x).le

theorem cast_two_pow_53 : (((2 : ℤ) ^ (53 : ℕ) : ℤ) : ℚ) = (2 : ℚ) ^ (53 : ℕ) := by
  norm_num

theorem cast_two_pow_52 : (((2 : ℤ) ^ (52 : ℕ) : ℤ) : ℚ) = (2 : ℚ) ^ (52 : ℕ) := by
  norm_num

theorem roundEven_div_ulp_le {x : ℚ} (hx : 0 < x) : roundEven (x / ulp x) ≤ 2 ^ (53 : ℕ) := by
  have h : x / ulp x ≤ (((2 : ℤ) ^ (53 : ℕ) : ℤ) : ℚ) := by
    rw [div_le_iff₀ (ulp_pos x), cast_two_pow_53, two_pow_53_mul_ulp]
    exact (lt_two_pow_binade hx).le
  have := roundEven_mono h
  rwa [roundEven_intCast] at this

theorem le_roundEven_div_ulp {x : ℚ} (hx : 0 < x) (he : emin ≤ exponent x) :
    2 ^ (52 : ℕ) ≤ roundEven (x / ulp x) := by
  have hb : binade x = exponent x := max_eq_left he
  have h : (((2 : ℤ) ^ (52 : ℕ) : ℤ) : ℚ) ≤ x / ulp x := by
    rw [le_div_iff₀ (ulp_pos x), cast_two_pow_52, two_pow_52_mul_ulp, hb]
    have := (exponent_spec hx.ne').1
    rwa [abs_of_pos hx] at this
  have := roundEven_mono h
  rwa [roundEven_intCast] at this

theorem flAbs_le {x : ℚ} (hx : 0 < x) : flAbs x ≤ (2 : ℚ) ^ (binade x + 1) := by
  unfold flAbs
  rw [← two_pow_53_mul_ulp]
  exact mul_le_mul_of_nonneg_right (by exact_mod_cast roundEven_div_ulp_le hx) (ulp_pos x).le

theorem le_flAbs {x : ℚ} (hx : 0 < x) (he : emin ≤ exponent x) :
    (2 : ℚ) ^ binade x ≤ flAbs x := by
  unfold flAbs
  rw [← two_pow_52_mul_ulp]
  exact mul_le_mul_of_nonneg_right (by exact_mod_cast le_roundEven_div_ulp hx he) (ulp_pos x).le

theorem flAbs_mono {x y : ℚ} (hx : 0 ≤ x) (hxy : x ≤ y) : flAbs x ≤ flAbs y := by
  rcases eq_or_lt_of_le hx with rfl | hx
  · rw [flAbs_zero]
    exact flAbs_nonneg hxy
  have hy : 0 < y := lt_of_lt_of_le hx hxy
  rcases eq_or_lt_of_le (binade_mono hx hxy) with hb | hb
  · have hu : ulp x = ulp y := by unfold ulp; rw [hb]
    unfold flAbs
    rw [hu]
    refine mul_le_mul_of_nonneg_right ?_ (ulp_pos y).le
    exact_mod_cast roundEven_mono (div_le_div_of_nonneg_right hxy (ulp_pos y).le)
  · have he : emin ≤ exponent y := by
      by_contra hcon
      have : binade y = emin := max_eq_right (by omega)
      have := emin_le_binade x
      omega
    calc flAbs x ≤ (2 : ℚ) ^ (binade x + 1) := flAbs_le hx
      _ ≤ (2 : ℚ) ^ binade y := zpow_le_zpow_right₀ (by norm_num) (by omega)
      _ ≤ flAbs y := le_flAbs hy he

/-! ### Rounding -/

theorem fl_zero : fl 0 = 0 := by
  simp [fl, flAbs_zero]

theorem fl_of_nonneg {x : ℚ} (hx : 0 ≤ x) : fl x = flAbs x := by
  simp [fl, hx]

theorem fl_neg (x : ℚ) : fl (-x) = -fl x := by
  rcases lt_trichotomy x 0 with h | rfl | h
  · have h1 : 0 ≤ -x := by linarith
    have h2 : ¬ 0 ≤ x := by linarith
    simp [fl, h1, h2]
  · simp [fl_zero]
  · have h1 : ¬ 0 ≤ -x := by linarith
    have h2 : 0 ≤ x := h.le
    simp [fl, h1, h2]

theorem fl_nonneg {x : ℚ} (hx : 0 ≤ x) : 0 ≤ fl x := by
  rw [fl_of_nonneg hx]
  exact flAbs_nonneg hx

theorem fl_mono {x y : ℚ} (hxy : x ≤ y) : fl x ≤ fl y := by
  rcases le_or_lt 0 x with hx | hx
  · rw [fl_of_nonneg hx, fl_of_nonneg (hx.trans hxy)]
    exact flAbs_mono hx hxy
  · rcases le_or_lt 0 y with hy | hy
    · have h1 : fl x ≤ 0 := by
        have := fl_nonneg (show 0 ≤ -x by linarith)
        rw [fl_neg] at this
        linarith
      exact h1.trans (fl_nonneg hy)
    · have := flAbs_mono (show 0 ≤ -y by linarith) (show -y ≤ -x by linarith)
      have h1 : ¬ 0 ≤ x := by linarith
      have h2 : ¬ 0 ≤ y := by linarith
      simp only [fl, h1, h2, if_false]
      linarith

/-- The binary64 numbers: an integer significand of at most 53 bits times a power of two,
the significand having its full 53 bits unless the exponent is the smallest one. -/
theorem fl_repr (k b : ℤ) (hk0 : 0 ≤ k) (hk : k ≤ 2 ^ (53 : ℕ)) (hb : emin ≤ b)
    (h : 2 ^ (52 : ℕ) ≤ k ∨ b = emin) :
    fl ((k : ℚ) * (2 : ℚ) ^ (b - 52)) = (k : ℚ) * (2 : ℚ) ^ (b - 52) := by
  have hu : (0 : ℚ) < (2 : ℚ) ^ (b - 52) := by positivity
  rcases eq_or_lt_of_le hk0 with rfl | hkpos
  · simp [fl_zero]
  have hkq : (0 : ℚ) < k := by exact_mod_cast hkpos
  have hr : (0 : ℚ) < (k : ℚ) * (2 : ℚ) ^ (b - 52) := mul_pos hkq hu
  rw [fl_of_nonneg hr.le]
  have e53 : (2 : ℚ) ^ (53 : ℕ) * (2 : ℚ) ^ (b - 52) = 2 ^ (b + 1) := by
    rw [← zpow_natCast, ← zpow_add₀ (by norm_num)]
    congr 1; push_cast; ring
  have e52 : (2 : ℚ) ^ (52 : ℕ) * (2 : ℚ) ^ (b - 52) = 2 ^ b := by
    rw [← zpow_natCast, ← zpow_add₀ (by norm_num)]
    congr 1; push_cast; ring
  rcases eq_or_lt_of_le hk with rfl | hklt
  · have hval : (((2 : ℤ) ^ (53 : ℕ) : ℤ) : ℚ) * (2 : ℚ) ^ (b - 52) = 2 ^ (b + 1) := by
      rw [cast_two_pow_53]; exact e53
    rw [hval]
    have hbin : binade ((2 : ℚ) ^ (b + 1)) = b + 1 :=
      binade_eq (by positivity) (by omega) (Or.inl le_rfl)
        (zpow_lt_zpow_right₀ (by norm_num) (by omega))
    have hulp : ulp ((2 : ℚ) ^ (b + 1)) = 2 ^ (b + 1 - 52) := by unfold ulp; rw [hbin]
    unfold flAbs
    rw [hulp]
    have hq : (2 : ℚ) ^ (b + 1) / 2 ^ (b + 1 - 52) = (((2 : ℤ) ^ (52 : ℕ) : ℤ) : ℚ) := by
      rw [← zpow_sub₀ (by norm_num), cast_two_pow_52, ← zpow_natCast]
      congr 1; push_cast; ring
    rw [hq, roundEven_intCast, cast_two_pow_52, ← zpow_natCast, ← zpow_add₀ (by norm_num)]
    congr 1; push_cast; ring
  · have hlt : (k : ℚ) * (2 : ℚ) ^ (b - 52) < 2 ^ (b + 1) := by
      rw [← e53]
      exact mul_lt_mul_of_pos_right (by exact_mod_cast hklt) hu
    have hbin : binade ((k : ℚ) * (2 : ℚ) ^ (b - 52)) = b := by
      refine binade_eq hr hb ?_ hlt
      rcases h with h | h
      · left
        rw [← e52]
        exact mul_le_mul_of_nonneg_right (by exact_mod_cast h) hu.le
      · exact Or.inr h
    have hulp : ulp ((k : ℚ) * (2 : ℚ) ^ (b - 52)) = 2 ^ (b - 52) := by unfold ulp; rw [hbin]
    unfold flAbs
    rw [hulp, mul_div_assoc, div_self hu.ne', mul_one, roundEven_intCast]

/-- What rounding a positive number returns: its significand and exponent. -/
theorem flAbs_repr {x : ℚ} (hx : 0 < x) :
    flAbs x = (roundEven (x / ulp x) : ℚ) * (2 : ℚ) ^ (binade x - 52) ∧
    0 ≤ roundEven (x / ulp x) ∧ roundEven (x / ulp x) ≤ 2 ^ (53 : ℕ) ∧
    (2 ^ (52 : ℕ) ≤ roundEven (x / ulp x) ∨ binade x = emin) := by
  refine ⟨rfl, roundEven_nonneg (div_nonneg hx.le (ulp_pos x).le), roundEven_div_ulp_le hx, ?_⟩
  by_cases he : emin ≤ exponent x
  · exact Or.inl (le_roundEven_div_ulp hx he)
  · exact Or.inr (max_eq_right (by omega))

theorem fl_fl (x : ℚ) : fl (fl x) = fl x := by
  have key : ∀ y : ℚ, 0 < y → fl (flAbs y) = flAbs y := by
    intro y hy
    obtain ⟨h1, h2, h3, h4⟩ := flAbs_repr hy
    rw [h1]
    exact fl_repr _ _ h2 h3 (emin_le_binade y) h4
  rcases lt_trichotomy x 0 with h | rfl | h
  · have h2 : ¬ 0 ≤ x := by linarith
    have : fl x = -flAbs (-x) := by simp [fl, h2]
    rw [this, fl_neg, key (-x) (by linarith)]
  · simp [fl_zero]
  · rw [fl_of_nonneg h.le, key x h]

theorem isDouble_fl (x : ℚ) : IsDouble (fl x) := fl_fl x

theorem isDouble_zero : IsDouble 0 := fl_zero

theorem IsDouble.neg {x : ℚ} (h : IsDouble x) : IsDouble (-x) := by
  unfold IsDouble at h ⊢
  rw [fl_neg, h]

theorem le_fl_of_le {x y : ℚ} (hx : IsDouble x) (h : x ≤ y) : x ≤ fl y := by
  have := fl_mono h
  rwa [hx] at this

theorem fl_le_of_le {x y : ℚ} (hy : IsDouble y) (h : x ≤ y) : fl x ≤ y := by
  have := fl_mono h
  rwa [hy] at this

/-- Twice a binary64 number is a binary64 number (the exponent range has no upper end). -/
theorem IsDouble.two_mul {x : ℚ} (h : IsDouble x) : IsDouble (2 * x) := by
  have key : ∀ y : ℚ, 0 < y → IsDouble y → IsDouble (2 * y) := by
    intro y hy hd
    obtain ⟨h1, h2, h3, h4⟩ := flAbs_repr hy
    have hy' : y = (roundEven (y / ulp y) : ℚ) * (2 : ℚ) ^ (binade y - 52) := by
      rw [← h1, ← fl_of_nonneg hy.le]; exact hd.symm
    set k := roundEven (y / ulp y)
    set b := binade y
    unfold IsDouble
    rcases h4 with h4 | h4
    · have e : 2 * y = (k : ℚ) * (2 : ℚ) ^ (b + 1 - 52) := by
        rw [show b + 1 - 52 = (b - 52) + 1 by ring, zpow_add_one₀ (by norm_num)]
        linear_combination (2 : ℚ) * hy'
      rw [e]
      exact fl_repr k (b + 1) h2 h3 (by have := emin_le_binade y; omega) (Or.inl h4)
    · by_cases h5 : 2 ^ (52 : ℕ) ≤ k
      · have e : 2 * y = (k : ℚ) * (2 : ℚ) ^ (b + 1 - 52) := by
          rw [show b + 1 - 52 = (b - 52) + 1 by ring, zpow_add_one₀ (by norm_num)]
          linear_combination (2 : ℚ) * hy'
        rw [e]
        exact fl_repr k (b + 1) h2 h3 (by have := emin_le_binade y; omega) (Or.inl h5)
      · have e : 2 * y = ((2 * k : ℤ) : ℚ) * (2 : ℚ) ^ (b - 52) := by
          push_cast
          rw [mul_assoc, ← hy']
        rw [e]
        exact fl_repr (2 * k) b (by omega) (by omega) (emin_le_binade y) (Or.inr h4)
  rcases lt_trichotomy x 0 with hx | rfl | hx
  · have := (key (-x) (by linarith) h.neg).neg
    rwa [show -(2 * -x) = 2 * x by ring] at this
  · simpa using isDouble_zero
  · exact key x hx h

/-- The next binary64 number above a positive one. -/
theorem IsDouble.add_ulp {x : ℚ} (hx : 0 < x) (h : IsDouble x) : IsDouble (x + ulp x) := by
  obtain ⟨h1, h2, h3, h4⟩ := flAbs_repr hx
  have hx' : x = (roundEven (x / ulp x) : ℚ) * (2 : ℚ) ^ (binade x - 52) := by
    rw [← h1, ← fl_of_nonneg hx.le]; exact h.symm
  have hu : ulp x = (2 : ℚ) ^ (binade x - 52) := rfl
  have hup : (0 : ℚ) < (2 : ℚ) ^ (binade x - 52) := by positivity
  have hk : roundEven (x / ulp x) < 2 ^ (53 : ℕ) := by
    have hlt := lt_two_pow_binade hx
    rw [← two_pow_53_mul_ulp, hu] at hlt
    have : (roundEven (x / ulp x) : ℚ) * (2 : ℚ) ^ (binade x - 52)
        < (2 : ℚ) ^ (53 : ℕ) * (2 : ℚ) ^ (binade x - 52) := by rw [← hx']; exact hlt
    have := lt_of_mul_lt_mul_right this hup.le
    exact_mod_cast this
  set k := roundEven (x / ulp x)
  have e : x + ulp x = ((k + 1 : ℤ) : ℚ) * (2 : ℚ) ^ (binade x - 52) := by
    push_cast
    rw [add_mul, one_mul, ← hx', hu]
  unfold IsDouble
  rw [e]
  refine fl_repr (k + 1) (binade x) (by omega) (by omega) (emin_le_binade x) ?_
  rcases h4 with h4 | h4
  · exact Or.inl (by omega)
  · exact Or.inr h4

/-- Rounding moves a number by at most half the spacing. -/
theorem abs_fl_sub_le (x : ℚ) : |fl x - x| ≤ ulp x / 2 := by
  have key : ∀ y : ℚ, |flAbs y - y| ≤ ulp y / 2 := by
    intro y
    have h := abs_roundEven_sub_le (y / ulp y)
    have hu := ulp_pos y
    have e : flAbs y - y = ((roundEven (y / ulp y) : ℚ) - y / ulp y) * ulp y := by
      unfold flAbs
      field_simp
    rw [e, abs_mul, abs_of_pos hu]
    calc |(roundEven (y / ulp y) : ℚ) - y / ulp y| * ulp y ≤ 1 / 2 * ulp y :=
          mul_le_mul_of_nonneg_right h hu.le
      _ = ulp y / 2 := by ring
  by_cases hx : 0 ≤ x
  · rw [fl_of_nonneg hx]
    exact key x
  · have : fl x = -flAbs (-x) := by simp [fl, hx]
    rw [this, show -flAbs (-x) - x = -(flAbs (-x) - -x) by ring, abs_neg, ← ulp_neg x]
    exact key (-x)

end Binary64

/-! ## Basic facts about the budget predicate -/

namespace SPHinXsys

theorem WithinBudget.sum_le : ∀ (l : List ℚ) (T : ℚ), 0 ≤ T → WithinBudget T l → l.sum ≤ T
  | [], T, hT, _ => by simpa using hT
  | d :: l, T, _, h => by
    have := WithinBudget.sum_le l (T - d) (by linarith [h.1]) h.2
    simp only [List.sum_cons]
    linarith

end SPHinXsys

namespace HydrostaticFSI

open SPHinXsys

theorem clamp_dt_s_le (s : State) : clamp_dt_s s ≤ s.dt - s.dt_s_sum := by
  unfold clamp_dt_s
  split_ifs with h
  · exact le_refl _
  · exact not_lt.mp h

theorem solidLoop_spec (E : Estimators) :
    ∀ (fuel : ℕ) (s s' : State), solidLoop E fuel s = some s' →
      ∃ steps : List ℚ,
        s'.trace = s.trace ++ steps.flatMap solidCalls ∧
        s'.dt_s_sum = s.dt_s_sum + steps.sum ∧
        WithinBudget (s.dt - s.dt_s_sum) steps ∧
        ¬ s'.dt_s_sum < s'.dt ∧
        s'.dt = s.dt ∧ s'.Dt = s.Dt ∧
        s'.physical_time_ = s.physical_time_ ∧
        s'.number_of_iterations = s.number_of_iterations ∧
        s'.integeral_time = s.integeral_time ∧
        s'.relaxation_time = s.relaxation_time ∧
        s'.advection_calls = s.advection_calls ∧
        s'.acoustic_calls = s.acoustic_calls ∧
        s'.solid_calls = s.solid_calls + steps.length := by
  intro fuel
  induction fuel with
  | zero =>
    intro s s' h
    simp only [solidLoop] at h
    split_ifs at h with hc
    cases h
    exact ⟨[], by simp [WithinBudget, hc]⟩
  | succ n ih =>
    intro s s' h
    simp only [solidLoop] at h
    split_ifs at h with hc
    · obtain ⟨steps, h1, h2, h3, h4, h5, h6, h7, h8, h9, h10, h11, h12, h13⟩ :=
        ih (solidBody E s) s' h
      refine ⟨clamp_dt_s s :: steps, ?_, ?_, ?_, h4, ?_⟩
      · simp [h1, solidBody, solidCalls]
      · simp [h2, solidBody]; ring
      · refine ⟨clamp_dt_s_le s, ?_⟩
        have : (solidBody E s).dt - (solidBody E s).dt_s_sum
            = s.dt - s.dt_s_sum - clamp_dt_s s := by simp [solidBody]; ring
        rw [← this]; exact h3
      · simp [solidBody] at h5 h6 h7 h8 h9 h10 h11 h12 h13
        simp [h5, h6, h7, h8, h9, h10, h11, h12, h13]; omega
    · cases h
      exact ⟨[], by simp [WithinBudget, hc]⟩

theorem solidLoop_terminates (E : Estimators) (c : ℚ) (hc0 : 0 < c)
    (hE : ∀ k, c ≤ E.gate_computing_time_step_size k) :
    ∀ (n : ℕ) (s : State), c ≤ s.dt_s → s.dt - s.dt_s_sum ≤ n * c →
      ∃ s', solidLoop E n s = some s' := by
  intro n
  induction n with
  | zero =>
    intro s _ h
    have : ¬ s.dt_s_sum < s.dt := by simp at h; linarith
    exact ⟨s, by simp [solidLoop, this]⟩
  | succ n ih =>
    intro s hs h
    by_cases hc : s.dt_s_sum < s.dt
    · simp only [solidLoop, hc, if_true]
      apply ih
      · simpa [solidBody] using hE s.solid_calls
      · have hcl : clamp_dt_s s = s.dt - s.dt_s_sum ∨ c ≤ clamp_dt_s s := by
          unfold clamp_dt_s
          split_ifs
          · exact Or.inl rfl
          · exact Or.inr hs
        have hn : (0 : ℚ) ≤ n * c := mul_nonneg (Nat.cast_nonneg n) hc0.le
        simp only [solidBody]
        push_cast at h
        rcases hcl with hcl | hcl
        · rw [hcl]; linarith
        · linarith
    · exact ⟨s, by simp [solidLoop, hc]⟩

theorem solidLoop_terminates_of_nonneg (E : Estimators) (c : ℚ) (hc0 : 0 < c)
    (hE : ∀ k, c ≤ E.gate_computing_time_step_size k) (s : State) (hs : 0 ≤ s.dt_s) :
    ∃ fuel s', solidLoop E fuel s = some s' := by
  by_cases hc : s.dt_s_sum < s.dt
  · obtain ⟨n, hn⟩ := exists_nat_ge ((s.dt - s.dt_s_sum) / c)
    have hn' : s.dt - s.dt_s_sum ≤ n * c := (div_le_iff₀ hc0).mp hn
    have hcl : 0 ≤ clamp_dt_s s := by
      unfold clamp_dt_s
      split_ifs
      · linarith
      · exact hs
    obtain ⟨s', h⟩ := solidLoop_terminates E c hc0 hE n (solidBody E s)
      (by simpa [solidBody] using hE s.solid_calls)
      (by simp only [solidBody]; linarith)
    exact ⟨n + 1, s', by simp only [solidLoop, hc, if_true]; exact h⟩
  · exact ⟨0, s, by simp [solidLoop, hc]⟩

theorem acousticBody_spec (E : Estimators) (fuel : ℕ) (s s' : State)
    (h : acousticBody E fuel s = some s') :
    ∃ steps : List ℚ,
      s'.trace = s.trace ++
        [Call.get_fluid_time_step_size,
         Call.fluid_damping s'.dt,
         Call.pressure_relaxation s'.dt,
         Call.fluid_pressure_force_on_gate,
         Call.density_relaxation s'.dt,
         Call.initialize_displacement] ++
        steps.flatMap solidCalls ++ [Call.update_averages s'.dt] ∧
      WithinBudget s'.dt steps ∧
      s'.dt = SMIN (E.get_fluid_time_step_size s.acoustic_calls) s.Dt ∧
      s'.Dt = s.Dt ∧
      s'.physical_time_ = s.physical_time_ + s'.dt ∧
      s'.integeral_time = s.integeral_time + s'.dt ∧
      s'.relaxation_time = s.relaxation_time + s'.dt ∧
      s'.number_of_iterations = s.number_of_iterations ∧
      s'.advection_calls = s.advection_calls ∧
      s'.acoustic_calls = s.acoustic_calls + 1 ∧
      s'.solid_calls = s.solid_calls + steps.length ∧
      s'.dt_s_sum = steps.sum ∧
      ¬ s'.dt_s_sum < s'.dt := by
  unfold acousticBody at h
  rcases hl : solidLoop E fuel (acousticHead E s) with _ | t
  · simp [hl] at h
  · simp only [hl, Option.map_some', Option.some.injEq] at h
    subst h
    obtain ⟨steps, h1, h2, h3, h4, h5, h6, h7, h8, h9, h10, h11, h12, h13⟩ :=
      solidLoop_spec E fuel _ t hl
    simp only [acousticHead] at h1 h2 h3 h5 h6 h7 h8 h9 h10 h11 h12 h13
    refine ⟨steps, ?_⟩
    simp only [acousticTail, h1, h5, h6, h7, h8, h9, h10, h11, h12, h13]
    simp only [h5] at h4
    simp only [sub_zero] at h3
    simp only [zero_add] at h2
    rw [h2] at h4
    simp [h3, h2, not_lt.mp h4]

theorem solidLoop_succ (E : Estimators) :
    ∀ (fuel : ℕ) (s s' : State), solidLoop E fuel s = some s' →
      solidLoop E (fuel + 1) s = some s' := by
  intro fuel
  induction fuel with
  | zero =>
    intro s s' h
    simp only [solidLoop] at h ⊢
    split_ifs at h with hc
    simpa [hc] using h
  | succ n ih =>
    intro s s' h
    rw [solidLoop] at h ⊢
    split_ifs at h with hc
    · simp only [hc, if_true]
      exact ih _ _ h
    · simpa [hc] using h

theorem solidLoop_mono (E : Estimators) (fuel fuel' : ℕ) (s s' : State) (hle : fuel ≤ fuel')
    (h : solidLoop E fuel s = some s') : solidLoop E fuel' s = some s' := by
  induction hle with
  | refl => exact h
  | step _ ih => exact solidLoop_succ E _ s s' ih

theorem acousticBody_mono (E : Estimators) (fuel fuel' : ℕ) (s s' : State) (hle : fuel ≤ fuel')
    (h : acousticBody E fuel s = some s') : acousticBody E fuel' s = some s' := by
  unfold acousticBody at h ⊢
  rcases hl : solidLoop E fuel (acousticHead E s) with _ | t
  · simp [hl] at h
  · rw [solidLoop_mono E fuel fuel' _ t hle hl]
    rw [hl] at h
    exact h

theorem count_initialize_displacement_solidCalls (steps : List ℚ) :
    (steps.flatMap solidCalls).count Call.initialize_displacement = 0 := by
  induction steps with
  | nil => rfl
  | cons d l ih =>
    simp [List.flatMap_cons, List.count_append, ih, solidCalls]

theorem filter_isUpdateAverages_solidCalls (steps : List ℚ) :
    (steps.flatMap solidCalls).filter Call.isUpdateAverages = [] := by
  induction steps with
  | nil => rfl
  | cons d l ih =>
    simp [List.flatMap_cons, List.filter_append, ih, solidCalls, Call.isUpdateAverages]

/-! ### Loop rules of the coupled program -/

theorem acousticLoop_exit (E : Estimators) (fuel : ℕ) (s s' : State)
    (hc : ¬ s.relaxation_time < s.Dt) (h : acousticLoop E fuel s = some s') : s' = s := by
  cases fuel <;> simp [acousticLoop, hc] at h <;> exact h.symm

theorem acousticLoop_rule (E : Estimators) (R : State → State → Prop)
    (hbase : ∀ s, ¬ s.relaxation_time < s.Dt → R s s)
    (hstep : ∀ fuel s t u, s.relaxation_time < s.Dt → acousticBody E fuel s = some t →
      acousticLoop E fuel t = some u → R t u → R s u) :
    ∀ fuel s s', acousticLoop E fuel s = some s' → R s s' := by
  intro fuel
  induction fuel with
  | zero =>
    intro s s' h
    simp only [acousticLoop] at h
    split_ifs at h with hc
    cases h
    exact hbase _ hc
  | succ n ih =>
    intro s s' h
    simp only [acousticLoop] at h
    split_ifs at h with hc
    · rcases hb : acousticBody E n s with _ | t
      · simp [hb] at h
      · simp only [hb, Option.some_bind] at h
        exact hstep n s t s' hc hb h (ih t s' h)
    · cases h
      exact hbase _ hc

theorem advectionLoop_exit (E : Estimators) (D_Time : ℚ) (fuel : ℕ) (s s' : State)
    (hc : ¬ s.integeral_time < D_Time) (h : advectionLoop E D_Time fuel s = some s') :
    s' = s := by
  cases fuel <;> simp [advectionLoop, hc] at h <;> exact h.symm

theorem advectionLoop_rule (E : Estimators) (D_Time : ℚ) (R : State → State → Prop)
    (hbase : ∀ s, ¬ s.integeral_time < D_Time → R s s)
    (hstep : ∀ fuel s t u, s.integeral_time < D_Time → advectionBody E fuel s = some t →
      advectionLoop E D_Time fuel t = some u → R t u → R s u) :
    ∀ fuel s s', advectionLoop E D_Time fuel s = some s' → R s s' := by
  intro fuel
  induction fuel with
  | zero =>
    intro s s' h
    simp only [advectionLoop] at h
    split_ifs at h with hc
    cases h
    exact hbase _ hc
  | succ n ih =>
    intro s s' h
    simp only [advectionLoop] at h
    split_ifs at h with hc
    · rcases hb : advectionBody E n s with _ | t
      · simp [hb] at h
      · simp only [hb, Option.some_bind] at h
        exact hstep n s t s' hc hb h (ih t s' h)
    · cases h
      exact hbase _ hc

theorem mainLoop_exit (E : Estimators) (End_Time D_Time : ℚ) (fuel : ℕ) (s s' : State)
    (hc : ¬ s.physical_time_ < End_Time) (h : mainLoop E End_Time D_Time fuel s = some s') :
    s' = s := by
  cases fuel <;> simp [mainLoop, hc] at h <;> exact h.symm

theorem mainLoop_rule (E : Estimators) (End_Time D_Time : ℚ) (R : State → State → Prop)
    (hbase : ∀ s, ¬ s.physical_time_ < End_Time → R s s)
    (hstep : ∀ fuel s t u, s.physical_time_ < End_Time → outputBody E D_Time fuel s = some t →
      mainLoop E End_Time D_Time fuel t = some u → R t u → R s u) :
    ∀ fuel s s', mainLoop E End_Time D_Time fuel s = some s' → R s s' := by
  intro fuel
  induction fuel with
  | zero =>
    intro s s' h
    simp only [mainLoop] at h
    split_ifs at h with hc
    cases h
    exact hbase _ hc
  | succ n ih =>
    intro s s' h
    simp only [mainLoop] at h
    split_ifs at h with hc
    · rcases hb : outputBody E D_Time n s with _ | t
      · simp [hb] at h
      · simp only [hb, Option.some_bind] at h
        exact hstep n s t s' hc hb h (ih t s' h)
    · cases h
      exact hbase _ hc

theorem advectionBody_inv (E : Estimators) (fuel : ℕ) (s s' : State)
    (h : advectionBody E fuel s = some s') :
    ∃ t, acousticLoop E fuel (advectionHead E s) = some t ∧ s' = advectionTail t := by
  unfold advectionBody at h
  rcases hl : acousticLoop E fuel (advectionHead E s) with _ | t
  · simp [hl] at h
  · simp only [hl, Option.map_some', Option.some.injEq] at h
    exact ⟨t, rfl, h.symm⟩

theorem outputBody_inv (E : Estimators) (D_Time : ℚ) (fuel : ℕ) (s s' : State)
    (h : outputBody E D_Time fuel s = some s') :
    ∃ t, advectionLoop E D_Time fuel { s with integeral_time := 0 } = some t ∧
      s' = outputTail t := by
  unfold outputBody at h
  rcases hl : advectionLoop E D_Time fuel { s with integeral_time := 0 } with _ | t
  · simp [hl] at h
  · simp only [hl, Option.map_some', Option.some.injEq] at h
    exact ⟨t, rfl, h.symm⟩

/-- The state from which the last pass through `while (relaxation_time < Dt)` started. -/
theorem acousticLoop_last (E : Estimators) :
    ∀ fuel s s', acousticLoop E fuel s = some s' → s.relaxation_time < s.Dt →
      ∃ f t, t.relaxation_time < t.Dt ∧ t.Dt = s.Dt ∧ acousticBody E f t = some s' := by
  apply acousticLoop_rule E
    (fun s s' => s.relaxation_time < s.Dt →
      ∃ f t, t.relaxation_time < t.Dt ∧ t.Dt = s.Dt ∧ acousticBody E f t = some s')
  · intro s hc h
    exact absurd h hc
  · intro fuel s t u hc hb hl ih _
    obtain ⟨_, _, _, _, hDt, _⟩ := acousticBody_spec E fuel s t hb
    by_cases hct : t.relaxation_time < t.Dt
    · obtain ⟨f, t', h1, h2, h3⟩ := ih hct
      exact ⟨f, t', h1, h2.trans hDt, h3⟩
    · have := acousticLoop_exit E fuel t u hct hl
      subst this
      exact ⟨fuel, s, hc, rfl, hb⟩

end HydrostaticFSI

namespace StaticConfinement

open SPHinXsys

/-! ### Loop rules of the pure-fluid program -/

theorem fluid_acousticLoop_exit (E : Estimators) (fuel : ℕ) (s s' : State)
    (hc : ¬ s.relaxation_time < s.Dt) (h : acousticLoop E fuel s = some s') : s' = s := by
  cases fuel <;> simp [acousticLoop, hc] at h <;> exact h.symm

theorem fluid_acousticLoop_rule (E : Estimators) (R : State → State → Prop)
    (hbase : ∀ s, ¬ s.relaxation_time < s.Dt → R s s)
    (hstep : ∀ fuel s u, s.relaxation_time < s.Dt →
      acousticLoop E fuel (acousticBody E s) = some u → R (acousticBody E s) u → R s u) :
    ∀ fuel s s', acousticLoop E fuel s = some s' → R s s' := by
  intro fuel
  induction fuel with
  | zero =>
    intro s s' h
    simp only [acousticLoop] at h
    split_ifs at h with hc
    cases h
    exact hbase _ hc
  | succ n ih =>
    intro s s' h
    simp only [acousticLoop] at h
    split_ifs at h with hc
    · exact hstep n s s' hc h (ih _ s' h)
    · cases h
      exact hbase _ hc

theorem fluid_advectionLoop_exit (E : Estimators) (D_Time : ℚ) (fuel : ℕ) (s s' : State)
    (hc : ¬ s.integration_time < D_Time) (h : advectionLoop E D_Time fuel s = some s') :
    s' = s := by
  cases fuel <;> simp [advectionLoop, hc] at h <;> exact h.symm

theorem fluid_advectionLoop_rule (E : Estimators) (D_Time : ℚ) (R : State → State → Prop)
    (hbase : ∀ s, ¬ s.integration_time < D_Time → R s s)
    (hstep : ∀ fuel s t u, s.integration_time < D_Time → advectionBody E fuel s = some t →
      advectionLoop E D_Time fuel t = some u → R t u → R s u) :
    ∀ fuel s s', advectionLoop E D_Time fuel s = some s' → R s s' := by
  intro fuel
  induction fuel with
  | zero =>
    intro s s' h
    simp only [advectionLoop] at h
    split_ifs at h with hc
    cases h
    exact hbase _ hc
  | succ n ih =>
    intro s s' h
    simp only [advectionLoop] at h
    split_ifs at h with hc
    · rcases hb : advectionBody E n s with _ | t
      · simp [hb] at h
      · simp only [hb, Option.some_bind] at h
        exact hstep n s t s' hc hb h (ih t s' h)
    · cases h
      exact hbase _ hc

theorem fluid_mainLoop_exit (E : Estimators) (End_Time D_Time : ℚ) (fuel : ℕ) (s s' : State)
    (hc : ¬ s.physical_time_ < End_Time) (h : mainLoop E End_Time D_Time fuel s = some s') :
    s' = s := by
  cases fuel <;> simp [mainLoop, hc] at h <;> exact h.symm

theorem fluid_mainLoop_rule (E : Estimators) (End_Time D_Time : ℚ) (R : State → State → Prop)
    (hbase : ∀ s, ¬ s.physical_time_ < End_Time → R s s)
    (hstep : ∀ fuel s t u, s.physical_time_ < End_Time → outputBody E D_Time fuel s = some t →
      mainLoop E End_Time D_Time fuel t = some u → R t u → R s u) :
    ∀ fuel s s', mainLoop E End_Time D_Time fuel s = some s' → R s s' := by
  intro fuel
  induction fuel with
  | zero =>
    intro s s' h
    simp only [mainLoop] at h
    split_ifs at h with hc
    cases h
    exact hbase _ hc
  | succ n ih =>
    intro s s' h
    simp only [mainLoop] at h
    split_ifs at h with hc
    · rcases hb : outputBody E D_Time n s with _ | t
      · simp [hb] at h
      · simp only [hb, Option.some_bind] at h
        exact hstep n s t s' hc hb h (ih t s' h)
    · cases h
      exact hbase _ hc

theorem fluid_advectionBody_inv (E : Estimators) (fuel : ℕ) (s s' : State)
    (h : advectionBody E fuel s = some s') :
    ∃ t, acousticLoop E fuel (advectionHead E s) = some t ∧ s' = advectionTail t := by
  unfold advectionBody at h
  rcases hl : acousticLoop E fuel (advectionHead E s) with _ | t
  · simp [hl] at h
  · simp only [hl, Option.map_some', Option.some.injEq] at h
    exact ⟨t, rfl, h.symm⟩

theorem fluid_outputBody_inv (E : Estimators) (D_Time : ℚ) (fuel : ℕ) (s s' : State)
    (h : outputBody E D_Time fuel s = some s') :
    ∃ t, advectionLoop E D_Time fuel { s with integration_time := 0 } = some t ∧
      s' = outputTail t := by
  unfold outputBody at h
  rcases hl : advectionLoop E D_Time fuel { s with integration_time := 0 } with _ | t
  · simp [hl] at h
  · simp only [hl, Option.map_some', Option.some.injEq] at h
    exact ⟨t, rfl, h.symm⟩

/-- The state from which the last pass through `while (relaxation_time < Dt)` started. -/
theorem fluid_acousticLoop_last (E : Estimators) :
    ∀ fuel s s', acousticLoop E fuel s = some s' → s.relaxation_time < s.Dt →
      ∃ t, t.relaxation_time < t.Dt ∧ t.Dt = s.Dt ∧ acousticBody E t = s' := by
  apply fluid_acousticLoop_rule E
    (fun s s' => s.relaxation_time < s.Dt →
      ∃ t, t.relaxation_time < t.Dt ∧ t.Dt = s.Dt ∧ acousticBody E t = s')
  · intro s hc h
    exact absurd h hc
  · intro fuel s u hc hl ih _
    by_cases hct : (acousticBody E s).relaxation_time < (acousticBody E s).Dt
    · obtain ⟨t', h1, h2, h3⟩ := ih hct
      exact ⟨t', h1, h2.trans rfl, h3⟩
    · have := fluid_acousticLoop_exit E fuel _ u hct hl
      exact ⟨s, hc, rfl, this.symm⟩

end StaticConfinement

/-! ## Clock lemmas -/

namespace HydrostaticFSI

open SPHinXsys

theorem acousticLoop_clock_free (E : Estimators) :
    ∀ fuel s s', acousticLoop E fuel s = some s' →
      s'.Dt = s.Dt ∧ s'.number_of_iterations = s.number_of_iterations := by
  apply acousticLoop_rule E (fun s s' =>
      s'.Dt = s.Dt ∧ s'.number_of_iterations = s.number_of_iterations)
  · intro s _
    exact ⟨rfl, rfl⟩
  · intro fuel s t u _ hb _ ih
    obtain ⟨_, _, _, _, h4, _, _, _, h8, _⟩ := acousticBody_spec E fuel s t hb
    exact ⟨by rw [ih.1, h4], by rw [ih.2, h8]⟩

theorem acousticLoop_clock (E : Estimators) (hac : ∀ k, 0 < E.get_fluid_time_step_size k) :
    ∀ fuel s s', acousticLoop E fuel s = some s' → 0 < s.Dt →
      s.physical_time_ ≤ s'.physical_time_ ∧
      s'.number_of_iterations = s.number_of_iterations := by
  apply acousticLoop_rule E (fun s s' => 0 < s.Dt →
      s.physical_time_ ≤ s'.physical_time_ ∧
      s'.number_of_iterations = s.number_of_iterations)
  · intro s _ _
    exact ⟨le_refl _, rfl⟩
  · intro fuel s t u _ hb _ ih hDt
    obtain ⟨_, _, _, h3, h4, h5, _, _, h8, _⟩ := acousticBody_spec E fuel s t hb
    have hpos : 0 < t.dt := by
      rw [h3]; exact lt_min (hac _) hDt
    obtain ⟨i1, i2⟩ := ih (by rw [h4]; exact hDt)
    exact ⟨by linarith, by rw [i2, h8]⟩

theorem advectionBody_clock (E : Estimators)
    (had : ∀ k, 0 < E.get_fluid_adevction_time_step_size k)
    (hac : ∀ k, 0 < E.get_fluid_time_step_size k)
    (fuel : ℕ) (s s' : State) (h : advectionBody E fuel s = some s') :
    s.physical_time_ ≤ s'.physical_time_ ∧
    s'.number_of_iterations = s.number_of_iterations + 1 := by
  obtain ⟨t, ht, rfl⟩ := advectionBody_inv E fuel s s' h
  obtain ⟨h1, h2⟩ := acousticLoop_clock E hac fuel _ t ht (had _)
  exact ⟨h1, by simp only [advectionTail, h2]; rfl⟩

theorem advectionLoop_clock (E : Estimators) (D_Time : ℚ)
    (had : ∀ k, 0 < E.get_fluid_adevction_time_step_size k)
    (hac : ∀ k, 0 < E.get_fluid_time_step_size k) :
    ∀ fuel s s', advectionLoop E D_Time fuel s = some s' →
      s.physical_time_ ≤ s'.physical_time_ ∧
      s.number_of_iterations ≤ s'.number_of_iterations := by
  apply advectionLoop_rule E D_Time (fun s s' =>
      s.physical_time_ ≤ s'.physical_time_ ∧
      s.number_of_iterations ≤ s'.number_of_iterations)
  · intro s _
    exact ⟨le_refl _, le_refl _⟩
  · intro fuel s t u _ hb _ ih
    obtain ⟨h1, h2⟩ := advectionBody_clock E had hac fuel s t hb
    exact ⟨le_trans h1 ih.1, by omega⟩

theorem mainLoop_clock (E : Estimators) (End_Time D_Time : ℚ)
    (had : ∀ k, 0 < E.get_fluid_adevction_time_step_size k)
    (hac : ∀ k, 0 < E.get_fluid_time_step_size k) :
    ∀ fuel s s', mainLoop E End_Time D_Time fuel s = some s' →
      s.physical_time_ ≤ s'.physical_time_ ∧
      s.number_of_iterations ≤ s'.number_of_iterations := by
  apply mainLoop_rule E End_Time D_Time (fun s s' =>
      s.physical_time_ ≤ s'.physical_time_ ∧
      s.number_of_iterations ≤ s'.number_of_iterations)
  · intro s _
    exact ⟨le_refl _, le_refl _⟩
  · intro fuel s t u _ hb _ ih
    obtain ⟨v, hv, rfl⟩ := outputBody_inv E D_Time fuel s t hb
    obtain ⟨h1, h2⟩ := advectionLoop_clock E D_Time had hac fuel _ v hv
    exact ⟨le_trans h1 ih.1, le_trans h2 ih.2⟩

end HydrostaticFSI

namespace StaticConfinement

open SPHinXsys

theorem fluid_acousticLoop_clock (E : Estimators)
    (hac : ∀ k, 0 < E.get_fluid_time_step_size k) :
    ∀ fuel s s', acousticLoop E fuel s = some s' →
      s.physical_time_ ≤ s'.physical_time_ ∧
      s'.number_of_iterations = s.number_of_iterations := by
  apply fluid_acousticLoop_rule E (fun s s' =>
      s.physical_time_ ≤ s'.physical_time_ ∧
      s'.number_of_iterations = s.number_of_iterations)
  · intro s _
    exact ⟨le_refl _, rfl⟩
  · intro fuel s u _ _ ih
    have h1 : (acousticBody E s).physical_time_ =
        s.physical_time_ + E.get_fluid_time_step_size s.acoustic_calls := rfl
    have h2 : (acousticBody E s).number_of_iterations = s.number_of_iterations := rfl
    have := hac s.acoustic_calls
    exact ⟨by linarith [ih.1], by rw [ih.2, h2]⟩

theorem fluid_advectionBody_clock (E : Estimators)
    (hac : ∀ k, 0 < E.get_fluid_time_step_size k)
    (fuel : ℕ) (s s' : State) (h : advectionBody E fuel s = some s') :
    s.physical_time_ ≤ s'.physical_time_ ∧
    s'.number_of_iterations = s.number_of_iterations + 1 := by
  obtain ⟨t, ht, rfl⟩ := fluid_advectionBody_inv E fuel s s' h
  obtain ⟨h1, h2⟩ := fluid_acousticLoop_clock E hac fuel _ t ht
  exact ⟨h1, by simp only [advectionTail, h2]; rfl⟩

theorem fluid_advectionLoop_clock (E : Estimators) (D_Time : ℚ)
    (hac : ∀ k, 0 < E.get_fluid_time_step_size k) :
    ∀ fuel s s', advectionLoop E D_Time fuel s = some s' →
      s.physical_time_ ≤ s'.physical_time_ ∧
      s.number_of_iterations ≤ s'.number_of_iterations := by
  apply fluid_advectionLoop_rule E D_Time (fun s s' =>
      s.physical_time_ ≤ s'.physical_time_ ∧
      s.number_of_iterations ≤ s'.number_of_iterations)
  · intro s _
    exact ⟨le_refl _, le_refl _⟩
  · intro fuel s t u _ hb _ ih
    obtain ⟨h1, h2⟩ := fluid_advectionBody_clock E hac fuel s t hb
    exact ⟨le_trans h1 ih.1, by omega⟩

theorem fluid_mainLoop_clock (E : Estimators) (End_Time D_Time : ℚ)
    (hac : ∀ k, 0 < E.get_fluid_time_step_size k) :
    ∀ fuel s s', mainLoop E End_Time D_Time fuel s = some s' →
      s.physical_time_ ≤ s'.physical_time_ ∧
      s.number_of_iterations ≤ s'.number_of_iterations := by
  apply fluid_mainLoop_rule E End_Time D_Time (fun s s' =>
      s.physical_time_ ≤ s'.physical_time_ ∧
      s.number_of_iterations ≤ s'.number_of_iterations)
  · intro s _
    exact ⟨le_refl _, le_refl _⟩
  · intro fuel s t u _ hb _ ih
    obtain ⟨v, hv, rfl⟩ := fluid_outputBody_inv E D_Time fuel s t hb
    obtain ⟨h1, h2⟩ := fluid_advectionLoop_clock E D_Time hac fuel _ v hv
    exact ⟨le_trans h1 ih.1, le_trans h2 ih.2⟩

end StaticConfinement

/-! ## Trace lemmas -/

namespace HydrostaticFSI

open SPHinXsys

theorem acousticLoop_calls (E : Estimators) (Q : Call → Prop)
    (hQ : ∀ fuel s s', acousticBody E fuel s = some s' →
      ∃ calls, s'.trace = s.trace ++ calls ∧ ∀ c ∈ calls, Q c) :
    ∀ fuel s s', acousticLoop E fuel s = some s' →
      ∃ calls, s'.trace = s.trace ++ calls ∧ ∀ c ∈ calls, Q c := by
  apply acousticLoop_rule E (fun s s' => ∃ calls, s'.trace = s.trace ++ calls ∧ ∀ c ∈ calls, Q c)
  · intro s _
    exact ⟨[], by simp⟩
  · intro fuel s t u _ hb _ ih
    obtain ⟨c1, h1, q1⟩ := hQ fuel s t hb
    obtain ⟨c2, h2, q2⟩ := ih
    refine ⟨c1 ++ c2, by rw [h2, h1, List.append_assoc], ?_⟩
    intro c hc
    rcases List.mem_append.mp hc with hc | hc
    · exact q1 c hc
    · exact q2 c hc

theorem advectionLoop_calls (E : Estimators) (D_Time : ℚ) (Q : Call → Prop)
    (hQ : ∀ fuel s s', advectionBody E fuel s = some s' →
      ∃ calls, s'.trace = s.trace ++ calls ∧ ∀ c ∈ calls, Q c) :
    ∀ fuel s s', advectionLoop E D_Time fuel s = some s' →
      ∃ calls, s'.trace = s.trace ++ calls ∧ ∀ c ∈ calls, Q c := by
  apply advectionLoop_rule E D_Time
    (fun s s' => ∃ calls, s'.trace = s.trace ++ calls ∧ ∀ c ∈ calls, Q c)
  · intro s _
    exact ⟨[], by simp⟩
  · intro fuel s t u _ hb _ ih
    obtain ⟨c1, h1, q1⟩ := hQ fuel s t hb
    obtain ⟨c2, h2, q2⟩ := ih
    refine ⟨c1 ++ c2, by rw [h2, h1, List.append_assoc], ?_⟩
    intro c hc
    rcases List.mem_append.mp hc with hc | hc
    · exact q1 c hc
    · exact q2 c hc

theorem mainLoop_calls (E : Estimators) (End_Time D_Time : ℚ) (Q : Call → Prop)
    (hQ : ∀ fuel s s', outputBody E D_Time fuel s = some s' →
      ∃ calls, s'.trace = s.trace ++ calls ∧ ∀ c ∈ calls, Q c) :
    ∀ fuel s s', mainLoop E End_Time D_Time fuel s = some s' →
      ∃ calls, s'.trace = s.trace ++ calls ∧ ∀ c ∈ calls, Q c := by
  apply mainLoop_rule E End_Time D_Time
    (fun s s' => ∃ calls, s'.trace = s.trace ++ calls ∧ ∀ c ∈ calls, Q c)
  · intro s _
    exact ⟨[], by simp⟩
  · intro fuel s t u _ hb _ ih
    obtain ⟨c1, h1, q1⟩ := hQ fuel s t hb
    obtain ⟨c2, h2, q2⟩ := ih
    refine ⟨c1 ++ c2, by rw [h2, h1, List.append_assoc], ?_⟩
    intro c hc
    rcases List.mem_append.mp hc with hc | hc
    · exact q1 c hc
    · exact q2 c hc

theorem acousticBody_noRebuild (E : Estimators) (fuel : ℕ) (s s' : State)
    (h : acousticBody E fuel s = some s') :
    ∃ calls, s'.trace = s.trace ++ calls ∧ ∀ c ∈ calls, c.isRebuild = false := by
  obtain ⟨steps, h1, _⟩ := acousticBody_spec E fuel s s' h
  refine ⟨_, by rw [h1, List.append_assoc, List.append_assoc], ?_⟩
  intro c hc
  simp only [List.mem_append, List.mem_flatMap, solidCalls] at hc
  rcases hc with hc | ⟨d, _, hc⟩ | hc
  · simp at hc
    rcases hc with rfl | rfl | rfl | rfl | rfl | rfl <;> rfl
  · simp at hc
    rcases hc with rfl | rfl | rfl | rfl <;> rfl
  · simp at hc
    subst hc
    rfl

theorem acousticLoop_noRebuild (E : Estimators) (fuel : ℕ) (s s' : State)
    (h : acousticLoop E fuel s = some s') :
    ∃ calls, s'.trace = s.trace ++ calls ∧ ∀ c ∈ calls, c.isRebuild = false :=
  acousticLoop_calls E (fun c => c.isRebuild = false) (acousticBody_noRebuild E) fuel s s' h

theorem screenOutput_noRebuild (s : State) : ∀ c ∈ screenOutput s, c.isRebuild = false := by
  intro c hc
  unfold screenOutput at hc
  split_ifs at hc
  · simp at hc
    subst hc
    rfl
  · simp at hc

/-- The calls of an advection interval: calls without a rebuild, the rebuild block, and
the call of the tip recorder. -/
theorem advectionBody_trace (E : Estimators) (fuel : ℕ) (s s' : State)
    (h : advectionBody E fuel s = some s') :
    ∃ calls, s'.trace = s.trace ++ calls ++ rebuild ++
        [Call.write_beam_tip_displacement (s.number_of_iterations + 1)] ∧
      ∀ c ∈ calls, c.isRebuild = false := by
  obtain ⟨t, ht, rfl⟩ := advectionBody_inv E fuel s s' h
  obtain ⟨calls, h1, h2⟩ := acousticLoop_noRebuild E fuel _ t ht
  obtain ⟨_, h3⟩ := acousticLoop_clock_free E fuel _ t ht
  refine ⟨[Call.initialize_a_fluid_step, Call.get_fluid_adevction_time_step_size,
      Call.update_fluid_desnity, Call.gate_update_normal] ++ calls ++ screenOutput t, ?_, ?_⟩
  · simp only [advectionTail, h1, advectionHead, h3, List.append_assoc]
  · intro c hc
    simp only [List.mem_append] at hc
    rcases hc with (hc | hc) | hc
    · simp at hc
      rcases hc with rfl | rfl | rfl | rfl <;> rfl
    · exact h2 c hc
    · exact screenOutput_noRebuild t c hc

end HydrostaticFSI

namespace HydrostaticFSI

open SPHinXsys

/-- Every rebuild call made inside the main loop is one of the four of lines 424-428. -/
theorem mainLoop_rebuild_calls (E : Estimators) (End_Time D_Time : ℚ) (fuel : ℕ)
    (s s' : State) (h : mainLoop E End_Time D_Time fuel s = some s') :
    ∃ calls, s'.trace = s.trace ++ calls ∧ ∀ c ∈ calls, c.isRebuild = true → c ∈ rebuild := by
  refine mainLoop_calls E End_Time D_Time (fun c => c.isRebuild = true → c ∈ rebuild) ?_
    fuel s s' h
  intro fuel s s' hb
  obtain ⟨t, ht, rfl⟩ := outputBody_inv E D_Time fuel s s' hb
  obtain ⟨calls, h1, h2⟩ := advectionLoop_calls E D_Time
    (fun c => c.isRebuild = true → c ∈ rebuild) (by
      intro fuel s s' hb
      obtain ⟨calls, h1, h2⟩ := advectionBody_trace E fuel s s' hb
      refine ⟨_, by rw [h1, List.append_assoc, List.append_assoc], ?_⟩
      intro c hc hr
      simp only [List.mem_append] at hc
      rcases hc with hc | hc | hc
      · rw [h2 c hc] at hr
        cases hr
      · exact hc
      · simp at hc
        subst hc
        cases hr) fuel _ t ht
  refine ⟨calls ++ [Call.write_real_body_states_to_vtu none], ?_, ?_⟩
  · simp only [outputTail, h1, List.append_assoc]
  · intro c hc hr
    rcases List.mem_append.mp hc with hc | hc
    · exact h2 c hc hr
    · simp at hc
      subst hc
      cases hr

end HydrostaticFSI

namespace StaticConfinement

open SPHinXsys

theorem fluid_acousticLoop_noRebuild (E : Estimators) :
    ∀ fuel s s', acousticLoop E fuel s = some s' →
      ∃ calls, s'.trace = s.trace ++ calls ∧ ∀ c ∈ calls, c.isRebuild = false := by
  apply fluid_acousticLoop_rule E
    (fun s s' => ∃ calls, s'.trace = s.trace ++ calls ∧ ∀ c ∈ calls, c.isRebuild = false)
  · intro s _
    exact ⟨[], by simp⟩
  · intro fuel s u _ _ ih
    obtain ⟨c2, h2, q2⟩ := ih
    refine ⟨[Call.pressure_relaxation s.dt, Call.density_relaxation s.dt,
      Call.get_fluid_time_step_size] ++ c2, ?_, ?_⟩
    · rw [h2]; simp only [acousticBody, List.append_assoc]
    · intro c hc
      rcases List.mem_append.mp hc with hc | hc
      · simp at hc
        rcases hc with rfl | rfl | rfl <;> rfl
      · exact q2 c hc

theorem fluid_acousticLoop_frame (E : Estimators) :
    ∀ fuel s s', acousticLoop E fuel s = some s' →
      s'.Dt = s.Dt ∧ s'.number_of_iterations = s.number_of_iterations := by
  apply fluid_acousticLoop_rule E (fun s s' =>
      s'.Dt = s.Dt ∧ s'.number_of_iterations = s.number_of_iterations)
  · intro s _
    exact ⟨rfl, rfl⟩
  · intro fuel s u _ _ ih
    exact ih

theorem iterationOutput_noRebuild (s : State) :
    ∀ c ∈ iterationOutput s, c.isRebuild = false := by
  intro c hc
  unfold iterationOutput at hc
  split_ifs at hc <;> simp at hc
  · rcases hc with rfl | rfl | rfl | rfl <;> rfl
  · rcases hc with rfl | rfl | rfl <;> rfl
  · rcases hc with rfl | rfl <;> rfl
  · subst hc
    rfl

/-- The calls of an advection interval: calls without a rebuild, then the rebuild block. -/
theorem fluid_advectionBody_trace (E : Estimators) (fuel : ℕ) (s s' : State)
    (h : advectionBody E fuel s = some s') :
    ∃ calls, s'.trace = s.trace ++ calls ++ rebuild ∧ ∀ c ∈ calls, c.isRebuild = false := by
  obtain ⟨t, ht, rfl⟩ := fluid_advectionBody_inv E fuel s s' h
  obtain ⟨calls, h1, h2⟩ := fluid_acousticLoop_noRebuild E fuel _ t ht
  refine ⟨[Call.initialize_a_fluid_step, Call.get_fluid_advection_time_step_size,
      Call.update_density_by_summation] ++ calls ++ iterationOutput t, ?_, ?_⟩
  · simp only [advectionTail, h1, advectionHead, List.append_assoc]
  · intro c hc
    simp only [List.mem_append] at hc
    rcases hc with (hc | hc) | hc
    · simp at hc
      rcases hc with rfl | rfl | rfl <;> rfl
    · exact h2 c hc
    · exact iterationOutput_noRebuild t c hc

end StaticConfinement

/-! ## Bookkeeping of the three clocks -/

namespace HydrostaticFSI

open SPHinXsys

theorem acousticSteps_append (l₁ l₂ : List Call) :
    acousticSteps (l₁ ++ l₂) = acousticSteps l₁ ++ acousticSteps l₂ := by
  induction l₁ with
  | nil => rfl
  | cons c l ih => cases c <;> simp [acousticSteps, ih]

theorem acousticSteps_solidCalls (steps : List ℚ) :
    acousticSteps (steps.flatMap solidCalls) = [] := by
  induction steps with
  | nil => rfl
  | cons d l ih =>
    rw [List.flatMap_cons, acousticSteps_append, ih]
    rfl

theorem acousticBody_steps (E : Estimators) (fuel : ℕ) (s s' : State)
    (h : acousticBody E fuel s = some s') :
    ∃ calls, s'.trace = s.trace ++ calls ∧ acousticSteps calls = [s'.dt] ∧
      s'.physical_time_ = s.physical_time_ + s'.dt := by
  obtain ⟨steps, h1, _, _, _, h5, _⟩ := acousticBody_spec E fuel s s' h
  refine ⟨_, by rw [h1, List.append_assoc, List.append_assoc], ?_, h5⟩
  simp [acousticSteps_append, acousticSteps_solidCalls, acousticSteps]

theorem acousticLoop_book (E : Estimators) :
    ∀ fuel s s', acousticLoop E fuel s = some s' →
      s'.physical_time_ - s'.relaxation_time = s.physical_time_ - s.relaxation_time ∧
      s'.integeral_time - s'.relaxation_time = s.integeral_time - s.relaxation_time ∧
      ∃ calls, s'.trace = s.trace ++ calls ∧
        s'.physical_time_ = s.physical_time_ + (acousticSteps calls).sum := by
  apply acousticLoop_rule E (fun s s' =>
      s'.physical_time_ - s'.relaxation_time = s.physical_time_ - s.relaxation_time ∧
      s'.integeral_time - s'.relaxation_time = s.integeral_time - s.relaxation_time ∧
      ∃ calls, s'.trace = s.trace ++ calls ∧
        s'.physical_time_ = s.physical_time_ + (acousticSteps calls).sum)
  · intro s _
    exact ⟨rfl, rfl, [], by simp [acousticSteps]⟩
  · intro fuel s t u _ hb _ ih
    obtain ⟨_, _, _, _, _, h5, h6, h7, _⟩ := acousticBody_spec E fuel s t hb
    obtain ⟨c1, k1, k2, k3⟩ := acousticBody_steps E fuel s t hb
    obtain ⟨i1, i2, c2, i3, i4⟩ := ih
    refine ⟨by rw [i1, h5, h7]; ring, by rw [i2, h6, h7]; ring, c1 ++ c2, ?_, ?_⟩
    · rw [i3, k1, List.append_assoc]
    · rw [i4, k3, acousticSteps_append, k2]
      simp only [List.sum_append, List.sum_cons, List.sum_nil]
      ring

theorem advectionBody_book (E : Estimators) (fuel : ℕ) (s s' : State)
    (h : advectionBody E fuel s = some s') :
    s'.physical_time_ = s.physical_time_ + s'.relaxation_time ∧
    s'.integeral_time = s.integeral_time + s'.relaxation_time ∧
    ¬ s'.relaxation_time < s'.Dt ∧
    ∃ calls, s'.trace = s.trace ++ calls ∧
      s'.physical_time_ = s.physical_time_ + (acousticSteps calls).sum := by
  obtain ⟨t, ht, rfl⟩ := advectionBody_inv E fuel s s' h
  obtain ⟨h1, h2, calls, h3, h4⟩ := acousticLoop_book E fuel _ t ht
  have hx : ¬ t.relaxation_time < t.Dt :=
    acousticLoop_rule E (fun _ b => ¬ b.relaxation_time < b.Dt)
      (fun _ hc => hc) (fun _ _ _ _ _ _ _ ih => ih) fuel _ t ht
  simp only [advectionHead, sub_zero] at h1 h2 h3 h4
  refine ⟨?_, ?_, hx, ?_⟩
  · show t.physical_time_ = s.physical_time_ + t.relaxation_time
    linarith
  · show t.integeral_time = s.integeral_time + t.relaxation_time
    linarith
  · refine ⟨[Call.initialize_a_fluid_step, Call.get_fluid_adevction_time_step_size,
        Call.update_fluid_desnity, Call.gate_update_normal] ++ calls ++ screenOutput t ++
        rebuild ++ [Call.write_beam_tip_displacement (t.number_of_iterations + 1)], ?_, ?_⟩
    · simp only [advectionTail, h3, List.append_assoc]
    · have e : acousticSteps (screenOutput t) = [] := by
        unfold screenOutput
        split_ifs <;> rfl
      show t.physical_time_ = _
      rw [h4]
      simp [acousticSteps_append, e, acousticSteps, rebuild]

theorem advectionLoop_book (E : Estimators) (D_Time : ℚ) :
    ∀ fuel s s', advectionLoop E D_Time fuel s = some s' →
      s'.physical_time_ - s'.integeral_time = s.physical_time_ - s.integeral_time ∧
      ¬ s'.integeral_time < D_Time ∧
      (s.integeral_time < D_Time → s'.integeral_time - s'.relaxation_time < D_Time) ∧
      ∃ calls, s'.trace = s.trace ++ calls ∧
        s'.physical_time_ = s.physical_time_ + (acousticSteps calls).sum := by
  apply advectionLoop_rule E D_Time (fun s s' =>
      s'.physical_time_ - s'.integeral_time = s.physical_time_ - s.integeral_time ∧
      ¬ s'.integeral_time < D_Time ∧
      (s.integeral_time < D_Time → s'.integeral_time - s'.relaxation_time < D_Time) ∧
      ∃ calls, s'.trace = s.trace ++ calls ∧
        s'.physical_time_ = s.physical_time_ + (acousticSteps calls).sum)
  · intro s hc
    exact ⟨rfl, hc, fun h => absurd h hc, [], by simp [acousticSteps]⟩
  · intro fuel s t u hc hb hl ih
    obtain ⟨h1, h2, _, c1, h3, h4⟩ := advectionBody_book E fuel s t hb
    obtain ⟨i1, i2, i3, c2, i4, i5⟩ := ih
    refine ⟨by rw [i1, h1, h2]; ring, i2, ?_, c1 ++ c2, ?_, ?_⟩
    · intro _
      by_cases hct : t.integeral_time < D_Time
      · exact i3 hct
      · have := advectionLoop_exit E D_Time fuel t u hct hl
        subst this
        rw [h2]
        linarith
    · rw [i4, h3, List.append_assoc]
    · rw [i5, h4, acousticSteps_append]
      simp only [List.sum_append]
      ring

theorem outputBody_book (E : Estimators) (D_Time : ℚ) (fuel : ℕ) (s s' : State)
    (h : outputBody E D_Time fuel s = some s') :
    s'.physical_time_ = s.physical_time_ + s'.integeral_time ∧
    ¬ s'.integeral_time < D_Time ∧
    (0 < D_Time → s'.integeral_time - s'.relaxation_time < D_Time) ∧
    ∃ calls, s'.trace = s.trace ++ calls ∧
      s'.physical_time_ = s.physical_time_ + (acousticSteps calls).sum := by
  obtain ⟨t, ht, rfl⟩ := outputBody_inv E D_Time fuel s s' h
  obtain ⟨h1, h2, h3, calls, h4, h5⟩ := advectionLoop_book E D_Time fuel _ t ht
  simp only [sub_zero] at h1
  refine ⟨?_, h2, h3, calls ++ [Call.write_real_body_states_to_vtu none], ?_, ?_⟩
  · show t.physical_time_ = s.physical_time_ + t.integeral_time
    linarith
  · simp only [outputTail, h4, List.append_assoc]
  · show t.physical_time_ = _
    rw [h5]
    simp [acousticSteps_append, acousticSteps]

theorem mainLoop_book (E : Estimators) (End_Time D_Time : ℚ) :
    ∀ fuel s s', mainLoop E End_Time D_Time fuel s = some s' →
      ¬ s'.physical_time_ < End_Time ∧
      ∃ calls, s'.trace = s.trace ++ calls ∧
        s'.physical_time_ = s.physical_time_ + (acousticSteps calls).sum := by
  apply mainLoop_rule E End_Time D_Time (fun s s' =>
      ¬ s'.physical_time_ < End_Time ∧
      ∃ calls, s'.trace = s.trace ++ calls ∧
        s'.physical_time_ = s.physical_time_ + (acousticSteps calls).sum)
  · intro s hc
    exact ⟨hc, [], by simp [acousticSteps]⟩
  · intro fuel s t u _ hb _ ih
    obtain ⟨_, _, _, c1, h3, h4⟩ := outputBody_book E D_Time fuel s t hb
    obtain ⟨i1, c2, i2, i3⟩ := ih
    refine ⟨i1, c1 ++ c2, by rw [i2, h3, List.append_assoc], ?_⟩
    rw [i3, h4, acousticSteps_append]
    simp only [List.sum_append]
    ring

end HydrostaticFSI

namespace StaticConfinement

open SPHinXsys

theorem fluid_acousticLoop_book (E : Estimators) :
    ∀ fuel s s', acousticLoop E fuel s = some s' →
      s'.physical_time_ - s'.relaxation_time = s.physical_time_ - s.relaxation_time ∧
      s'.integration_time - s'.relaxation_time = s.integration_time - s.relaxation_time ∧
      ¬ s'.relaxation_time < s'.Dt ∧
      s.acoustic_calls ≤ s'.acoustic_calls ∧
      s'.physical_time_ = s.physical_time_ +
        Finset.sum (Finset.Ico s.acoustic_calls s'.acoustic_calls)
          E.get_fluid_time_step_size := by
  apply fluid_acousticLoop_rule E (fun s s' =>
      s'.physical_time_ - s'.relaxation_time = s.physical_time_ - s.relaxation_time ∧
      s'.integration_time - s'.relaxation_time = s.integration_time - s.relaxation_time ∧
      ¬ s'.relaxation_time < s'.Dt ∧
      s.acoustic_calls ≤ s'.acoustic_calls ∧
      s'.physical_time_ = s.physical_time_ +
        Finset.sum (Finset.Ico s.acoustic_calls s'.acoustic_calls)
          E.get_fluid_time_step_size)
  · intro s hc
    exact ⟨rfl, rfl, hc, le_refl _, by simp⟩
  · intro fuel s u _ _ ih
    obtain ⟨i1, i2, i3, i4, i5⟩ := ih
    simp only [acousticBody] at i1 i2 i4 i5
    refine ⟨by rw [i1]; ring, by rw [i2]; ring, i3, by omega, ?_⟩
    rw [i5, Finset.sum_eq_sum_Ico_succ_bot (by omega : s.acoustic_calls < u.acoustic_calls)]
    ring

theorem fluid_advectionBody_book (E : Estimators) (fuel : ℕ) (s s' : State)
    (h : advectionBody E fuel s = some s') :
    s'.physical_time_ = s.physical_time_ + s'.relaxation_time ∧
    s'.integration_time = s.integration_time + s'.relaxation_time ∧
    ¬ s'.relaxation_time < s'.Dt ∧
    s.acoustic_calls ≤ s'.acoustic_calls ∧
    s'.physical_time_ = s.physical_time_ +
      Finset.sum (Finset.Ico s.acoustic_calls s'.acoustic_calls)
        E.get_fluid_time_step_size := by
  obtain ⟨t, ht, rfl⟩ := fluid_advectionBody_inv E fuel s s' h
  obtain ⟨h1, h2, h3, h4, h5⟩ := fluid_acousticLoop_book E fuel _ t ht
  simp only [advectionHead, sub_zero] at h1 h2 h4 h5
  refine ⟨?_, ?_, h3, h4, h5⟩
  · show t.physical_time_ = s.physical_time_ + t.relaxation_time
    linarith
  · show t.integration_time = s.integration_time + t.relaxation_time
    linarith

theorem fluid_advectionLoop_book (E : Estimators) (D_Time : ℚ) :
    ∀ fuel s s', advectionLoop E D_Time fuel s = some s' →
      s'.physical_time_ - s'.integration_time = s.physical_time_ - s.integration_time ∧
      ¬ s'.integration_time < D_Time ∧
      (s.integration_time < D_Time → s'.integration_time - s'.relaxation_time < D_Time) ∧
      s.acoustic_calls ≤ s'.acoustic_calls ∧
      s'.physical_time_ = s.physical_time_ +
        Finset.sum (Finset.Ico s.acoustic_calls s'.acoustic_calls)
          E.get_fluid_time_step_size := by
  apply fluid_advectionLoop_rule E D_Time (fun s s' =>
      s'.physical_time_ - s'.integration_time = s.physical_time_ - s.integration_time ∧
      ¬ s'.integration_time < D_Time ∧
      (s.integration_time < D_Time → s'.integration_time - s'.relaxation_time < D_Time) ∧
      s.acoustic_calls ≤ s'.acoustic_calls ∧
      s'.physical_time_ = s.physical_time_ +
        Finset.sum (Finset.Ico s.acoustic_calls s'.acoustic_calls)
          E.get_fluid_time_step_size)
  · intro s hc
    exact ⟨rfl, hc, fun h => absurd h hc, le_refl _, by simp⟩
  · intro fuel s t u hc hb hl ih
    obtain ⟨h1, h2, _, h4, h5⟩ := fluid_advectionBody_book E fuel s t hb
    obtain ⟨i1, i2, i3, i4, i5⟩ := ih
    refine ⟨by rw [i1, h1, h2]; ring, i2, ?_, le_trans h4 i4, ?_⟩
    · intro _
      by_cases hct : t.integration_time < D_Time
      · exact i3 hct
      · have := fluid_advectionLoop_exit E D_Time fuel t u hct hl
        subst this
        rw [h2]
        linarith
    · rw [i5, h5, ← Finset.sum_Ico_consecutive _ h4 i4]
      ring

theorem fluid_outputBody_book (E : Estimators) (D_Time : ℚ) (fuel : ℕ) (s s' : State)
    (h : outputBody E D_Time fuel s = some s') :
    s'.physical_time_ = s.physical_time_ + s'.integration_time ∧
    ¬ s'.integration_time < D_Time ∧
    (0 < D_Time → s'.integration_time - s'.relaxation_time < D_Time) ∧
    s.acoustic_calls ≤ s'.acoustic_calls ∧
    s'.physical_time_ = s.physical_time_ +
      Finset.sum (Finset.Ico s.acoustic_calls s'.acoustic_calls)
        E.get_fluid_time_step_size := by
  obtain ⟨t, ht, rfl⟩ := fluid_outputBody_inv E D_Time fuel s s' h
  obtain ⟨h1, h2, h3, h4, h5⟩ := fluid_advectionLoop_book E D_Time fuel _ t ht
  simp only [sub_zero] at h1
  refine ⟨?_, h2, h3, h4, h5⟩
  show t.physical_time_ = s.physical_time_ + t.integration_time
  linarith

theorem fluid_mainLoop_book (E : Estimators) (End_Time D_Time : ℚ) :
    ∀ fuel s s', mainLoop E End_Time D_Time fuel s = some s' →
      ¬ s'.physical_time_ < End_Time ∧
      s.acoustic_calls ≤ s'.acoustic_calls ∧
      s'.physical_time_ = s.physical_time_ +
        Finset.sum (Finset.Ico s.acoustic_calls s'.acoustic_calls)
          E.get_fluid_time_step_size := by
  apply fluid_mainLoop_rule E End_Time D_Time (fun s s' =>
      ¬ s'.physical_time_ < End_Time ∧
      s.acoustic_calls ≤ s'.acoustic_calls ∧
      s'.physical_time_ = s.physical_time_ +
        Finset.sum (Finset.Ico s.acoustic_calls s'.acoustic_calls)
          E.get_fluid_time_step_size)
  · intro s hc
    exact ⟨hc, le_refl _, by simp⟩
  · intro fuel s t u _ hb _ ih
    obtain ⟨_, _, _, h4, h5⟩ := fluid_outputBody_book E D_Time fuel s t hb
    obtain ⟨i1, i2, i3⟩ := ih
    refine ⟨i1, le_trans h4 i2, ?_⟩
    rw [i3, h5, ← Finset.sum_Ico_consecutive _ h4 i2]
    ring

end StaticConfinement

/-! ## What the recorders are given -/

namespace SPHinXsys

theorem Segment.nil {lo hi : ℚ} (h : lo ≤ hi) : Segment lo hi [] :=
  ⟨h, List.Pairwise.nil, by simp⟩

theorem Segment.append {lo mid hi : ℚ} {l₁ l₂ : List ℚ}
    (h₁ : Segment lo mid l₁) (h₂ : Segment mid hi l₂) : Segment lo hi (l₁ ++ l₂) := by
  obtain ⟨a1, a2, a3⟩ := h₁
  obtain ⟨b1, b2, b3⟩ := h₂
  refine ⟨le_trans a1 b1, List.pairwise_append.mpr ⟨a2, b2, ?_⟩, ?_⟩
  · intro x hx y hy
    exact le_trans (a3 x hx).2 (b3 y hy).1
  · intro x hx
    rcases List.mem_append.mp hx with hx | hx
    · exact ⟨(a3 x hx).1, le_trans (a3 x hx).2 b1⟩
    · exact ⟨le_trans a1 (b3 x hx).1, (b3 x hx).2⟩

theorem Segment.of_const {lo hi x : ℚ} {l : List ℚ} (h₁ : lo ≤ x) (h₂ : x ≤ hi)
    (h : ∀ a ∈ l, a = x) : Segment lo hi l := by
  refine ⟨le_trans h₁ h₂, List.pairwise_of_forall_mem_list ?_, ?_⟩
  · intro a ha b hb
    rw [h a ha, h b hb]
  · intro a ha
    rw [h a ha]
    exact ⟨h₁, h₂⟩

end SPHinXsys

namespace StaticConfinement

open SPHinXsys

/-- Between two states the trace has grown by calls whose recorder arguments are in
order and lie between the clock values of the two states. -/
theorem fluid_reports_trans {s t u : State}
    (h₁ : ∃ calls, t.trace = s.trace ++ calls ∧
      ∀ r : Recorder, Segment (r.clock s) (r.clock t) (recorded r calls))
    (h₂ : ∃ calls, u.trace = t.trace ++ calls ∧
      ∀ r : Recorder, Segment (r.clock t) (r.clock u) (recorded r calls)) :
    ∃ calls, u.trace = s.trace ++ calls ∧
      ∀ r : Recorder, Segment (r.clock s) (r.clock u) (recorded r calls) := by
  obtain ⟨c1, e1, g1⟩ := h₁
  obtain ⟨c2, e2, g2⟩ := h₂
  refine ⟨c1 ++ c2, by rw [e2, e1, List.append_assoc], fun r => ?_⟩
  have : recorded r (c1 ++ c2) = recorded r c1 ++ recorded r c2 := by
    simp [recorded]
  rw [this]
  exact (g1 r).append (g2 r)

theorem fluid_acousticLoop_reports (E : Estimators)
    (hac : ∀ k, 0 < E.get_fluid_time_step_size k) :
    ∀ fuel s s', acousticLoop E fuel s = some s' →
      ∃ calls, s'.trace = s.trace ++ calls ∧ (∀ r : Recorder, recorded r calls = []) ∧
        ∀ r : Recorder, r.clock s ≤ r.clock s' := by
  apply fluid_acousticLoop_rule E (fun s s' =>
      ∃ calls, s'.trace = s.trace ++ calls ∧ (∀ r : Recorder, recorded r calls = []) ∧
        ∀ r : Recorder, r.clock s ≤ r.clock s')
  · intro s _
    exact ⟨[], by simp, fun _ => rfl, fun _ => le_refl _⟩
  · intro fuel s u _ _ ih
    obtain ⟨c2, h2, q2, k2⟩ := ih
    refine ⟨[Call.pressure_relaxation s.dt, Call.density_relaxation s.dt,
      Call.get_fluid_time_step_size] ++ c2, ?_, ?_, ?_⟩
    · rw [h2]; simp only [acousticBody, List.append_assoc]
    · intro r
      have := q2 r
      simp only [recorded] at this ⊢
      rw [List.filterMap_append, this]
      cases r <;> rfl
    · intro r
      refine le_trans ?_ (k2 r)
      have := hac s.acoustic_calls
      cases r <;> simp only [Recorder.clock, acousticBody] <;> linarith

theorem iterationOutput_reports (t : State) (r : Recorder) :
    ∀ a ∈ recorded r (iterationOutput t ++ rebuild), a = r.clock t := by
  intro a ha
  simp only [recorded, List.filterMap_append] at ha
  have hr : List.filterMap (Call.arg r) rebuild = [] := by cases r <;> rfl
  rw [hr, List.append_nil] at ha
  unfold iterationOutput at ha
  split_ifs at ha <;> cases r <;>
    simp [Call.arg, List.filterMap_cons] at ha <;>
    exact ha

theorem fluid_advectionBody_reports (E : Estimators)
    (hac : ∀ k, 0 < E.get_fluid_time_step_size k)
    (fuel : ℕ) (s s' : State) (h : advectionBody E fuel s = some s') :
    ∃ t calls, s' = advectionTail t ∧ s'.trace = s.trace ++ calls ∧
      t.number_of_iterations = s.number_of_iterations ∧
      (∀ r : Recorder, ∀ a ∈ recorded r calls, a = r.clock t) ∧
      ∀ r : Recorder, r.clock s ≤ r.clock t ∧ r.clock t ≤ r.clock s' := by
  obtain ⟨t, ht, rfl⟩ := fluid_advectionBody_inv E fuel s s' h
  obtain ⟨calls, h1, h2, h3⟩ := fluid_acousticLoop_reports E hac fuel _ t ht
  refine ⟨t, [Call.initialize_a_fluid_step, Call.get_fluid_advection_time_step_size,
      Call.update_density_by_summation] ++ calls ++ (iterationOutput t ++ rebuild), rfl, ?_,
      (fluid_acousticLoop_frame E fuel _ t ht).2, ?_, ?_⟩
  · simp only [advectionTail, h1, advectionHead, List.append_assoc]
  · intro r a ha
    have e : recorded r ([Call.initialize_a_fluid_step,
        Call.get_fluid_advection_time_step_size, Call.update_density_by_summation] ++ calls ++
        (iterationOutput t ++ rebuild)) = recorded r (iterationOutput t ++ rebuild) := by
      have := h2 r
      simp only [recorded] at this ⊢
      rw [List.filterMap_append, List.filterMap_append, this]
      cases r <;> rfl
    rw [e] at ha
    exact iterationOutput_reports t r a ha
  · intro r
    have e : r.clock (advectionHead E s) = r.clock s := by cases r <;> rfl
    refine ⟨by rw [← e]; exact h3 r, ?_⟩
    cases r <;> simp [Recorder.clock, advectionTail]

theorem fluid_advectionBody_segment (E : Estimators)
    (hac : ∀ k, 0 < E.get_fluid_time_step_size k)
    (fuel : ℕ) (s s' : State) (h : advectionBody E fuel s = some s') :
    ∃ calls, s'.trace = s.trace ++ calls ∧
      ∀ r : Recorder, Segment (r.clock s) (r.clock s') (recorded r calls) := by
  obtain ⟨t, calls, _, h1, _, h2, h3⟩ := fluid_advectionBody_reports E hac fuel s s' h
  exact ⟨calls, h1, fun r => Segment.of_const (h3 r).1 (h3 r).2 (h2 r)⟩

theorem fluid_advectionLoop_segment (E : Estimators) (D_Time : ℚ)
    (hac : ∀ k, 0 < E.get_fluid_time_step_size k) :
    ∀ fuel s s', advectionLoop E D_Time fuel s = some s' →
      ∃ calls, s'.trace = s.trace ++ calls ∧
        ∀ r : Recorder, Segment (r.clock s) (r.clock s') (recorded r calls) := by
  apply fluid_advectionLoop_rule E D_Time (fun s s' =>
      ∃ calls, s'.trace = s.trace ++ calls ∧
        ∀ r : Recorder, Segment (r.clock s) (r.clock s') (recorded r calls))
  · intro s _
    exact ⟨[], by simp, fun r => Segment.nil (le_refl _)⟩
  · intro fuel s t u _ hb _ ih
    exact fluid_reports_trans (fluid_advectionBody_segment E hac fuel s t hb) ih

theorem fluid_outputBody_segment (E : Estimators) (D_Time : ℚ)
    (hac : ∀ k, 0 < E.get_fluid_time_step_size k)
    (fuel : ℕ) (s s' : State) (h : outputBody E D_Time fuel s = some s') :
    ∃ calls, s'.trace = s.trace ++ calls ∧
      ∀ r : Recorder, Segment (r.clock s) (r.clock s') (recorded r calls) := by
  obtain ⟨t, ht, rfl⟩ := fluid_outputBody_inv E D_Time fuel s s' h
  obtain ⟨calls, h1, h2⟩ := fluid_advectionLoop_segment E D_Time hac fuel _ t ht
  have h1' : t.trace = s.trace ++ calls := h1
  have h2' : ∀ r : Recorder, Segment (r.clock s) (r.clock t) (recorded r calls) := by
    intro r
    have := h2 r
    cases r <;> exact this
  refine fluid_reports_trans (t := t) ⟨calls, h1', h2'⟩
    ⟨[Call.write_body_states t.physical_time_], rfl, fun r => ?_⟩
  cases r
  · exact Segment.of_const (x := t.physical_time_) (le_refl _) (le_refl _)
      (by intro a ha; simpa [recorded, Call.arg] using ha)
  all_goals exact Segment.nil (le_refl _)

theorem fluid_mainLoop_segment (E : Estimators) (End_Time D_Time : ℚ)
    (hac : ∀ k, 0 < E.get_fluid_time_step_size k) :
    ∀ fuel s s', mainLoop E End_Time D_Time fuel s = some s' →
      ∃ calls, s'.trace = s.trace ++ calls ∧
        ∀ r : Recorder, Segment (r.clock s) (r.clock s') (recorded r calls) := by
  apply fluid_mainLoop_rule E End_Time D_Time (fun s s' =>
      ∃ calls, s'.trace = s.trace ++ calls ∧
        ∀ r : Recorder, Segment (r.clock s) (r.clock s') (recorded r calls))
  · intro s _
    exact ⟨[], by simp, fun r => Segment.nil (le_refl _)⟩
  · intro fuel s t u _ hb _ ih
    exact fluid_reports_trans (fluid_outputBody_segment E D_Time hac fuel s t hb) ih

end StaticConfinement

namespace HydrostaticFSI

open SPHinXsys

theorem acousticBody_unrecorded (E : Estimators) (fuel : ℕ) (s s' : State)
    (h : acousticBody E fuel s = some s') :
    ∃ calls, s'.trace = s.trace ++ calls ∧ ∀ c ∈ calls, ∀ r : Recorder, Call.arg r c = none := by
  obtain ⟨steps, h1, _⟩ := acousticBody_spec E fuel s s' h
  refine ⟨_, by rw [h1, List.append_assoc, List.append_assoc], ?_⟩
  intro c hc r
  simp only [List.mem_append, List.mem_flatMap, solidCalls] at hc
  rcases hc with hc | ⟨d, _, hc⟩ | hc
  · simp at hc
    rcases hc with rfl | rfl | rfl | rfl | rfl | rfl <;> cases r <;> rfl
  · simp at hc
    rcases hc with rfl | rfl | rfl | rfl <;> cases r <;> rfl
  · simp at hc
    subst hc
    cases r <;> rfl

theorem advectionBody_reports (E : Estimators) (fuel : ℕ) (s s' : State)
    (h : advectionBody E fuel s = some s') :
    ∃ calls, s'.trace = s.trace ++ calls ∧
      s'.number_of_iterations = s.number_of_iterations + 1 ∧
      recorded Recorder.write_real_body_states_to_vtu calls = [] ∧
      recorded Recorder.write_beam_tip_displacement calls = [(s'.number_of_iterations : ℚ)] := by
  obtain ⟨t, ht, rfl⟩ := advectionBody_inv E fuel s s' h
  obtain ⟨calls, h1, h2⟩ := acousticLoop_calls E (fun c => ∀ r : Recorder, Call.arg r c = none)
    (acousticBody_unrecorded E) fuel _ t ht
  obtain ⟨_, h3⟩ := acousticLoop_clock_free E fuel _ t ht
  have hs : ∀ r : Recorder, recorded r (screenOutput t) = [] := by
    intro r
    unfold screenOutput
    split_ifs <;> cases r <;> rfl
  have hcalls : ∀ r : Recorder, recorded r calls = [] := by
    intro r
    simp only [recorded, List.filterMap_eq_nil_iff]
    exact fun c hc => h2 c hc r
  refine ⟨[Call.initialize_a_fluid_step, Call.get_fluid_adevction_time_step_size,
      Call.update_fluid_desnity, Call.gate_update_normal] ++ calls ++ screenOutput t ++
      rebuild ++ [Call.write_beam_tip_displacement (t.number_of_iterations + 1)], ?_, ?_, ?_, ?_⟩
  · simp only [advectionTail, h1, advectionHead, List.append_assoc]
  · simp only [advectionTail, h3, advectionHead]
  · have a1 := hcalls Recorder.write_real_body_states_to_vtu
    have a2 := hs Recorder.write_real_body_states_to_vtu
    simp only [recorded] at a1 a2 ⊢
    simp only [List.filterMap_append, a1, a2]
    rfl
  · have a1 := hcalls Recorder.write_beam_tip_displacement
    have a2 := hs Recorder.write_beam_tip_displacement
    simp only [recorded] at a1 a2 ⊢
    simp only [List.filterMap_append, a1, a2]
    simp [rebuild, Call.arg, advectionTail]

theorem reports_trans {s t u : State}
    (h₁ : ∃ calls, t.trace = s.trace ++ calls ∧
      ∀ r : Recorder, Segment (r.clock s) (r.clock t) (recorded r calls))
    (h₂ : ∃ calls, u.trace = t.trace ++ calls ∧
      ∀ r : Recorder, Segment (r.clock t) (r.clock u) (recorded r calls)) :
    ∃ calls, u.trace = s.trace ++ calls ∧
      ∀ r : Recorder, Segment (r.clock s) (r.clock u) (recorded r calls) := by
  obtain ⟨c1, e1, g1⟩ := h₁
  obtain ⟨c2, e2, g2⟩ := h₂
  refine ⟨c1 ++ c2, by rw [e2, e1, List.append_assoc], fun r => ?_⟩
  have : recorded r (c1 ++ c2) = recorded r c1 ++ recorded r c2 := by
    simp [recorded]
  rw [this]
  exact (g1 r).append (g2 r)

theorem advectionBody_segment (E : Estimators) (fuel : ℕ) (s s' : State)
    (h : advectionBody E fuel s = some s') :
    ∃ calls, s'.trace = s.trace ++ calls ∧
      ∀ r : Recorder, Segment (r.clock s) (r.clock s') (recorded r calls) := by
  obtain ⟨calls, h1, h2, h3, h4⟩ := advectionBody_reports E fuel s s' h
  have hle : (s.number_of_iterations : ℚ) ≤ (s'.number_of_iterations : ℚ) := by
    rw [h2]; push_cast; linarith
  refine ⟨calls, h1, fun r => ?_⟩
  cases r
  · rw [h3]; exact Segment.nil hle
  · rw [h4]
    exact Segment.of_const (x := (s'.number_of_iterations : ℚ)) hle (le_refl _)
      (by intro a ha; simpa using ha)

theorem advectionLoop_segment (E : Estimators) (D_Time : ℚ) :
    ∀ fuel s s', advectionLoop E D_Time fuel s = some s' →
      ∃ calls, s'.trace = s.trace ++ calls ∧
        ∀ r : Recorder, Segment (r.clock s) (r.clock s') (recorded r calls) := by
  apply advectionLoop_rule E D_Time (fun s s' =>
      ∃ calls, s'.trace = s.trace ++ calls ∧
        ∀ r : Recorder, Segment (r.clock s) (r.clock s') (recorded r calls))
  · intro s _
    exact ⟨[], by simp, fun r => Segment.nil (le_refl _)⟩
  · intro fuel s t u _ hb _ ih
    exact reports_trans (advectionBody_segment E fuel s t hb) ih

theorem outputBody_segment (E : Estimators) (D_Time : ℚ)
    (fuel : ℕ) (s s' : State) (h : outputBody E D_Time fuel s = some s') :
    ∃ calls, s'.trace = s.trace ++ calls ∧
      ∀ r : Recorder, Segment (r.clock s) (r.clock s') (recorded r calls) := by
  obtain ⟨t, ht, rfl⟩ := outputBody_inv E D_Time fuel s s' h
  obtain ⟨calls, h1, h2⟩ := advectionLoop_segment E D_Time fuel _ t ht
  have h1' : t.trace = s.trace ++ calls := h1
  have h2' : ∀ r : Recorder, Segment (r.clock s) (r.clock t) (recorded r calls) := h2
  refine reports_trans (t := t) ⟨calls, h1', h2'⟩
    ⟨[Call.write_real_body_states_to_vtu none], rfl, fun r => ?_⟩
  cases r <;> exact Segment.nil (le_refl _)

theorem mainLoop_segment (E : Estimators) (End_Time D_Time : ℚ) :
    ∀ fuel s s', mainLoop E End_Time D_Time fuel s = some s' →
      ∃ calls, s'.trace = s.trace ++ calls ∧
        ∀ r : Recorder, Segment (r.clock s) (r.clock s') (recorded r calls) := by
  apply mainLoop_rule E End_Time D_Time (fun s s' =>
      ∃ calls, s'.trace = s.trace ++ calls ∧
        ∀ r : Recorder, Segment (r.clock s) (r.clock s') (recorded r calls))
  · intro s _
    exact ⟨[], by simp, fun r => Segment.nil (le_refl _)⟩
  · intro fuel s t u _ hb _ ih
    exact reports_trans (outputBody_segment E D_Time fuel s t hb) ih

end HydrostaticFSI

/-! ## Fuel and termination -/

namespace HydrostaticFSI

open SPHinXsys

theorem acousticLoop_mono (E : Estimators) :
    ∀ (f f' : ℕ) (s s' : State), f ≤ f' → acousticLoop E f s = some s' →
      acousticLoop E f' s = some s' := by
  intro f
  induction f with
  | zero =>
    intro f' s s' _ h
    simp only [acousticLoop] at h
    split_ifs at h with hc
    cases f' <;> simpa [acousticLoop, hc] using h
  | succ n ih =>
    intro f' s s' hle h
    obtain ⟨n', rfl⟩ : ∃ n', f' = n' + 1 := ⟨f' - 1, by omega⟩
    simp only [acousticLoop] at h ⊢
    split_ifs at h with hc
    · obtain ⟨t, hb, hl⟩ := Option.bind_eq_some.mp h
      rw [if_pos hc, acousticBody_mono E n n' s t (by omega) hb]
      exact ih n' t s' (by omega) hl
    · rw [if_neg hc]; exact h

theorem advectionBody_mono (E : Estimators) (f f' : ℕ) (s s' : State) (hle : f ≤ f')
    (h : advectionBody E f s = some s') : advectionBody E f' s = some s' := by
  obtain ⟨t, ht, rfl⟩ := advectionBody_inv E f s s' h
  simp [advectionBody, acousticLoop_mono E f f' _ t hle ht]

theorem advectionLoop_mono (E : Estimators) (D_Time : ℚ) :
    ∀ (f f' : ℕ) (s s' : State), f ≤ f' → advectionLoop E D_Time f s = some s' →
      advectionLoop E D_Time f' s = some s' := by
  intro f
  induction f with
  | zero =>
    intro f' s s' _ h
    simp only [advectionLoop] at h
    split_ifs at h with hc
    cases f' <;> simpa [advectionLoop, hc] using h
  | succ n ih =>
    intro f' s s' hle h
    obtain ⟨n', rfl⟩ : ∃ n', f' = n' + 1 := ⟨f' - 1, by omega⟩
    simp only [advectionLoop] at h ⊢
    split_ifs at h with hc
    · obtain ⟨t, hb, hl⟩ := Option.bind_eq_some.mp h
      rw [if_pos hc, advectionBody_mono E n n' s t (by omega) hb]
      exact ih n' t s' (by omega) hl
    · rw [if_neg hc]; exact h

theorem outputBody_mono (E : Estimators) (D_Time : ℚ) (f f' : ℕ) (s s' : State) (hle : f ≤ f')
    (h : outputBody E D_Time f s = some s') : outputBody E D_Time f' s = some s' := by
  obtain ⟨t, ht, rfl⟩ := outputBody_inv E D_Time f s s' h
  simp [outputBody, advectionLoop_mono E D_Time f f' _ t hle ht]

theorem mainLoop_mono (E : Estimators) (End_Time D_Time : ℚ) :
    ∀ (f f' : ℕ) (s s' : State), f ≤ f' → mainLoop E End_Time D_Time f s = some s' →
      mainLoop E End_Time D_Time f' s = some s' := by
  intro f
  induction f with
  | zero =>
    intro f' s s' _ h
    simp only [mainLoop] at h
    split_ifs at h with hc
    cases f' <;> simpa [mainLoop, hc] using h
  | succ n ih =>
    intro f' s s' hle h
    obtain ⟨n', rfl⟩ : ∃ n', f' = n' + 1 := ⟨f' - 1, by omega⟩
    simp only [mainLoop] at h ⊢
    split_ifs at h with hc
    · obtain ⟨t, hb, hl⟩ := Option.bind_eq_some.mp h
      rw [if_pos hc, outputBody_mono E D_Time n n' s t (by omega) hb]
      exact ih n' t s' (by omega) hl
    · rw [if_neg hc]; exact h

theorem solidLoop_dt_s_nonneg (E : Estimators)
    (hsol : ∀ k, 0 ≤ E.gate_computing_time_step_size k) :
    ∀ (fuel : ℕ) (s s' : State), 0 ≤ s.dt_s → solidLoop E fuel s = some s' → 0 ≤ s'.dt_s := by
  intro fuel
  induction fuel with
  | zero =>
    intro s s' hs h
    simp only [solidLoop] at h
    split_ifs at h
    cases h
    exact hs
  | succ n ih =>
    intro s s' hs h
    simp only [solidLoop] at h
    split_ifs at h
    · exact ih _ s' (hsol _) h
    · cases h
      exact hs

theorem acousticBody_terminates (E : Estimators) (c : ℚ) (hc : 0 < c)
    (hsol : ∀ k, c ≤ E.gate_computing_time_step_size k) (s : State) (hs : 0 ≤ s.dt_s) :
    ∃ fuel s', acousticBody E fuel s = some s' ∧ 0 ≤ s'.dt_s := by
  obtain ⟨fuel, t, h⟩ := solidLoop_terminates_of_nonneg E c hc hsol (acousticHead E s) hs
  have ht := solidLoop_dt_s_nonneg E (fun k => le_trans hc.le (hsol k)) fuel
    (acousticHead E s) t hs h
  exact ⟨fuel, acousticTail t, by simp [acousticBody, h], ht⟩

theorem acousticLoop_terminates (E : Estimators) (c : ℚ) (hc : 0 < c)
    (hac : ∀ k, c ≤ E.get_fluid_time_step_size k)
    (hsol : ∀ k, c ≤ E.gate_computing_time_step_size k) :
    ∀ (n : ℕ) (s : State), c ≤ s.Dt → 0 ≤ s.dt_s → s.Dt - s.relaxation_time ≤ n * c →
      ∃ fuel s', acousticLoop E fuel s = some s' ∧ 0 ≤ s'.dt_s := by
  intro n
  induction n with
  | zero =>
    intro s _ hs h
    have : ¬ s.relaxation_time < s.Dt := by simp at h; linarith
    exact ⟨0, s, by simp [acousticLoop, this], hs⟩
  | succ n ih =>
    intro s hDt hs h
    by_cases hcond : s.relaxation_time < s.Dt
    · obtain ⟨f1, t, hb, ht⟩ := acousticBody_terminates E c hc hsol s hs
      obtain ⟨_, _, _, h3, h4, _, _, h7, _⟩ := acousticBody_spec E f1 s t hb
      have hdt : c ≤ t.dt := by
        rw [h3]; exact le_min (hac _) hDt
      obtain ⟨f2, u, hl, hu⟩ := ih t (by rw [h4]; exact hDt) ht (by
        rw [h4, h7]; push_cast at h; linarith)
      refine ⟨max f1 f2 + 1, u, ?_, hu⟩
      simp only [acousticLoop, if_pos hcond,
        acousticBody_mono E f1 (max f1 f2) s t (le_max_left _ _) hb, Option.some_bind]
      exact acousticLoop_mono E f2 (max f1 f2) t u (le_max_right _ _) hl
    · exact ⟨0, s, by simp [acousticLoop, hcond], hs⟩

theorem advectionBody_terminates (E : Estimators) (c : ℚ) (hc : 0 < c)
    (had : ∀ k, c ≤ E.get_fluid_adevction_time_step_size k)
    (hac : ∀ k, c ≤ E.get_fluid_time_step_size k)
    (hsol : ∀ k, c ≤ E.gate_computing_time_step_size k) (s : State) (hs : 0 ≤ s.dt_s) :
    ∃ fuel s', advectionBody E fuel s = some s' ∧ 0 ≤ s'.dt_s ∧
      s'.integeral_time = s.integeral_time + s'.relaxation_time ∧ c ≤ s'.relaxation_time := by
  obtain ⟨n, hn⟩ := exists_nat_ge ((advectionHead E s).Dt / c)
  have hn' : (advectionHead E s).Dt - (advectionHead E s).relaxation_time ≤ n * c := by
    have := (div_le_iff₀ hc).mp hn
    simpa [advectionHead] using this
  obtain ⟨fuel, t, hl, ht⟩ := acousticLoop_terminates E c hc hac hsol n (advectionHead E s)
    (had _) hs hn'
  have hb : advectionBody E fuel s = some (advectionTail t) := by
    simp [advectionBody, hl]
  obtain ⟨_, h2, h3, _⟩ := advectionBody_book E fuel s _ hb
  obtain ⟨h4, _⟩ := acousticLoop_clock_free E fuel _ t hl
  refine ⟨fuel, advectionTail t, hb, ht, h2, ?_⟩
  have h5 : (advectionTail t).Dt = E.get_fluid_adevction_time_step_size s.advection_calls := h4
  rw [h5] at h3
  exact le_trans (had _) (not_lt.mp h3)

theorem advectionLoop_terminates (E : Estimators) (D_Time : ℚ) (c : ℚ) (hc : 0 < c)
    (had : ∀ k, c ≤ E.get_fluid_adevction_time_step_size k)
    (hac : ∀ k, c ≤ E.get_fluid_time_step_size k)
    (hsol : ∀ k, c ≤ E.gate_computing_time_step_size k) :
    ∀ (n : ℕ) (s : State), 0 ≤ s.dt_s → D_Time - s.integeral_time ≤ n * c →
      ∃ fuel s', advectionLoop E D_Time fuel s = some s' ∧ 0 ≤ s'.dt_s := by
  intro n
  induction n with
  | zero =>
    intro s hs h
    have : ¬ s.integeral_time < D_Time := by simp at h; linarith
    exact ⟨0, s, by simp [advectionLoop, this], hs⟩
  | succ n ih =>
    intro s hs h
    by_cases hcond : s.integeral_time < D_Time
    · obtain ⟨f1, t, hb, ht, h1, h2⟩ := advectionBody_terminates E c hc had hac hsol s hs
      obtain ⟨f2, u, hl, hu⟩ := ih t ht (by rw [h1]; push_cast at h; linarith)
      refine ⟨max f1 f2 + 1, u, ?_, hu⟩
      simp only [advectionLoop, if_pos hcond,
        advectionBody_mono E f1 (max f1 f2) s t (le_max_left _ _) hb, Option.some_bind]
      exact advectionLoop_mono E D_Time f2 (max f1 f2) t u (le_max_right _ _) hl
    · exact ⟨0, s, by simp [advectionLoop, hcond], hs⟩

theorem outputBody_terminates (E : Estimators) (D_Time : ℚ) (c : ℚ) (hc : 0 < c)
    (had : ∀ k, c ≤ E.get_fluid_adevction_time_step_size k)
    (hac : ∀ k, c ≤ E.get_fluid_time_step_size k)
    (hsol : ∀ k, c ≤ E.gate_computing_time_step_size k) (s : State) (hs : 0 ≤ s.dt_s) :
    ∃ fuel s', outputBody E D_Time fuel s = some s' ∧ 0 ≤ s'.dt_s := by
  obtain ⟨n, hn⟩ := exists_nat_ge (D_Time / c)
  have hn' : D_Time - ({ s with integeral_time := 0 } : State).integeral_time ≤ n * c := by
    have := (div_le_iff₀ hc).mp hn
    simpa using this
  obtain ⟨fuel, t, hl, ht⟩ := advectionLoop_terminates E D_Time c hc had hac hsol n
    { s with integeral_time := 0 } hs hn'
  exact ⟨fuel, outputTail t, by simp [outputBody, hl], ht⟩

theorem mainLoop_terminates (E : Estimators) (End_Time D_Time : ℚ)
    (c : ℚ) (hc : 0 < c)
    (had : ∀ k, c ≤ E.get_fluid_adevction_time_step_size k)
    (hac : ∀ k, c ≤ E.get_fluid_time_step_size k)
    (hsol : ∀ k, c ≤ E.gate_computing_time_step_size k) :
    ∀ (n : ℕ) (s : State), 0 ≤ s.dt_s → End_Time - s.physical_time_ ≤ n * D_Time →
      ∃ fuel s', mainLoop E End_Time D_Time fuel s = some s' := by
  intro n
  induction n with
  | zero =>
    intro s _ h
    have : ¬ s.physical_time_ < End_Time := by simp at h; linarith
    exact ⟨0, s, by simp [mainLoop, this]⟩
  | succ n ih =>
    intro s hs h
    by_cases hcond : s.physical_time_ < End_Time
    · obtain ⟨f1, t, hb, ht⟩ := outputBody_terminates E D_Time c hc had hac hsol s hs
      obtain ⟨h1, h2, _⟩ := outputBody_book E D_Time f1 s t hb
      obtain ⟨f2, u, hl⟩ := ih t ht (by
        rw [h1]; push_cast at h; linarith [not_lt.mp h2])
      refine ⟨max f1 f2 + 1, u, ?_⟩
      simp only [mainLoop, if_pos hcond,
        outputBody_mono E D_Time f1 (max f1 f2) s t (le_max_left _ _) hb, Option.some_bind]
      exact mainLoop_mono E End_Time D_Time f2 (max f1 f2) t u (le_max_right _ _) hl
    · exact ⟨0, s, by simp [mainLoop, hcond]⟩

end HydrostaticFSI

namespace StaticConfinement

open SPHinXsys

theorem fluid_acousticLoop_mono (E : Estimators) :
    ∀ (f f' : ℕ) (s s' : State), f ≤ f' → acousticLoop E f s = some s' →
      acousticLoop E f' s = some s' := by
  intro f
  induction f with
  | zero =>
    intro f' s s' _ h
    simp only [acousticLoop] at h
    split_ifs at h with hc
    cases f' <;> simpa [acousticLoop, hc] using h
  | succ n ih =>
    intro f' s s' hle h
    obtain ⟨n', rfl⟩ : ∃ n', f' = n' + 1 := ⟨f' - 1, by omega⟩
    simp only [acousticLoop] at h ⊢
    split_ifs at h with hc
    · rw [if_pos hc]
      exact ih n' _ s' (by omega) h
    · rw [if_neg hc]; exact h

theorem fluid_advectionBody_mono (E : Estimators) (f f' : ℕ) (s s' : State) (hle : f ≤ f')
    (h : advectionBody E f s = some s') : advectionBody E f' s = some s' := by
  obtain ⟨t, ht, rfl⟩ := fluid_advectionBody_inv E f s s' h
  simp [advectionBody, fluid_acousticLoop_mono E f f' _ t hle ht]

theorem fluid_advectionLoop_mono (E : Estimators) (D_Time : ℚ) :
    ∀ (f f' : ℕ) (s s' : State), f ≤ f' → advectionLoop E D_Time f s = some s' →
      advectionLoop E D_Time f' s = some s' := by
  intro f
  induction f with
  | zero =>
    intro f' s s' _ h
    simp only [advectionLoop] at h
    split_ifs at h with hc
    cases f' <;> simpa [advectionLoop, hc] using h
  | succ n ih =>
    intro f' s s' hle h
    obtain ⟨n', rfl⟩ : ∃ n', f' = n' + 1 := ⟨f' - 1, by omega⟩
    simp only [advectionLoop] at h ⊢
    split_ifs at h with hc
    · obtain ⟨t, hb, hl⟩ := Option.bind_eq_some.mp h
      rw [if_pos hc, fluid_advectionBody_mono E n n' s t (by omega) hb]
      exact ih n' t s' (by omega) hl
    · rw [if_neg hc]; exact h

theorem fluid_outputBody_mono (E : Estimators) (D_Time : ℚ) (f f' : ℕ) (s s' : State)
    (hle : f ≤ f') (h : outputBody E D_Time f s = some s') :
    outputBody E D_Time f' s = some s' := by
  obtain ⟨t, ht, rfl⟩ := fluid_outputBody_inv E D_Time f s s' h
  simp [outputBody, fluid_advectionLoop_mono E D_Time f f' _ t hle ht]

theorem fluid_mainLoop_mono (E : Estimators) (End_Time D_Time : ℚ) :
    ∀ (f f' : ℕ) (s s' : State), f ≤ f' → mainLoop E End_Time D_Time f s = some s' →
      mainLoop E End_Time D_Time f' s = some s' := by
  intro f
  induction f with
  | zero =>
    intro f' s s' _ h
    simp only [mainLoop] at h
    split_ifs at h with hc
    cases f' <;> simpa [mainLoop, hc] using h
  | succ n ih =>
    intro f' s s' hle h
    obtain ⟨n', rfl⟩ : ∃ n', f' = n' + 1 := ⟨f' - 1, by omega⟩
    simp only [mainLoop] at h ⊢
    split_ifs at h with hc
    · obtain ⟨t, hb, hl⟩ := Option.bind_eq_some.mp h
      rw [if_pos hc, fluid_outputBody_mono E D_Time n n' s t (by omega) hb]
      exact ih n' t s' (by omega) hl
    · rw [if_neg hc]; exact h

theorem fluid_acousticLoop_terminates (E : Estimators) (c : ℚ)
    (hac : ∀ k, c ≤ E.get_fluid_time_step_size k) :
    ∀ (n : ℕ) (s : State), s.Dt - s.relaxation_time ≤ n * c →
      ∃ s', acousticLoop E n s = some s' := by
  intro n
  induction n with
  | zero =>
    intro s h
    have : ¬ s.relaxation_time < s.Dt := by simp at h; linarith
    exact ⟨s, by simp [acousticLoop, this]⟩
  | succ n ih =>
    intro s h
    by_cases hcond : s.relaxation_time < s.Dt
    · simp only [acousticLoop, if_pos hcond]
      apply ih
      have := hac s.acoustic_calls
      simp only [acousticBody]
      push_cast at h
      linarith
    · exact ⟨s, by simp [acousticLoop, hcond]⟩

theorem fluid_advectionBody_terminates (E : Estimators) (c : ℚ) (hc : 0 < c)
    (had : ∀ k, c ≤ E.get_fluid_advection_time_step_size k)
    (hac : ∀ k, c ≤ E.get_fluid_time_step_size k) (s : State) :
    ∃ fuel s', advectionBody E fuel s = some s' ∧
      s'.integration_time = s.integration_time + s'.relaxation_time ∧
      c ≤ s'.relaxation_time := by
  obtain ⟨n, hn⟩ := exists_nat_ge ((advectionHead E s).Dt / c)
  have hn' : (advectionHead E s).Dt - (advectionHead E s).relaxation_time ≤ n * c := by
    have := (div_le_iff₀ hc).mp hn
    simpa [advectionHead] using this
  obtain ⟨t, hl⟩ := fluid_acousticLoop_terminates E c hac n (advectionHead E s) hn'
  have hb : advectionBody E n s = some (advectionTail t) := by
    simp [advectionBody, hl]
  obtain ⟨_, h2, h3, _⟩ := fluid_advectionBody_book E n s _ hb
  obtain ⟨h4, _⟩ := fluid_acousticLoop_frame E n _ t hl
  refine ⟨n, advectionTail t, hb, h2, ?_⟩
  have h5 : (advectionTail t).Dt = E.get_fluid_advection_time_step_size s.advection_calls := h4
  rw [h5] at h3
  exact le_trans (had _) (not_lt.mp h3)

theorem fluid_advectionLoop_terminates (E : Estimators) (D_Time : ℚ) (c : ℚ) (hc : 0 < c)
    (had : ∀ k, c ≤ E.get_fluid_advection_time_step_size k)
    (hac : ∀ k, c ≤ E.get_fluid_time_step_size k) :
    ∀ (n : ℕ) (s : State), D_Time - s.integration_time ≤ n * c →
      ∃ fuel s', advectionLoop E D_Time fuel s = some s' := by
  intro n
  induction n with
  | zero =>
    intro s h
    have : ¬ s.integration_time < D_Time := by simp at h; linarith
    exact ⟨0, s, by simp [advectionLoop, this]⟩
  | succ n ih =>
    intro s h
    by_cases hcond : s.integration_time < D_Time
    · obtain ⟨f1, t, hb, h1, h2⟩ := fluid_advectionBody_terminates E c hc had hac s
      obtain ⟨f2, u, hl⟩ := ih t (by rw [h1]; push_cast at h; linarith)
      refine ⟨max f1 f2 + 1, u, ?_⟩
      simp only [advectionLoop, if_pos hcond,
        fluid_advectionBody_mono E f1 (max f1 f2) s t (le_max_left _ _) hb, Option.some_bind]
      exact fluid_advectionLoop_mono E D_Time f2 (max f1 f2) t u (le_max_right _ _) hl
    · exact ⟨0, s, by simp [advectionLoop, hcond]⟩

theorem fluid_outputBody_terminates (E : Estimators) (D_Time : ℚ) (c : ℚ) (hc : 0 < c)
    (had : ∀ k, c ≤ E.get_fluid_advection_time_step_size k)
    (hac : ∀ k, c ≤ E.get_fluid_time_step_size k) (s : State) :
    ∃ fuel s', outputBody E D_Time fuel s = some s' := by
  obtain ⟨n, hn⟩ := exists_nat_ge (D_Time / c)
  have hn' : D_Time - ({ s with integration_time := 0 } : State).integration_time ≤ n * c := by
    have := (div_le_iff₀ hc).mp hn
    simpa using this
  obtain ⟨fuel, t, hl⟩ := fluid_advectionLoop_terminates E D_Time c hc had hac n
    { s with integration_time := 0 } hn'
  exact ⟨fuel, outputTail t, by simp [outputBody, hl]⟩

theorem fluid_mainLoop_terminates (E : Estimators) (End_Time D_Time : ℚ)
    (c : ℚ) (hc : 0 < c)
    (had : ∀ k, c ≤ E.get_fluid_advection_time_step_size k)
    (hac : ∀ k, c ≤ E.get_fluid_time_step_size k) :
    ∀ (n : ℕ) (s : State), End_Time - s.physical_time_ ≤ n * D_Time →
      ∃ fuel s', mainLoop E End_Time D_Time fuel s = some s' := by
  intro n
  induction n with
  | zero =>
    intro s h
    have : ¬ s.physical_time_ < End_Time := by simp at h; linarith
    exact ⟨0, s, by simp [mainLoop, this]⟩
  | succ n ih =>
    intro s h
    by_cases hcond : s.physical_time_ < End_Time
    · obtain ⟨f1, t, hb⟩ := fluid_outputBody_terminates E D_Time c hc had hac s
      obtain ⟨h1, h2, _⟩ := fluid_outputBody_book E D_Time f1 s t hb
      obtain ⟨f2, u, hl⟩ := ih t (by
        rw [h1]; push_cast at h; linarith [not_lt.mp h2])
      refine ⟨max f1 f2 + 1, u, ?_⟩
      simp only [mainLoop, if_pos hcond,
        fluid_outputBody_mono E D_Time f1 (max f1 f2) s t (le_max_left _ _) hb,
        Option.some_bind]
      exact fluid_mainLoop_mono E End_Time D_Time f2 (max f1 f2) t u (le_max_right _ _) hl
    · exact ⟨0, s, by simp [mainLoop, hcond]⟩

end StaticConfinement

/-! ## Facts about rounded sums -/

namespace SPHinXsys

open Binary64

theorem accumulate_nil (x : ℚ) : accumulate x [] = x := rfl

theorem accumulate_cons (x d : ℚ) (l : List ℚ) :
    accumulate x (d :: l) = accumulate (fl (x + d)) l := rfl

theorem accumulate_append (x : ℚ) (l₁ l₂ : List ℚ) :
    accumulate x (l₁ ++ l₂) = accumulate (accumulate x l₁) l₂ := by
  simp [accumulate, List.foldl_append]

theorem accumulate_singleton (x d : ℚ) : accumulate x [d] = fl (x + d) := rfl

theorem accumulate_concat (x d : ℚ) (l : List ℚ) :
    accumulate x (l ++ [d]) = fl (accumulate x l + d) := by
  rw [accumulate_append, accumulate_singleton]

theorem accumulate_mono : ∀ (l : List ℚ) {x y : ℚ}, x ≤ y → accumulate x l ≤ accumulate y l
  | [], _, _, h => h
  | d :: l, x, y, h => by
    rw [accumulate_cons, accumulate_cons]
    exact accumulate_mono l (fl_mono (by linarith))

theorem isDouble_accumulate : ∀ (l : List ℚ) {x : ℚ}, IsDouble x → IsDouble (accumulate x l)
  | [], _, h => h
  | d :: l, x, _ => by
    rw [accumulate_cons]
    exact isDouble_accumulate l (isDouble_fl _)

theorem le_accumulate : ∀ (l : List ℚ) {x : ℚ}, IsDouble x → (∀ d ∈ l, 0 ≤ d) →
    x ≤ accumulate x l
  | [], _, _, _ => le_rfl
  | d :: l, x, hx, h => by
    rw [accumulate_cons]
    have h1 : x ≤ fl (x + d) := le_fl_of_le hx (by linarith [h d (List.mem_cons_self _ _)])
    exact h1.trans
      (le_accumulate l (isDouble_fl _) (fun e he => h e (List.mem_cons_of_mem _ he)))

end SPHinXsys

/-! ## The coupled program in binary64 arithmetic: loop rules -/

namespace HydrostaticFSI.Double

open SPHinXsys Binary64

theorem dbl_clamp_dt_s_le (s : State) : clamp_dt_s s ≤ fl (s.dt - s.dt_s_sum) := by
  unfold clamp_dt_s
  split_ifs with h
  · exact le_refl _
  · exact not_lt.mp h

theorem dbl_clamp_dt_s_le_dt_s (s : State) : clamp_dt_s s ≤ s.dt_s := by
  unfold clamp_dt_s
  split_ifs with h
  · exact h.le
  · exact le_refl _

theorem dbl_clamp_dt_s_nonneg (s : State) (h : s.dt_s_sum ≤ s.dt) (hs : 0 ≤ s.dt_s) :
    0 ≤ clamp_dt_s s := by
  unfold clamp_dt_s
  split_ifs
  · exact fl_nonneg (by linarith)
  · exact hs

theorem dbl_solidLoop_spec (E : Estimators) :
    ∀ (fuel : ℕ) (s s' : State), solidLoop E fuel s = some s' →
      ∃ steps : List ℚ,
        s'.trace = s.trace ++ steps.flatMap solidCalls ∧
        s'.dt_s_sum = accumulate s.dt_s_sum steps ∧
        WithinRoundedBudget s.dt s.dt_s_sum steps ∧
        ¬ s'.dt_s_sum < s'.dt ∧
        s'.dt = s.dt ∧ s'.Dt = s.Dt ∧
        s'.physical_time_ = s.physical_time_ ∧
        s'.number_of_iterations = s.number_of_iterations ∧
        s'.integeral_time = s.integeral_time ∧
        s'.relaxation_time = s.relaxation_time ∧
        s'.advection_calls = s.advection_calls ∧
        s'.acoustic_calls = s.acoustic_calls ∧
        s'.solid_calls = s.solid_calls + steps.length := by
  intro fuel
  induction fuel with
  | zero =>
    intro s s' h
    simp only [solidLoop] at h
    split_ifs at h with hc
    cases h
    exact ⟨[], by simp [WithinRoundedBudget, accumulate, hc]⟩
  | succ n ih =>
    intro s s' h
    simp only [solidLoop] at h
    split_ifs at h with hc
    · obtain ⟨steps, h1, h2, h3, h4, h5, h6, h7, h8, h9, h10, h11, h12, h13⟩ :=
        ih (solidBody E s) s' h
      refine ⟨clamp_dt_s s :: steps, ?_, ?_, ?_, h4, ?_⟩
      · simp [h1, solidBody, solidCalls]
      · rw [h2, accumulate_cons]; rfl
      · exact ⟨dbl_clamp_dt_s_le s, h3⟩
      · simp [solidBody] at h5 h6 h7 h8 h9 h10 h11 h12 h13
        simp [h5, h6, h7, h8, h9, h10, h11, h12, h13]; omega
    · cases h
      exact ⟨[], by simp [WithinRoundedBudget, accumulate, hc]⟩

/-- The solid loop leaves `dt_s_sum` at most one spacing above `dt`. -/
theorem dbl_solidLoop_bound (E : Estimators)
    (hE : ∀ k, 0 ≤ E.gate_computing_time_step_size k) :
    ∀ (fuel : ℕ) (s s' : State), solidLoop E fuel s = some s' →
      0 < s.dt → IsDouble s.dt → 0 ≤ s.dt_s → 0 ≤ s.dt_s_sum →
      s.dt_s_sum ≤ s.dt + ulp s.dt → s'.dt_s_sum ≤ s.dt + ulp s.dt := by
  intro fuel
  induction fuel with
  | zero =>
    intro s s' h _ _ _ _ hb
    simp only [solidLoop] at h
    split_ifs at h with hc
    cases h
    exact hb
  | succ n ih =>
    intro s s' h hdt hd hs h0 hb
    simp only [solidLoop] at h
    split_ifs at h with hc
    · have hcl0 : 0 ≤ clamp_dt_s s := dbl_clamp_dt_s_nonneg s hc.le hs
      have hpos : 0 < s.dt - s.dt_s_sum := by linarith
      have h1 : clamp_dt_s s ≤ s.dt - s.dt_s_sum + ulp s.dt / 2 := by
        have a := dbl_clamp_dt_s_le s
        have b := le_abs_self (fl (s.dt - s.dt_s_sum) - (s.dt - s.dt_s_sum))
        have c := abs_fl_sub_le (s.dt - s.dt_s_sum)
        have d : ulp (s.dt - s.dt_s_sum) ≤ ulp s.dt := ulp_mono hpos (by linarith)
        linarith
      have hup := ulp_pos s.dt
      refine ih (solidBody E s) s' h hdt hd (hE _) (fl_nonneg (by linarith)) ?_
      show fl (s.dt_s_sum + clamp_dt_s s) ≤ s.dt + ulp s.dt
      exact fl_le_of_le (IsDouble.add_ulp hdt hd) (by linarith)
    · cases h
      exact hb

theorem dbl_acousticBody_spec (E : Estimators) (fuel : ℕ) (s s' : State)
    (h : acousticBody E fuel s = some s') :
    ∃ steps : List ℚ,
      s'.trace = s.trace ++
        [Call.get_fluid_time_step_size,
         Call.fluid_damping s'.dt,
         Call.pressure_relaxation s'.dt,
         Call.fluid_pressure_force_on_gate,
         Call.density_relaxation s'.dt,
         Call.initialize_displacement] ++
        steps.flatMap solidCalls ++ [Call.update_averages s'.dt] ∧
      WithinRoundedBudget s'.dt 0 steps ∧
      s'.dt = SMIN (E.get_fluid_time_step_size s.acoustic_calls) s.Dt ∧
      s'.Dt = s.Dt ∧
      s'.physical_time_ = fl (s.physical_time_ + s'.dt) ∧
      s'.integeral_time = fl (s.integeral_time + s'.dt) ∧
      s'.relaxation_time = fl (s.relaxation_time + s'.dt) ∧
      s'.number_of_iterations = s.number_of_iterations ∧
      s'.advection_calls = s.advection_calls ∧
      s'.acoustic_calls = s.acoustic_calls + 1 ∧
      s'.solid_calls = s.solid_calls + steps.length ∧
      s'.dt_s_sum = accumulate 0 steps ∧
      ¬ s'.dt_s_sum < s'.dt := by
  unfold acousticBody at h
  rcases hl : solidLoop E fuel (acousticHead E s) with _ | t
  · simp [hl] at h
  · simp only [hl, Option.map_some', Option.some.injEq] at h
    subst h
    obtain ⟨steps, h1, h2, h3, h4, h5, h6, h7, h8, h9, h10, h11, h12, h13⟩ :=
      dbl_solidLoop_spec E fuel _ t hl
    simp only [acousticHead] at h1 h2 h3 h5 h6 h7 h8 h9 h10 h11 h12 h13
    refine ⟨steps, ?_⟩
    simp only [acousticTail, h1, h5, h6, h7, h8, h9, h10, h11, h12, h13]
    simp only [h5] at h4
    rw [h2] at h4
    simp [h3, h2, not_lt.mp h4]

theorem dbl_acousticLoop_exit (E : Estimators) (fuel : ℕ) (s s' : State)
    (hc : ¬ s.relaxation_time < s.Dt) (h : acousticLoop E fuel s = some s') : s' = s := by
  cases fuel <;> simp [acousticLoop, hc] at h <;> exact h.symm

theorem dbl_acousticLoop_rule (E : Estimators) (R : State → State → Prop)
    (hbase : ∀ s, ¬ s.relaxation_time < s.Dt → R s s)
    (hstep : ∀ fuel s t u, s.relaxation_time < s.Dt → acousticBody E fuel s = some t →
      acousticLoop E fuel t = some u → R t u → R s u) :
    ∀ fuel s s', acousticLoop E fuel s = some s' → R s s' := by
  intro fuel
  induction fuel with
  | zero =>
    intro s s' h
    simp only [acousticLoop] at h
    split_ifs at h with hc
    cases h
    exact hbase _ hc
  | succ n ih =>
    intro s s' h
    simp only [acousticLoop] at h
    split_ifs at h with hc
    · rcases hb : acousticBody E n s with _ | t
      · simp [hb] at h
      · simp only [hb, Option.some_bind] at h
        exact hstep n s t s' hc hb h (ih t s' h)
    · cases h
      exact hbase _ hc

theorem dbl_advectionLoop_exit (E : Estimators) (D_Time : ℚ) (fuel : ℕ) (s s' : State)
    (hc : ¬ s.integeral_time < D_Time) (h : advectionLoop E D_Time fuel s = some s') :
    s' = s := by
  cases fuel <;> simp [advectionLoop, hc] at h <;> exact h.symm

theorem dbl_advectionLoop_rule (E : Estimators) (D_Time : ℚ) (R : State → State → Prop)
    (hbase : ∀ s, ¬ s.integeral_time < D_Time → R s s)
    (hstep : ∀ fuel s t u, s.integeral_time < D_Time → advectionBody E fuel s = some t →
      advectionLoop E D_Time fuel t = some u → R t u → R s u) :
    ∀ fuel s s', advectionLoop E D_Time fuel s = some s' → R s s' := by
  intro fuel
  induction fuel with
  | zero =>
    intro s s' h
    simp only [advectionLoop] at h
    split_ifs at h with hc
    cases h
    exact hbase _ hc
  | succ n ih =>
    intro s s' h
    simp only [advectionLoop] at h
    split_ifs at h with hc
    · rcases hb : advectionBody E n s with _ | t
      · simp [hb] at h
      · simp only [hb, Option.some_bind] at h
        exact hstep n s t s' hc hb h (ih t s' h)
    · cases h
      exact hbase _ hc

theorem dbl_mainLoop_exit (E : Estimators) (End_Time D_Time : ℚ) (fuel : ℕ) (s s' : State)
    (hc : ¬ s.physical_time_ < End_Time) (h : mainLoop E End_Time D_Time fuel s = some s') :
    s' = s := by
  cases fuel <;> simp [mainLoop, hc] at h <;> exact h.symm

theorem dbl_mainLoop_rule (E : Estimators) (End_Time D_Time : ℚ) (R : State → State → Prop)
    (hbase : ∀ s, ¬ s.physical_time_ < End_Time → R s s)
    (hstep : ∀ fuel s t u, s.physical_time_ < End_Time → outputBody E D_Time fuel s = some t →
      mainLoop E End_Time D_Time fuel t = some u → R t u → R s u) :
    ∀ fuel s s', mainLoop E End_Time D_Time fuel s = some s' → R s s' := by
  intro fuel
  induction fuel with
  | zero =>
    intro s s' h
    simp only [mainLoop] at h
    split_ifs at h with hc
    cases h
    exact hbase _ hc
  | succ n ih =>
    intro s s' h
    simp only [mainLoop] at h
    split_ifs at h with hc
    · rcases hb : outputBody E D_Time n s with _ | t
      · simp [hb] at h
      · simp only [hb, Option.some_bind] at h
        exact hstep n s t s' hc hb h (ih t s' h)
    · cases h
      exact hbase _ hc

theorem dbl_advectionBody_inv (E : Estimators) (fuel : ℕ) (s s' : State)
    (h : advectionBody E fuel s = some s') :
    ∃ t, acousticLoop E fuel (advectionHead E s) = some t ∧ s' = advectionTail t := by
  unfold advectionBody at h
  rcases hl : acousticLoop E fuel (advectionHead E s) with _ | t
  · simp [hl] at h
  · simp only [hl, Option.map_some', Option.some.injEq] at h
    exact ⟨t, rfl, h.symm⟩

theorem dbl_outputBody_inv (E : Estimators) (D_Time : ℚ) (fuel : ℕ) (s s' : State)
    (h : outputBody E D_Time fuel s = some s') :
    ∃ t, advectionLoop E D_Time fuel { s with integeral_time := 0 } = some t ∧
      s' = outputTail t := by
  unfold outputBody at h
  rcases hl : advectionLoop E D_Time fuel { s with integeral_time := 0 } with _ | t
  · simp [hl] at h
  · simp only [hl, Option.map_some', Option.some.injEq] at h
    exact ⟨t, rfl, h.symm⟩

/-- The state from which the last pass through `while (relaxation_time < Dt)` started. -/
theorem dbl_acousticLoop_last (E : Estimators) :
    ∀ fuel s s', acousticLoop E fuel s = some s' → s.relaxation_time < s.Dt →
      ∃ f t, t.relaxation_time < t.Dt ∧ t.Dt = s.Dt ∧ acousticBody E f t = some s' := by
  apply dbl_acousticLoop_rule E
    (fun s s' => s.relaxation_time < s.Dt →
      ∃ f t, t.relaxation_time < t.Dt ∧ t.Dt = s.Dt ∧ acousticBody E f t = some s')
  · intro s hc h
    exact absurd h hc
  · intro fuel s t u hc hb hl ih _
    obtain ⟨_, _, _, _, hDt, _⟩ := dbl_acousticBody_spec E fuel s t hb
    by_cases hct : t.relaxation_time < t.Dt
    · obtain ⟨f, t', h1, h2, h3⟩ := ih hct
      exact ⟨f, t', h1, h2.trans hDt, h3⟩
    · have := dbl_acousticLoop_exit E fuel t u hct hl
      subst this
      exact ⟨fuel, s, hc, rfl, hb⟩

/-- The state from which the last pass through `while (integeral_time < D_Time)` started. -/
theorem dbl_advectionLoop_last (E : Estimators) (D_Time : ℚ) :
    ∀ fuel s s', advectionLoop E D_Time fuel s = some s' → s.integeral_time < D_Time →
      ∃ f t, t.integeral_time < D_Time ∧ advectionBody E f t = some s' := by
  apply dbl_advectionLoop_rule E D_Time
    (fun s s' => s.integeral_time < D_Time →
      ∃ f t, t.integeral_time < D_Time ∧ advectionBody E f t = some s')
  · intro s hc h
    exact absurd h hc
  · intro fuel s t u hc hb hl ih _
    by_cases hct : t.integeral_time < D_Time
    · exact ih hct
    · have := dbl_advectionLoop_exit E D_Time fuel t u hct hl
      subst this
      exact ⟨fuel, s, hc, hb⟩

/-! ### Bookkeeping of the three clocks in binary64 -/

theorem dbl_acousticBody_steps (E : Estimators) (fuel : ℕ) (s s' : State)
    (h : acousticBody E fuel s = some s') :
    ∃ calls, s'.trace = s.trace ++ calls ∧ acousticSteps calls = [s'.dt] := by
  obtain ⟨steps, h1, _⟩ := dbl_acousticBody_spec E fuel s s' h
  refine ⟨_, by rw [h1, List.append_assoc, List.append_assoc], ?_⟩
  simp [acousticSteps_append, acousticSteps_solidCalls, acousticSteps]

theorem dbl_acousticLoop_book (E : Estimators) :
    ∀ fuel s s', acousticLoop E fuel s = some s' →
      ¬ s'.relaxation_time < s'.Dt ∧ s'.Dt = s.Dt ∧
      s'.number_of_iterations = s.number_of_iterations ∧
      ∃ calls, s'.trace = s.trace ++ calls ∧
        s'.relaxation_time = accumulate s.relaxation_time (acousticSteps calls) ∧
        s'.integeral_time = accumulate s.integeral_time (acousticSteps calls) ∧
        s'.physical_time_ = accumulate s.physical_time_ (acousticSteps calls) := by
  apply dbl_acousticLoop_rule E (fun s s' =>
      ¬ s'.relaxation_time < s'.Dt ∧ s'.Dt = s.Dt ∧
      s'.number_of_iterations = s.number_of_iterations ∧
      ∃ calls, s'.trace = s.trace ++ calls ∧
        s'.relaxation_time = accumulate s.relaxation_time (acousticSteps calls) ∧
        s'.integeral_time = accumulate s.integeral_time (acousticSteps calls) ∧
        s'.physical_time_ = accumulate s.physical_time_ (acousticSteps calls))
  · intro s hc
    exact ⟨hc, rfl, rfl, [], by simp [acousticSteps, accumulate]⟩
  · intro fuel s t u _ hb _ ih
    obtain ⟨_, _, _, _, h4, h5, h6, h7, h8, _⟩ := dbl_acousticBody_spec E fuel s t hb
    obtain ⟨c1, k1, k2⟩ := dbl_acousticBody_steps E fuel s t hb
    obtain ⟨i0, i1, i2, c2, i3, i4, i5, i6⟩ := ih
    refine ⟨i0, i1.trans h4, i2.trans h8, c1 ++ c2, ?_, ?_, ?_, ?_⟩
    · rw [i3, k1, List.append_assoc]
    · rw [i4, acousticSteps_append, k2, h7]; rfl
    · rw [i5, acousticSteps_append, k2, h6]; rfl
    · rw [i6, acousticSteps_append, k2, h5]; rfl

theorem dbl_advectionBody_book (E : Estimators) (fuel : ℕ) (s s' : State)
    (h : advectionBody E fuel s = some s') :
    ¬ s'.relaxation_time < s'.Dt ∧
    s'.number_of_iterations = s.number_of_iterations + 1 ∧
    ∃ calls, s'.trace = s.trace ++ calls ∧
      s'.relaxation_time = accumulate 0 (acousticSteps calls) ∧
      s'.integeral_time = accumulate s.integeral_time (acousticSteps calls) ∧
      s'.physical_time_ = accumulate s.physical_time_ (acousticSteps calls) := by
  obtain ⟨t, ht, rfl⟩ := dbl_advectionBody_inv E fuel s s' h
  obtain ⟨h0, _, hn, calls, h3, h4, h5, h6⟩ := dbl_acousticLoop_book E fuel _ t ht
  simp only [advectionHead] at h3 h4 h5 h6 hn
  refine ⟨h0, by simp [advectionTail, hn], ?_⟩
  refine ⟨[Call.initialize_a_fluid_step, Call.get_fluid_adevction_time_step_size,
      Call.update_fluid_desnity, Call.gate_update_normal] ++ calls ++ screenOutput t ++
      rebuild ++ [Call.write_beam_tip_displacement (t.number_of_iterations + 1)], ?_, ?_⟩
  · simp only [advectionTail, h3, List.append_assoc]
  · have e : acousticSteps (screenOutput t) = [] := by
      unfold screenOutput
      split_ifs <;> rfl
    have e' : acousticSteps
        ([Call.initialize_a_fluid_step, Call.get_fluid_adevction_time_step_size,
          Call.update_fluid_desnity, Call.gate_update_normal] ++ calls ++ screenOutput t ++
          rebuild ++ [Call.write_beam_tip_displacement (t.number_of_iterations + 1)])
        = acousticSteps calls := by
      simp [acousticSteps_append, e, acousticSteps, rebuild]
    rw [e']
    exact ⟨h4, h5, h6⟩

theorem dbl_advectionLoop_book (E : Estimators) (D_Time : ℚ) :
    ∀ fuel s s', advectionLoop E D_Time fuel s = some s' →
      ¬ s'.integeral_time < D_Time ∧
      s.number_of_iterations ≤ s'.number_of_iterations ∧
      ∃ calls, s'.trace = s.trace ++ calls ∧
        s'.integeral_time = accumulate s.integeral_time (acousticSteps calls) ∧
        s'.physical_time_ = accumulate s.physical_time_ (acousticSteps calls) := by
  apply dbl_advectionLoop_rule E D_Time (fun s s' =>
      ¬ s'.integeral_time < D_Time ∧
      s.number_of_iterations ≤ s'.number_of_iterations ∧
      ∃ calls, s'.trace = s.trace ++ calls ∧
        s'.integeral_time = accumulate s.integeral_time (acousticSteps calls) ∧
        s'.physical_time_ = accumulate s.physical_time_ (acousticSteps calls))
  · intro s hc
    exact ⟨hc, le_rfl, [], by simp [acousticSteps, accumulate]⟩
  · intro fuel s t u hc hb hl ih
    obtain ⟨_, hn, c1, h3, _, h5, h6⟩ := dbl_advectionBody_book E fuel s t hb
    obtain ⟨i2, i0, c2, i4, i5, i6⟩ := ih
    refine ⟨i2, by omega, c1 ++ c2, ?_, ?_, ?_⟩
    · rw [i4, h3, List.append_assoc]
    · rw [i5, acousticSteps_append, accumulate_append, h5]
    · rw [i6, acousticSteps_append, accumulate_append, h6]

theorem dbl_outputBody_book (E : Estimators) (D_Time : ℚ) (fuel : ℕ) (s s' : State)
    (h : outputBody E D_Time fuel s = some s') :
    ¬ s'.integeral_time < D_Time ∧
    s.number_of_iterations ≤ s'.number_of_iterations ∧
    ∃ calls, s'.trace = s.trace ++ calls ∧
      s'.integeral_time = accumulate 0 (acousticSteps calls) ∧
      s'.physical_time_ = accumulate s.physical_time_ (acousticSteps calls) := by
  obtain ⟨t, ht, rfl⟩ := dbl_outputBody_inv E D_Time fuel s s' h
  obtain ⟨h2, hn, calls, h4, h5, h6⟩ := dbl_advectionLoop_book E D_Time fuel _ t ht
  refine ⟨h2, hn, calls ++ [Call.write_real_body_states_to_vtu none], ?_, ?_⟩
  · simp only [outputTail, h4, List.append_assoc]
  · have e' : acousticSteps (calls ++ [Call.write_real_body_states_to_vtu none])
        = acousticSteps calls := by
      simp [acousticSteps_append, acousticSteps]
    rw [e']
    exact ⟨h5, h6⟩

theorem dbl_mainLoop_book (E : Estimators) (End_Time D_Time : ℚ) :
    ∀ fuel s s', mainLoop E End_Time D_Time fuel s = some s' →
      ¬ s'.physical_time_ < End_Time ∧
      s.number_of_iterations ≤ s'.number_of_iterations ∧
      ∃ calls, s'.trace = s.trace ++ calls ∧
        s'.physical_time_ = accumulate s.physical_time_ (acousticSteps calls) := by
  apply dbl_mainLoop_rule E End_Time D_Time (fun s s' =>
      ¬ s'.physical_time_ < End_Time ∧
      s.number_of_iterations ≤ s'.number_of_iterations ∧
      ∃ calls, s'.trace = s.trace ++ calls ∧
        s'.physical_time_ = accumulate s.physical_time_ (acousticSteps calls))
  · intro s hc
    exact ⟨hc, le_rfl, [], by simp [acousticSteps, accumulate]⟩
  · intro fuel s t u _ hb _ ih
    obtain ⟨_, hn, c1, h3, _, h4⟩ := dbl_outputBody_book E D_Time fuel s t hb
    obtain ⟨i1, i0, c2, i2, i3⟩ := ih
    refine ⟨i1, by omega, c1 ++ c2, by rw [i2, h3, List.append_assoc], ?_⟩
    rw [i3, acousticSteps_append, accumulate_append, h4]

/-! ### The clock does not decrease in binary64 -/

theorem dbl_acousticLoop_clock (E : Estimators)
    (hac : ∀ k, 0 < E.get_fluid_time_step_size k) :
    ∀ fuel s s', acousticLoop E fuel s = some s' → 0 < s.Dt → IsDouble s.physical_time_ →
      s.physical_time_ ≤ s'.physical_time_ ∧ IsDouble s'.physical_time_ ∧
      s'.number_of_iterations = s.number_of_iterations := by
  apply dbl_acousticLoop_rule E (fun s s' => 0 < s.Dt → IsDouble s.physical_time_ →
      s.physical_time_ ≤ s'.physical_time_ ∧ IsDouble s'.physical_time_ ∧
      s'.number_of_iterations = s.number_of_iterations)
  · intro s _ _ hd
    exact ⟨le_rfl, hd, rfl⟩
  · intro fuel s t u _ hb _ ih hDt hd
    obtain ⟨_, _, _, h3, h4, h5, _, _, h8, _⟩ := dbl_acousticBody_spec E fuel s t hb
    have hpos : 0 < t.dt := by
      rw [h3]; exact lt_min (hac _) hDt
    have h1 : s.physical_time_ ≤ t.physical_time_ := by
      rw [h5]; exact le_fl_of_le hd (by linarith)
    have h2 : IsDouble t.physical_time_ := by rw [h5]; exact isDouble_fl _
    obtain ⟨i1, i2, i3⟩ := ih (by rw [h4]; exact hDt) h2
    exact ⟨h1.trans i1, i2, i3.trans h8⟩

theorem dbl_advectionBody_clock (E : Estimators)
    (had : ∀ k, 0 < E.get_fluid_adevction_time_step_size k)
    (hac : ∀ k, 0 < E.get_fluid_time_step_size k) (fuel : ℕ) (s s' : State)
    (hd : IsDouble s.physical_time_) (h : advectionBody E fuel s = some s') :
    s.physical_time_ ≤ s'.physical_time_ ∧ IsDouble s'.physical_time_ ∧
    s'.number_of_iterations = s.number_of_iterations + 1 := by
  obtain ⟨t, ht, rfl⟩ := dbl_advectionBody_inv E fuel s s' h
  obtain ⟨h1, h2, h3⟩ := dbl_acousticLoop_clock E hac fuel _ t ht (had _) hd
  exact ⟨h1, h2, by simp [advectionTail, h3, advectionHead]⟩

theorem dbl_advectionLoop_clock (E : Estimators) (D_Time : ℚ)
    (had : ∀ k, 0 < E.get_fluid_adevction_time_step_size k)
    (hac : ∀ k, 0 < E.get_fluid_time_step_size k) :
    ∀ fuel s s', advectionLoop E D_Time fuel s = some s' → IsDouble s.physical_time_ →
      s.physical_time_ ≤ s'.physical_time_ ∧ IsDouble s'.physical_time_ ∧
      s.number_of_iterations ≤ s'.number_of_iterations := by
  apply dbl_advectionLoop_rule E D_Time (fun s s' => IsDouble s.physical_time_ →
      s.physical_time_ ≤ s'.physical_time_ ∧ IsDouble s'.physical_time_ ∧
      s.number_of_iterations ≤ s'.number_of_iterations)
  · intro s _ hd
    exact ⟨le_rfl, hd, le_rfl⟩
  · intro fuel s t u _ hb _ ih hd
    obtain ⟨h1, h2, h3⟩ := dbl_advectionBody_clock E had hac fuel s t hd hb
    obtain ⟨i1, i2, i3⟩ := ih h2
    exact ⟨h1.trans i1, i2, by omega⟩

theorem dbl_mainLoop_clock (E : Estimators) (End_Time D_Time : ℚ)
    (had : ∀ k, 0 < E.get_fluid_adevction_time_step_size k)
    (hac : ∀ k, 0 < E.get_fluid_time_step_size k) :
    ∀ fuel s s', mainLoop E End_Time D_Time fuel s = some s' → IsDouble s.physical_time_ →
      s.physical_time_ ≤ s'.physical_time_ ∧ IsDouble s'.physical_time_ ∧
      s.number_of_iterations ≤ s'.number_of_iterations := by
  apply dbl_mainLoop_rule E End_Time D_Time (fun s s' => IsDouble s.physical_time_ →
      s.physical_time_ ≤ s'.physical_time_ ∧ IsDouble s'.physical_time_ ∧
      s.number_of_iterations ≤ s'.number_of_iterations)
  · intro s _ hd
    exact ⟨le_rfl, hd, le_rfl⟩
  · intro fuel s t u _ hb _ ih hd
    obtain ⟨v, hv, rfl⟩ := dbl_outputBody_inv E D_Time fuel s _ hb
    obtain ⟨h1, h2, h3⟩ := dbl_advectionLoop_clock E D_Time had hac fuel _ v hv hd
    obtain ⟨i1, i2, i3⟩ := ih h2
    exact ⟨h1.trans i1, i2, h3.trans i3⟩

end HydrostaticFSI.Double

/-! ## The pure-fluid program in binary64 arithmetic: loop rules -/

namespace StaticConfinement.Double

open SPHinXsys Binary64

theorem dbl_fluid_acousticSteps_self (E : Estimators) (a : ℕ) : acousticSteps E a a = [] := by
  simp [acousticSteps]

theorem dbl_fluid_acousticSteps_succ (E : Estimators) (a : ℕ) :
    acousticSteps E a (a + 1) = [E.get_fluid_time_step_size a] := by
  simp [acousticSteps]

theorem dbl_fluid_acousticSteps_append (E : Estimators) {a b c : ℕ} (hab : a ≤ b)
    (hbc : b ≤ c) : acousticSteps E a b ++ acousticSteps E b c = acousticSteps E a c := by
  unfold acousticSteps
  rw [← List.map_append]
  congr 1
  have h1 : b = a + (b - a) := by omega
  have h2 : c - a = (c - b) + (b - a) := by omega
  rw [h2]
  conv_lhs => rw [show List.range' b (c - b) = List.range' (a + (b - a)) (c - b) by rw [← h1]]
  exact List.range'_append_1 a (b - a) (c - b)

theorem dbl_fluid_acousticLoop_exit (E : Estimators) (fuel : ℕ) (s s' : State)
    (hc : ¬ s.relaxation_time < s.Dt) (h : acousticLoop E fuel s = some s') : s' = s := by
  cases fuel <;> simp [acousticLoop, hc] at h <;> exact h.symm

theorem dbl_fluid_acousticLoop_rule (E : Estimators) (R : State → State → Prop)
    (hbase : ∀ s, ¬ s.relaxation_time < s.Dt → R s s)
    (hstep : ∀ fuel s u, s.relaxation_time < s.Dt →
      acousticLoop E fuel (acousticBody E s) = some u → R (acousticBody E s) u → R s u) :
    ∀ fuel s s', acousticLoop E fuel s = some s' → R s s' := by
  intro fuel
  induction fuel with
  | zero =>
    intro s s' h
    simp only [acousticLoop] at h
    split_ifs at h with hc
    cases h
    exact hbase _ hc
  | succ n ih =>
    intro s s' h
    simp only [acousticLoop] at h
    split_ifs at h with hc
    · exact hstep n s s' hc h (ih _ s' h)
    · cases h
      exact hbase _ hc

theorem dbl_fluid_advectionLoop_exit (E : Estimators) (D_Time : ℚ) (fuel : ℕ) (s s' : State)
    (hc : ¬ s.integration_time < D_Time) (h : advectionLoop E D_Time fuel s = some s') :
    s' = s := by
  cases fuel <;> simp [advectionLoop, hc] at h <;> exact h.symm

theorem dbl_fluid_advectionLoop_rule (E : Estimators) (D_Time : ℚ) (R : State → State → Prop)
    (hbase : ∀ s, ¬ s.integration_time < D_Time → R s s)
    (hstep : ∀ fuel s t u, s.integration_time < D_Time → advectionBody E fuel s = some t →
      advectionLoop E D_Time fuel t = some u → R t u → R s u) :
    ∀ fuel s s', advectionLoop E D_Time fuel s = some s' → R s s' := by
  intro fuel
  induction fuel with
  | zero =>
    intro s s' h
    simp only [advectionLoop] at h
    split_ifs at h with hc
    cases h
    exact hbase _ hc
  | succ n ih =>
    intro s s' h
    simp only [advectionLoop] at h
    split_ifs at h with hc
    · rcases hb : advectionBody E n s with _ | t
      · simp [hb] at h
      · simp only [hb, Option.some_bind] at h
        exact hstep n s t s' hc hb h (ih t s' h)
    · cases h
      exact hbase _ hc

theorem dbl_fluid_mainLoop_exit (E : Estimators) (End_Time D_Time : ℚ) (fuel : ℕ)
    (s s' : State) (hc : ¬ s.physical_time_ < End_Time)
    (h : mainLoop E End_Time D_Time fuel s = some s') : s' = s := by
  cases fuel <;> simp [mainLoop, hc] at h <;> exact h.symm

theorem dbl_fluid_mainLoop_rule (E : Estimators) (End_Time D_Time : ℚ)
    (R : State → State → Prop)
    (hbase : ∀ s, ¬ s.physical_time_ < End_Time → R s s)
    (hstep : ∀ fuel s t u, s.physical_time_ < End_Time → outputBody E D_Time fuel s = some t →
      mainLoop E End_Time D_Time fuel t = some u → R t u → R s u) :
    ∀ fuel s s', mainLoop E End_Time D_Time fuel s = some s' → R s s' := by
  intro fuel
  induction fuel with
  | zero =>
    intro s s' h
    simp only [mainLoop] at h
    split_ifs at h with hc
    cases h
    exact hbase _ hc
  | succ n ih =>
    intro s s' h
    simp only [mainLoop] at h
    split_ifs at h with hc
    · rcases hb : outputBody E D_Time n s with _ | t
      · simp [hb] at h
      · simp only [hb, Option.some_bind] at h
        exact hstep n s t s' hc hb h (ih t s' h)
    · cases h
      exact hbase _ hc

theorem dbl_fluid_advectionBody_inv (E : Estimators) (fuel : ℕ) (s s' : State)
    (h : advectionBody E fuel s = some s') :
    ∃ t, acousticLoop E fuel (advectionHead E s) = some t ∧ s' = advectionTail t := by
  unfold advectionBody at h
  rcases hl : acousticLoop E fuel (advectionHead E s) with _ | t
  · simp [hl] at h
  · simp only [hl, Option.map_some', Option.some.injEq] at h
    exact ⟨t, rfl, h.symm⟩

theorem dbl_fluid_outputBody_inv (E : Estimators) (D_Time : ℚ) (fuel : ℕ) (s s' : State)
    (h : outputBody E D_Time fuel s = some s') :
    ∃ t, advectionLoop E D_Time fuel { s with integration_time := 0 } = some t ∧
      s' = outputTail t := by
  unfold outputBody at h
  rcases hl : advectionLoop E D_Time fuel { s with integration_time := 0 } with _ | t
  · simp [hl] at h
  · simp only [hl, Option.map_some', Option.some.injEq] at h
    exact ⟨t, rfl, h.symm⟩

/-- The state from which the last pass through `while (relaxation_time < Dt)` started. -/
theorem dbl_fluid_acousticLoop_last (E : Estimators) :
    ∀ fuel s s', acousticLoop E fuel s = some s' → s.relaxation_time < s.Dt →
      ∃ t, t.relaxation_time < t.Dt ∧ t.Dt = s.Dt ∧ acousticBody E t = s' := by
  apply dbl_fluid_acousticLoop_rule E
    (fun s s' => s.relaxation_time < s.Dt →
      ∃ t, t.relaxation_time < t.Dt ∧ t.Dt = s.Dt ∧ acousticBody E t = s')
  · intro s hc h
    exact absurd h hc
  · intro fuel s u hc hl ih _
    by_cases hct : (acousticBody E s).relaxation_time < (acousticBody E s).Dt
    · obtain ⟨t', h1, h2, h3⟩ := ih hct
      exact ⟨t', h1, h2.trans rfl, h3⟩
    · have := dbl_fluid_acousticLoop_exit E fuel _ u hct hl
      exact ⟨s, hc, rfl, this.symm⟩

/-- The state from which the last pass through `while (integration_time < D_Time)`
started. -/
theorem dbl_fluid_advectionLoop_last (E : Estimators) (D_Time : ℚ) :
    ∀ fuel s s', advectionLoop E D_Time fuel s = some s' → s.integration_time < D_Time →
      ∃ f t, t.integration_time < D_Time ∧ advectionBody E f t = some s' := by
  apply dbl_fluid_advectionLoop_rule E D_Time
    (fun s s' => s.integration_time < D_Time →
      ∃ f t, t.integration_time < D_Time ∧ advectionBody E f t = some s')
  · intro s hc h
    exact absurd h hc
  · intro fuel s t u hc hb hl ih _
    by_cases hct : t.integration_time < D_Time
    · exact ih hct
    · have := dbl_fluid_advectionLoop_exit E D_Time fuel t u hct hl
      subst this
      exact ⟨fuel, s, hc, hb⟩

/-! ### Bookkeeping of the three clocks in binary64 -/

theorem dbl_fluid_acousticLoop_book (E : Estimators) :
    ∀ fuel s s', acousticLoop E fuel s = some s' →
      ¬ s'.relaxation_time < s'.Dt ∧ s'.Dt = s.Dt ∧
      s'.number_of_iterations = s.number_of_iterations ∧
      s'.advection_calls = s.advection_calls ∧
      s.acoustic_calls ≤ s'.acoustic_calls ∧
      s'.relaxation_time =
        accumulate s.relaxation_time (acousticSteps E s.acoustic_calls s'.acoustic_calls) ∧
      s'.integration_time =
        accumulate s.integration_time (acousticSteps E s.acoustic_calls s'.acoustic_calls) ∧
      s'.physical_time_ =
        accumulate s.physical_time_ (acousticSteps E s.acoustic_calls s'.acoustic_calls) := by
  apply dbl_fluid_acousticLoop_rule E (fun s s' =>
      ¬ s'.relaxation_time < s'.Dt ∧ s'.Dt = s.Dt ∧
      s'.number_of_iterations = s.number_of_iterations ∧
      s'.advection_calls = s.advection_calls ∧
      s.acoustic_calls ≤ s'.acoustic_calls ∧
      s'.relaxation_time =
        accumulate s.relaxation_time (acousticSteps E s.acoustic_calls s'.acoustic_calls) ∧
      s'.integration_time =
        accumulate s.integration_time (acousticSteps E s.acoustic_calls s'.acoustic_calls) ∧
      s'.physical_time_ =
        accumulate s.physical_time_ (acousticSteps E s.acoustic_calls s'.acoustic_calls))
  · intro s hc
    simp [dbl_fluid_acousticSteps_self, accumulate, hc]
  · intro fuel s u _ _ ih
    obtain ⟨i0, i1, i2, i3, i4, i5, i6, i7⟩ := ih
    have hcalls : (acousticBody E s).acoustic_calls = s.acoustic_calls + 1 := rfl
    rw [hcalls] at i4 i5 i6 i7
    have happ : acousticSteps E s.acoustic_calls u.acoustic_calls =
        [E.get_fluid_time_step_size s.acoustic_calls] ++
          acousticSteps E (s.acoustic_calls + 1) u.acoustic_calls := by
      rw [← dbl_fluid_acousticSteps_succ,
        dbl_fluid_acousticSteps_append E (Nat.le_succ _) i4]
    refine ⟨i0, i1, i2, i3, by omega, ?_, ?_, ?_⟩
    · rw [i5, happ]; rfl
    · rw [i6, happ]; rfl
    · rw [i7, happ]; rfl

theorem dbl_fluid_advectionBody_book (E : Estimators) (fuel : ℕ) (s s' : State)
    (h : advectionBody E fuel s = some s') :
    ¬ s'.relaxation_time < s'.Dt ∧
    s'.number_of_iterations = s.number_of_iterations + 1 ∧
    s.acoustic_calls ≤ s'.acoustic_calls ∧
    s'.relaxation_time = accumulate 0 (acousticSteps E s.acoustic_calls s'.acoustic_calls) ∧
    s'.integration_time =
      accumulate s.integration_time (acousticSteps E s.acoustic_calls s'.acoustic_calls) ∧
    s'.physical_time_ =
      accumulate s.physical_time_ (acousticSteps E s.acoustic_calls s'.acoustic_calls) := by
  obtain ⟨t, ht, rfl⟩ := dbl_fluid_advectionBody_inv E fuel s s' h
  obtain ⟨h0, _, hn, _, h4, h5, h6, h7⟩ := dbl_fluid_acousticLoop_book E fuel _ t ht
  simp only [advectionHead] at hn h4 h5 h6 h7
  exact ⟨h0, by simp [advectionTail, hn], h4, h5, h6, h7⟩

theorem dbl_fluid_advectionLoop_book (E : Estimators) (D_Time : ℚ) :
    ∀ fuel s s', advectionLoop E D_Time fuel s = some s' →
      ¬ s'.integration_time < D_Time ∧
      s.number_of_iterations ≤ s'.number_of_iterations ∧
      s.acoustic_calls ≤ s'.acoustic_calls ∧
      s'.integration_time =
        accumulate s.integration_time (acousticSteps E s.acoustic_calls s'.acoustic_calls) ∧
      s'.physical_time_ =
        accumulate s.physical_time_ (acousticSteps E s.acoustic_calls s'.acoustic_calls) := by
  apply dbl_fluid_advectionLoop_rule E D_Time (fun s s' =>
      ¬ s'.integration_time < D_Time ∧
      s.number_of_iterations ≤ s'.number_of_iterations ∧
      s.acoustic_calls ≤ s'.acoustic_calls ∧
      s'.integration_time =
        accumulate s.integration_time (acousticSteps E s.acoustic_calls s'.acoustic_calls) ∧
      s'.physical_time_ =
        accumulate s.physical_time_ (acousticSteps E s.acoustic_calls s'.acoustic_calls))
  · intro s hc
    simp [dbl_fluid_acousticSteps_self, accumulate, hc]
  · intro fuel s t u _ hb _ ih
    obtain ⟨_, hn, h4, _, h6, h7⟩ := dbl_fluid_advectionBody_book E fuel s t hb
    obtain ⟨i0, i1, i4, i6, i7⟩ := ih
    refine ⟨i0, by omega, by omega, ?_, ?_⟩
    · rw [i6, h6, ← accumulate_append, dbl_fluid_acousticSteps_append E h4 i4]
    · rw [i7, h7, ← accumulate_append, dbl_fluid_acousticSteps_append E h4 i4]

theorem dbl_fluid_outputBody_book (E : Estimators) (D_Time : ℚ) (fuel : ℕ) (s s' : State)
    (h : outputBody E D_Time fuel s = some s') :
    ¬ s'.integration_time < D_Time ∧
    s.number_of_iterations ≤ s'.number_of_iterations ∧
    s.acoustic_calls ≤ s'.acoustic_calls ∧
    s'.integration_time = accumulate 0 (acousticSteps E s.acoustic_calls s'.acoustic_calls) ∧
    s'.physical_time_ =
      accumulate s.physical_time_ (acousticSteps E s.acoustic_calls s'.acoustic_calls) := by
  obtain ⟨t, ht, rfl⟩ := dbl_fluid_outputBody_inv E D_Time fuel s s' h
  exact dbl_fluid_advectionLoop_book E D_Time fuel _ t ht

theorem dbl_fluid_mainLoop_book (E : Estimators) (End_Time D_Time : ℚ) :
    ∀ fuel s s', mainLoop E End_Time D_Time fuel s = some s' →
      ¬ s'.physical_time_ < End_Time ∧
      s.number_of_iterations ≤ s'.number_of_iterations ∧
      s.acoustic_calls ≤ s'.acoustic_calls ∧
      s'.physical_time_ =
        accumulate s.physical_time_ (acousticSteps E s.acoustic_calls s'.acoustic_calls) := by
  apply dbl_fluid_mainLoop_rule E End_Time D_Time (fun s s' =>
      ¬ s'.physical_time_ < End_Time ∧
      s.number_of_iterations ≤ s'.number_of_iterations ∧
      s.acoustic_calls ≤ s'.acoustic_calls ∧
      s'.physical_time_ =
        accumulate s.physical_time_ (acousticSteps E s.acoustic_calls s'.acoustic_calls))
  · intro s hc
    simp [dbl_fluid_acousticSteps_self, accumulate, hc]
  · intro fuel s t u _ hb _ ih
    obtain ⟨_, hn, h4, _, h7⟩ := dbl_fluid_outputBody_book E D_Time fuel s t hb
    obtain ⟨i0, i1, i4, i7⟩ := ih
    refine ⟨i0, by omega, by omega, ?_⟩
    rw [i7, h7, ← accumulate_append, dbl_fluid_acousticSteps_append E h4 i4]

/-! ### The clock does not decrease in binary64 -/

theorem dbl_fluid_acousticBody_clock (E : Estimators)
    (hac : ∀ k, 0 < E.get_fluid_time_step_size k) (s : State)
    (hd : IsDouble s.physical_time_) :
    s.physical_time_ ≤ (acousticBody E s).physical_time_ ∧
    IsDouble (acousticBody E s).physical_time_ :=
  ⟨le_fl_of_le hd (by linarith [hac s.acoustic_calls]), isDouble_fl _⟩

theorem dbl_fluid_acousticLoop_clock (E : Estimators)
    (hac : ∀ k, 0 < E.get_fluid_time_step_size k) :
    ∀ fuel s s', acousticLoop E fuel s = some s' → IsDouble s.physical_time_ →
      s.physical_time_ ≤ s'.physical_time_ ∧ IsDouble s'.physical_time_ ∧
      s'.number_of_iterations = s.number_of_iterations := by
  apply dbl_fluid_acousticLoop_rule E (fun s s' => IsDouble s.physical_time_ →
      s.physical_time_ ≤ s'.physical_time_ ∧ IsDouble s'.physical_time_ ∧
      s'.number_of_iterations = s.number_of_iterations)
  · intro s _ hd
    exact ⟨le_rfl, hd, rfl⟩
  · intro fuel s u _ _ ih hd
    obtain ⟨h1, h2⟩ := dbl_fluid_acousticBody_clock E hac s hd
    obtain ⟨i1, i2, i3⟩ := ih h2
    exact ⟨h1.trans i1, i2, i3⟩

theorem dbl_fluid_advectionBody_clock (E : Estimators)
    (hac : ∀ k, 0 < E.get_fluid_time_step_size k) (fuel : ℕ) (s s' : State)
    (hd : IsDouble s.physical_time_) (h : advectionBody E fuel s = some s') :
    s.physical_time_ ≤ s'.physical_time_ ∧ IsDouble s'.physical_time_ ∧
    s'.number_of_iterations = s.number_of_iterations + 1 := by
  obtain ⟨t, ht, rfl⟩ := dbl_fluid_advectionBody_inv E fuel s s' h
  obtain ⟨h1, h2, h3⟩ := dbl_fluid_acousticLoop_clock E hac fuel _ t ht hd
  exact ⟨h1, h2, by simp [advectionTail, h3, advectionHead]⟩

theorem dbl_fluid_advectionLoop_clock (E : Estimators) (D_Time : ℚ)
    (hac : ∀ k, 0 < E.get_fluid_time_step_size k) :
    ∀ fuel s s', advectionLoop E D_Time fuel s = some s' → IsDouble s.physical_time_ →
      s.physical_time_ ≤ s'.physical_time_ ∧ IsDouble s'.physical_time_ ∧
      s.number_of_iterations ≤ s'.number_of_iterations := by
  apply dbl_fluid_advectionLoop_rule E D_Time (fun s s' => IsDouble s.physical_time_ →
      s.physical_time_ ≤ s'.physical_time_ ∧ IsDouble s'.physical_time_ ∧
      s.number_of_iterations ≤ s'.number_of_iterations)
  · intro s _ hd
    exact ⟨le_rfl, hd, le_rfl⟩
  · intro fuel s t u _ hb _ ih hd
    obtain ⟨h1, h2, h3⟩ := dbl_fluid_advectionBody_clock E hac fuel s t hd hb
    obtain ⟨i1, i2, i3⟩ := ih h2
    exact ⟨h1.trans i1, i2, by omega⟩

theorem dbl_fluid_mainLoop_clock (E : Estimators) (End_Time D_Time : ℚ)
    (hac : ∀ k, 0 < E.get_fluid_time_step_size k) :
    ∀ fuel s s', mainLoop E End_Time D_Time fuel s = some s' → IsDouble s.physical_time_ →
      s.physical_time_ ≤ s'.physical_time_ ∧ IsDouble s'.physical_time_ ∧
      s.number_of_iterations ≤ s'.number_of_iterations := by
  apply dbl_fluid_mainLoop_rule E End_Time D_Time (fun s s' => IsDouble s.physical_time_ →
      s.physical_time_ ≤ s'.physical_time_ ∧ IsDouble s'.physical_time_ ∧
      s.number_of_iterations ≤ s'.number_of_iterations)
  · intro s _ hd
    exact ⟨le_rfl, hd, le_rfl⟩
  · intro fuel s t u _ hb _ ih hd
    obtain ⟨v, hv, rfl⟩ := dbl_fluid_outputBody_inv E D_Time fuel s _ hb
    obtain ⟨h1, h2, h3⟩ := dbl_fluid_advectionLoop_clock E D_Time hac fuel _ v hv hd
    obtain ⟨i1, i2, i3⟩ := ih h2
    exact ⟨h1.trans i1, i2, h3.trans i3⟩

end StaticConfinement.Double

/-! ## Absorbed steps: loops that do not exit in binary64 arithmetic -/

namespace HydrostaticFSI.Double

open SPHinXsys Binary64

/-- A solid step `e` that the sum `x < dt` absorbs stalls `while (dt_s_sum < dt)`. -/
theorem dbl_solidLoop_stall (E : Estimators) (x e dt : ℚ) (n : ℕ)
    (hx : fl (x + e) = x) (hlt : x < dt) (hcl : ¬ fl (dt - x) < e)
    (hE : ∀ k, n ≤ k → E.gate_computing_time_step_size k = e) :
    ∀ (fuel : ℕ) (s : State), s.dt = dt → s.dt_s_sum = x → s.dt_s = e → n ≤ s.solid_calls →
      solidLoop E fuel s = none := by
  intro fuel
  induction fuel with
  | zero =>
    intro s h1 h2 _ _
    have hc : s.dt_s_sum < s.dt := by rw [h1, h2]; exact hlt
    simp [solidLoop, hc]
  | succ f ih =>
    intro s h1 h2 h3 h4
    have hc : s.dt_s_sum < s.dt := by rw [h1, h2]; exact hlt
    have hclamp : clamp_dt_s s = e := by
      unfold clamp_dt_s
      rw [h1, h2, h3, if_neg hcl]
    simp only [solidLoop, hc, if_true]
    refine ih (solidBody E s) h1 ?_ (hE _ h4) (Nat.le_succ_of_le h4)
    show fl (s.dt_s_sum + clamp_dt_s s) = x
    rw [hclamp, h2, hx]

/-- An acoustic step `SMIN(e, Dt)` that `relaxation_time = x < Dt` absorbs stalls
`while (relaxation_time < Dt)`. -/
theorem dbl_acousticLoop_stall (E : Estimators) (x e D : ℚ) (n : ℕ)
    (hx : fl (x + SMIN e D) = x) (hlt : x < D)
    (hE : ∀ k, n ≤ k → E.get_fluid_time_step_size k = e) :
    ∀ (fuel : ℕ) (s : State), s.Dt = D → s.relaxation_time = x → n ≤ s.acoustic_calls →
      acousticLoop E fuel s = none := by
  intro fuel
  induction fuel with
  | zero =>
    intro s h1 h2 _
    have hc : s.relaxation_time < s.Dt := by rw [h1, h2]; exact hlt
    simp [acousticLoop, hc]
  | succ f ih =>
    intro s h1 h2 h3
    have hc : s.relaxation_time < s.Dt := by rw [h1, h2]; exact hlt
    simp only [acousticLoop, hc, if_true]
    rcases hb : acousticBody E f s with _ | t
    · rfl
    · obtain ⟨_, _, _, k3, k4, _, _, k7, _, _, k10, _⟩ := dbl_acousticBody_spec E f s t hb
      simp only [Option.some_bind]
      refine ih t (k4.trans h1) ?_ (by omega)
      rw [k7, k3, hE _ h3, h1, h2, hx]

theorem dbl_advectionLoop_none (E : Estimators) (D_Time : ℚ) (s : State)
    (hs : s.integeral_time < D_Time)
    (h : ∀ fuel, acousticLoop E fuel (advectionHead E s) = none) :
    ∀ fuel, advectionLoop E D_Time fuel s = none := by
  intro fuel
  cases fuel with
  | zero => simp [advectionLoop, hs]
  | succ f => simp [advectionLoop, hs, advectionBody, h f]

theorem dbl_mainLoop_none (E : Estimators) (End_Time D_Time : ℚ) (s : State)
    (hs : s.physical_time_ < End_Time) (hD : 0 < D_Time)
    (h : ∀ fuel, acousticLoop E fuel (advectionHead E { s with integeral_time := 0 }) = none) :
    ∀ fuel, mainLoop E End_Time D_Time fuel s = none := by
  intro fuel
  cases fuel with
  | zero => simp [mainLoop, hs]
  | succ f =>
    have := dbl_advectionLoop_none E D_Time { s with integeral_time := 0 } hD h f
    simp [mainLoop, hs, outputBody, this]

end HydrostaticFSI.Double

namespace StaticConfinement.Double

open SPHinXsys Binary64

/-- An acoustic step `e` that `relaxation_time = x < Dt` absorbs stalls
`while (relaxation_time < Dt)`. -/
theorem dbl_fluid_acousticLoop_stall (E : Estimators) (x e D : ℚ) (n : ℕ)
    (hx : fl (x + e) = x) (hlt : x < D)
    (hE : ∀ k, n ≤ k → E.get_fluid_time_step_size k = e) :
    ∀ (fuel : ℕ) (s : State), s.Dt = D → s.relaxation_time = x → n ≤ s.acoustic_calls →
      acousticLoop E fuel s = none := by
  intro fuel
  induction fuel with
  | zero =>
    intro s h1 h2 _
    have hc : s.relaxation_time < s.Dt := by rw [h1, h2]; exact hlt
    simp [acousticLoop, hc]
  | succ f ih =>
    intro s h1 h2 h3
    have hc : s.relaxation_time < s.Dt := by rw [h1, h2]; exact hlt
    simp only [acousticLoop, hc, if_true]
    refine ih (acousticBody E s) h1 ?_ (Nat.le_succ_of_le h3)
    show fl (s.relaxation_time + E.get_fluid_time_step_size s.acoustic_calls) = x
    rw [hE _ h3, h2, hx]

theorem dbl_fluid_advectionLoop_none (E : Estimators) (D_Time : ℚ) (s : State)
    (hs : s.integration_time < D_Time)
    (h : ∀ fuel, acousticLoop E fuel (advectionHead E s) = none) :
    ∀ fuel, advectionLoop E D_Time fuel s = none := by
  intro fuel
  cases fuel with
  | zero => simp [advectionLoop, hs]
  | succ f => simp [advectionLoop, hs, advectionBody, h f]

theorem dbl_fluid_mainLoop_none (E : Estimators) (End_Time D_Time : ℚ) (s : State)
    (hs : s.physical_time_ < End_Time) (hD : 0 < D_Time)
    (h : ∀ fuel,
      acousticLoop E fuel (advectionHead E { s with integration_time := 0 }) = none) :
    ∀ fuel, mainLoop E End_Time D_Time fuel s = none := by
  intro fuel
  cases fuel with
  | zero => simp [mainLoop, hs]
  | succ f =>
    have := dbl_fluid_advectionLoop_none E D_Time { s with integration_time := 0 } hD h f
    simp [mainLoop, hs, outputBody, this]

end StaticConfinement.Double

/-! ## The claims -/

open SPHinXsys Binary64

/-- C1, as stated, fails in both programs. With `Dt = 1` and an acoustic estimator that
always returns `3/5`, the loop `while (relaxation_time < Dt)` takes two sub-steps of `3/5`
(in the coupled program the two `update_averages` calls show them): the second exceeds the
remaining budget `2/5` and the loop exits with `relaxation_time = 6/5`, not `Dt`. -/
theorem C1_counterexample :
    ((HydrostaticFSI.acousticLoop (constFSI 1 (3/5) (3/5)) 3
        (firstAdvectionFSI 1 (3/5) (3/5))).map
      (fun s => (s.Dt, s.relaxation_time, s.acoustic_calls,
        s.trace.filter HydrostaticFSI.Call.isUpdateAverages)) =
      some (1, 6/5, 2,
        [HydrostaticFSI.Call.update_averages (3/5),
         HydrostaticFSI.Call.update_averages (3/5)])) ∧
    ((StaticConfinement.acousticLoop (constFluid 1 (3/5)) 3
        (firstAdvectionFluid 1 (3/5))).map
      (fun s => (s.Dt, s.relaxation_time, s.acoustic_calls, s.dt)) = some (1, 6/5, 2, 3/5)) ∧
    ¬ WithinBudget 1 [3/5, 3/5] ∧ (6/5 : ℚ) ≠ 1 := by
  refine ⟨by decide!, by decide!, ?_, by norm_num⟩
  simp only [WithinBudget]
  norm_num

/-- C1, amended: in neither program is the acoustic sub-step clamped to the remaining
advection budget. In the coupled program every sub-step is `dt = SMIN(a, Dt)` for the value
`a` the estimator returned in that sub-step, in the pure-fluid program every sub-step
advances `relaxation_time` by the value the estimator returned. For `Dt > 0`, when the loop
`while (relaxation_time < Dt)` exits, `relaxation_time` is at least `Dt` and exceeds it by
less than the last sub-step `dt`; in the coupled program that last step is at most `Dt`. -/
theorem C1_acoustic_subcycling_amended
    (E : HydrostaticFSI.Estimators) (fuel : ℕ) (s s' : HydrostaticFSI.State)
    (hDt : 0 < s.Dt) (h0 : s.relaxation_time = 0)
    (h : HydrostaticFSI.acousticLoop E fuel s = some s')
    (F : StaticConfinement.Estimators) (fuelF : ℕ) (t t' : StaticConfinement.State)
    (hDtF : 0 < t.Dt) (hF0 : t.relaxation_time = 0)
    (hF : StaticConfinement.acousticLoop F fuelF t = some t') :
    (s.Dt ≤ s'.relaxation_time ∧ s'.relaxation_time < s.Dt + s'.dt ∧ s'.dt ≤ s.Dt ∧
      ∀ f u u', HydrostaticFSI.acousticBody E f u = some u' →
        u'.dt = SMIN (E.get_fluid_time_step_size u.acoustic_calls) u.Dt ∧
        u'.relaxation_time = u.relaxation_time + u'.dt) ∧
    (t.Dt ≤ t'.relaxation_time ∧ t'.relaxation_time < t.Dt + t'.dt ∧
      ∀ u, (StaticConfinement.acousticBody F u).dt = F.get_fluid_time_step_size u.acoustic_calls ∧
        (StaticConfinement.acousticBody F u).relaxation_time =
          u.relaxation_time + (StaticConfinement.acousticBody F u).dt) := by
  constructor
  · obtain ⟨f, u, hu, hDtu, hb⟩ :=
      HydrostaticFSI.acousticLoop_last E fuel s s' h (by rw [h0]; exact hDt)
    obtain ⟨_, _, _, hdt, _, _, _, hrel, _⟩ := HydrostaticFSI.acousticBody_spec E f u s' hb
    have hle : s'.dt ≤ s.Dt := by
      rw [hdt, ← hDtu]; exact min_le_right _ _
    refine ⟨?_, ?_, hle, ?_⟩
    · obtain ⟨_, _, _, _, hDt', _, _, hrel', _⟩ := HydrostaticFSI.acousticBody_spec E f u s' hb
      have hx : ¬ s'.relaxation_time < s'.Dt :=
        HydrostaticFSI.acousticLoop_rule E (fun _ b => ¬ b.relaxation_time < b.Dt)
          (fun _ hc => hc) (fun _ _ _ _ _ _ _ ih => ih) fuel s s' h
      rw [hDt', hDtu] at hx
      exact not_lt.mp hx
    · rw [hrel, ← hDtu]; linarith
    · intro f u u' hb'
      obtain ⟨_, _, _, hdt', _, _, _, hrel', _⟩ := HydrostaticFSI.acousticBody_spec E f u u' hb'
      exact ⟨hdt', hrel'⟩
  · obtain ⟨u, hu, hDtu, hb⟩ :=
      StaticConfinement.fluid_acousticLoop_last F fuelF t t' hF (by rw [hF0]; exact hDtF)
    subst hb
    refine ⟨?_, ?_, fun u => ⟨rfl, rfl⟩⟩
    · have hx : ¬ (StaticConfinement.acousticBody F u).relaxation_time <
          (StaticConfinement.acousticBody F u).Dt :=
        StaticConfinement.fluid_acousticLoop_rule F (fun _ b => ¬ b.relaxation_time < b.Dt)
          (fun _ hc => hc) (fun _ _ _ _ _ ih => ih) fuelF t _ hF
      have : (StaticConfinement.acousticBody F u).Dt = u.Dt := rfl
      rw [this, hDtu] at hx
      exact not_lt.mp hx
    · have : (StaticConfinement.acousticBody F u).relaxation_time
          = u.relaxation_time + (StaticConfinement.acousticBody F u).dt := rfl
      rw [this, ← hDtu]; linarith

/-- Witness for the amended C1: both loops at the start of the first advection interval,
with `Dt = 1` and acoustic steps of `3/5`. -/
theorem C1_acoustic_subcycling_amended_witness :
    ∃ s' t',
      HydrostaticFSI.acousticLoop (constFSI 1 (3/5) (3/5)) 3 (firstAdvectionFSI 1 (3/5) (3/5))
        = some s' ∧
      StaticConfinement.acousticLoop (constFluid 1 (3/5)) 3 (firstAdvectionFluid 1 (3/5))
        = some t' ∧
      (1 ≤ s'.relaxation_time ∧ s'.relaxation_time < 1 + s'.dt ∧ s'.dt ≤ 1) ∧
      (1 ≤ t'.relaxation_time ∧ t'.relaxation_time < 1 + t'.dt) := by
  have hs : (HydrostaticFSI.acousticLoop (constFSI 1 (3/5) (3/5)) 3
      (firstAdvectionFSI 1 (3/5) (3/5))).isSome = true := by decide!
  have ht : (StaticConfinement.acousticLoop (constFluid 1 (3/5)) 3
      (firstAdvectionFluid 1 (3/5))).isSome = true := by decide!
  obtain ⟨s', hs'⟩ := Option.isSome_iff_exists.mp hs
  obtain ⟨t', ht'⟩ := Option.isSome_iff_exists.mp ht
  have key := C1_acoustic_subcycling_amended (constFSI 1 (3/5) (3/5)) 3
    (firstAdvectionFSI 1 (3/5) (3/5)) s' (by decide!) rfl hs'
    (constFluid 1 (3/5)) 3 (firstAdvectionFluid 1 (3/5)) t' (by decide!) rfl ht'
  have e1 : (firstAdvectionFSI 1 (3/5) (3/5)).Dt = 1 := rfl
  have e2 : (firstAdvectionFluid 1 (3/5)).Dt = 1 := rfl
  rw [e1, e2] at key
  exact ⟨s', t', hs', ht', ⟨key.1.1, key.1.2.1, key.1.2.2.1⟩, ⟨key.2.1, key.2.2.1⟩⟩

/-- C2, as stated, fails in binary64 arithmetic, in two ways. The sum need not end at `dt`:
with `dt = 0.8588477739266515`, the initial `dt_s = 0` and a solid estimator that returns
`0.31897460951144313` and then `1`, the loop exits after three passes with
`dt_s_sum = 0.8588477739266516`, the next double above `dt`. The loop need not terminate: with
`dt = 1` and a solid estimator that returns `0.5` and then `1e-17`, bounded below by
`1e-17 > 0`, the sum reaches `0.5` and every later step `1e-17` is absorbed, so no amount of
fuel lets the loop return. -/
theorem C2_counterexample :
    ((HydrostaticFSI.Double.solidLoop
        (switchSolidFSI 1 (fl 0.8588477739266515) 1 (fl 0.31897460951144313) 1) 4
        (firstSolidCycleFSI
          (switchSolidFSI 1 (fl 0.8588477739266515) 1 (fl 0.31897460951144313) 1))).map
      (fun s => (s.dt, s.dt_s_sum, s.solid_calls)) =
      some (fl 0.8588477739266515, fl 0.8588477739266516, 3)) ∧
    fl 0.8588477739266516 ≠ fl 0.8588477739266515 ∧
    0 < fl 1e-17 ∧
    (∀ k, fl 1e-17 ≤ (switchSolidFSI 1 1 1 (1/2) (fl 1e-17)).gate_computing_time_step_size k) ∧
    (firstSolidCycleFSI (switchSolidFSI 1 1 1 (1/2) (fl 1e-17))).dt = 1 ∧
    (firstSolidCycleFSI (switchSolidFSI 1 1 1 (1/2) (fl 1e-17))).dt_s = 0 ∧
    ∀ fuel, HydrostaticFSI.Double.solidLoop (switchSolidFSI 1 1 1 (1/2) (fl 1e-17)) fuel
      (firstSolidCycleFSI (switchSolidFSI 1 1 1 (1/2) (fl 1e-17))) = none := by
  refine ⟨by decide!, by decide!, by decide!, ?_, by decide!, by decide!, ?_⟩
  · intro k
    show fl 1e-17 ≤ switchAt 1 (1/2) (fl 1e-17) k
    unfold switchAt
    split_ifs
    · decide!
    · exact le_refl _
  · intro fuel
    have h0 : (firstSolidCycleFSI (switchSolidFSI 1 1 1 (1/2) (fl 1e-17))).dt_s_sum <
        (firstSolidCycleFSI (switchSolidFSI 1 1 1 (1/2) (fl 1e-17))).dt := by decide!
    have h1 : (HydrostaticFSI.Double.solidBody (switchSolidFSI 1 1 1 (1/2) (fl 1e-17))
        (firstSolidCycleFSI (switchSolidFSI 1 1 1 (1/2) (fl 1e-17)))).dt_s_sum <
        (HydrostaticFSI.Double.solidBody (switchSolidFSI 1 1 1 (1/2) (fl 1e-17))
          (firstSolidCycleFSI (switchSolidFSI 1 1 1 (1/2) (fl 1e-17)))).dt := by decide!
    rcases fuel with _ | _ | f
    · simp only [HydrostaticFSI.Double.solidLoop, if_pos h0]
    · simp only [HydrostaticFSI.Double.solidLoop, if_pos h0, if_pos h1]
    · simp only [HydrostaticFSI.Double.solidLoop, if_pos h0, if_pos h1]
      refine HydrostaticFSI.Double.dbl_solidLoop_stall (switchSolidFSI 1 1 1 (1/2) (fl 1e-17))
        (1/2) (fl 1e-17) 1 1 (by decide!) (by norm_num) (by decide!) ?_ f _
        (by decide!) (by decide!) (by decide!) (by decide!)
      intro k hk
      show switchAt 1 (1/2) (fl 1e-17) k = fl 1e-17
      unfold switchAt
      rw [if_neg (by omega)]

/-- C2, amended. With the sums taken as exact reals the solid sub-cycle is exact: entered
with `dt_s_sum = 0`, an acoustic step `dt > 0` and a carried-in solid step `dt_s ≥ 0`, and
with a solid estimator bounded below by a positive constant, the loop `while (dt_s_sum < dt)`
terminates, every step handed to the two stress-relaxation operators is at most the budget
left at that moment, and on exit the steps sum to `dt` and `dt_s_sum = dt`. In binary64
arithmetic, whenever the loop exits, every step handed to the operators is at most the
budget left as line 400 computes it, the rounded difference of `dt` and the rounded sum so
far, `dt_s_sum` is the rounded sum of the steps, and `dt ≤ dt_s_sum ≤ dt + ulp dt` for a
binary64 `dt`: the sum ends at `dt` or at the next double above it. -/
theorem C2_solid_subcycling_amended (E : HydrostaticFSI.Estimators) (c : ℚ) (hc : 0 < c)
    (hE : ∀ k, c ≤ E.gate_computing_time_step_size k)
    (s : HydrostaticFSI.State) (hdt : 0 < s.dt) (hd : IsDouble s.dt) (hdt_s : 0 ≤ s.dt_s)
    (hsum : s.dt_s_sum = 0) :
    (∃ (fuel : ℕ) (s' : HydrostaticFSI.State) (steps : List ℚ),
      HydrostaticFSI.solidLoop E fuel s = some s' ∧
      s'.trace = s.trace ++ steps.flatMap (fun d =>
        [HydrostaticFSI.Call.gate_stress_relaxation_first_half d,
         HydrostaticFSI.Call.gate_constrain,
         HydrostaticFSI.Call.gate_stress_relaxation_second_half d,
         HydrostaticFSI.Call.gate_computing_time_step_size]) ∧
      WithinBudget s.dt steps ∧
      steps.sum = s.dt ∧
      s'.dt_s_sum = s.dt) ∧
    (∀ (fuel : ℕ) (s' : HydrostaticFSI.State),
      HydrostaticFSI.Double.solidLoop E fuel s = some s' →
      ∃ steps : List ℚ,
        s'.trace = s.trace ++ steps.flatMap (fun d =>
          [HydrostaticFSI.Call.gate_stress_relaxation_first_half d,
           HydrostaticFSI.Call.gate_constrain,
           HydrostaticFSI.Call.gate_stress_relaxation_second_half d,
           HydrostaticFSI.Call.gate_computing_time_step_size]) ∧
        WithinRoundedBudget s.dt 0 steps ∧
        s'.dt_s_sum = accumulate 0 steps ∧
        s.dt ≤ s'.dt_s_sum ∧ s'.dt_s_sum ≤ s.dt + ulp s.dt) := by
  constructor
  · obtain ⟨fuel, s', h⟩ := HydrostaticFSI.solidLoop_terminates_of_nonneg E c hc hE s hdt_s
    obtain ⟨steps, h1, h2, h3, h4, h5, _⟩ := HydrostaticFSI.solidLoop_spec E fuel s s' h
    rw [hsum, sub_zero] at h3
    rw [hsum, zero_add] at h2
    have hle := WithinBudget.sum_le steps s.dt hdt.le h3
    have hge : s.dt ≤ steps.sum := by
      rw [h5, h2] at h4
      exact not_lt.mp h4
    have heq : steps.sum = s.dt := le_antisymm hle hge
    exact ⟨fuel, s', steps, h, h1, h3, heq, by rw [h2, heq]⟩
  · intro fuel s' h
    obtain ⟨steps, h1, h2, h3, h4, h5, _⟩ :=
      HydrostaticFSI.Double.dbl_solidLoop_spec E fuel s s' h
    rw [hsum] at h2 h3
    have hb := HydrostaticFSI.Double.dbl_solidLoop_bound E (fun k => hc.le.trans (hE k))
      fuel s s' h hdt hd hdt_s (by rw [hsum]) (by rw [hsum]; linarith [ulp_pos s.dt])
    rw [h5] at h4
    exact ⟨steps, h1, h3, h2, not_lt.mp h4, hb⟩

/-- Witness for the amended C2: the solid sub-cycle of the first acoustic sub-step of the
program, with an acoustic step of `0.004`, a solid estimator returning `0.001` and the
initial `dt_s = 0`. -/
theorem C2_solid_subcycling_amended_witness :
    0 < (firstSolidCycleFSI (constFSI 1 (fl 0.004) (fl 0.001))).dt ∧
    (∃ (fuel : ℕ) (s' : HydrostaticFSI.State),
      HydrostaticFSI.solidLoop (constFSI 1 (fl 0.004) (fl 0.001)) fuel
        (firstSolidCycleFSI (constFSI 1 (fl 0.004) (fl 0.001))) = some s' ∧
      s'.dt_s_sum = fl 0.004) ∧
    (∃ s' : HydrostaticFSI.State,
      HydrostaticFSI.Double.solidLoop (constFSI 1 (fl 0.004) (fl 0.001)) 6
        (firstSolidCycleFSI (constFSI 1 (fl 0.004) (fl 0.001))) = some s' ∧
      fl 0.004 ≤ s'.dt_s_sum ∧ s'.dt_s_sum ≤ fl 0.004 + ulp (fl 0.004)) := by
  have hdt : (firstSolidCycleFSI (constFSI 1 (fl 0.004) (fl 0.001))).dt = fl 0.004 := by decide!
  have key := C2_solid_subcycling_amended (constFSI 1 (fl 0.004) (fl 0.001)) (fl 0.001)
    (by decide!) (fun _ => le_refl _)
    (firstSolidCycleFSI (constFSI 1 (fl 0.004) (fl 0.001)))
    (by decide!) (by decide!) (le_refl _) rfl
  obtain ⟨⟨fuel, s', steps, h1, _, _, _, h5⟩, k2⟩ := key
  have hs : (HydrostaticFSI.Double.solidLoop (constFSI 1 (fl 0.004) (fl 0.001)) 6
      (firstSolidCycleFSI (constFSI 1 (fl 0.004) (fl 0.001)))).isSome = true := by decide!
  obtain ⟨t', ht'⟩ := Option.isSome_iff_exists.mp hs
  obtain ⟨_, _, _, _, h6, h7⟩ := k2 6 t' ht'
  rw [hdt] at h5 h6 h7
  exact ⟨by rw [hdt]; decide!, ⟨fuel, s', h1, h5⟩, ⟨t', ht', h6, h7⟩⟩

/-- C3: the call trace of an acoustic sub-step of the coupled program. Every sub-step that
completes has emitted, after the estimator call that fixes `dt`: damping(dt), pressure
relaxation(dt), the pressure-force transfer, density relaxation(dt), initialize_displacement,
then for each solid step `d` of a list `steps` (of any length) first half(d), constraint,
second half(d) and the solid re-estimate, then update_averages(dt). In it
initialize_displacement occurs once and the only update_averages call is the final one,
with the `dt` of the fluid operators. The sub-step does complete when the solid estimator is
bounded below by a positive constant and the carried-in `dt_s` is not negative. -/
theorem C3_acoustic_substep_trace (E : HydrostaticFSI.Estimators) (s : HydrostaticFSI.State) :
    (∀ fuel s', HydrostaticFSI.acousticBody E fuel s = some s' →
      ∃ (steps : List ℚ) (calls : List HydrostaticFSI.Call),
        s'.trace = s.trace ++ calls ∧
        s'.dt = SMIN (E.get_fluid_time_step_size s.acoustic_calls) s.Dt ∧
        calls =
          [HydrostaticFSI.Call.get_fluid_time_step_size,
           HydrostaticFSI.Call.fluid_damping s'.dt,
           HydrostaticFSI.Call.pressure_relaxation s'.dt,
           HydrostaticFSI.Call.fluid_pressure_force_on_gate,
           HydrostaticFSI.Call.density_relaxation s'.dt,
           HydrostaticFSI.Call.initialize_displacement] ++
          steps.flatMap (fun d =>
            [HydrostaticFSI.Call.gate_stress_relaxation_first_half d,
             HydrostaticFSI.Call.gate_constrain,
             HydrostaticFSI.Call.gate_stress_relaxation_second_half d,
             HydrostaticFSI.Call.gate_computing_time_step_size]) ++
          [HydrostaticFSI.Call.update_averages s'.dt] ∧
        calls.count HydrostaticFSI.Call.initialize_displacement = 1 ∧
        calls.filter HydrostaticFSI.Call.isUpdateAverages =
          [HydrostaticFSI.Call.update_averages s'.dt]) ∧
    (∀ c : ℚ, 0 < c → (∀ k, c ≤ E.gate_computing_time_step_size k) → 0 ≤ s.dt_s →
      ∃ fuel s', HydrostaticFSI.acousticBody E fuel s = some s') := by
  constructor
  · intro fuel s' h
    obtain ⟨steps, h1, _, h3, _⟩ := HydrostaticFSI.acousticBody_spec E fuel s s' h
    refine ⟨steps, _, ?_, h3, rfl, ?_, ?_⟩
    · rw [h1]; simp only [List.append_assoc]; rfl
    · have := HydrostaticFSI.count_initialize_displacement_solidCalls steps
      unfold HydrostaticFSI.solidCalls at this
      simp [List.count_append, this]
    · have := HydrostaticFSI.filter_isUpdateAverages_solidCalls steps
      unfold HydrostaticFSI.solidCalls at this
      simp [List.filter_append, this, HydrostaticFSI.Call.isUpdateAverages]
  · intro c hc hE hs
    obtain ⟨fuel, t, h⟩ := HydrostaticFSI.solidLoop_terminates_of_nonneg E c hc hE
      (HydrostaticFSI.acousticHead E s) hs
    exact ⟨fuel, HydrostaticFSI.acousticTail t, by simp [HydrostaticFSI.acousticBody, h]⟩

/-- Witness for C3: the first acoustic sub-step of the program with an acoustic step of
`4/1000` and a solid estimator returning `1/1000`. -/
theorem C3_acoustic_substep_trace_witness :
    ∃ s', HydrostaticFSI.acousticBody (constFSI 1 (4/1000) (1/1000)) 5
        (firstAdvectionFSI 1 (4/1000) (1/1000)) = some s' ∧
      ∃ calls : List HydrostaticFSI.Call,
        s'.trace = (firstAdvectionFSI 1 (4/1000) (1/1000)).trace ++ calls ∧
        calls.count HydrostaticFSI.Call.initialize_displacement = 1 ∧
        calls.filter HydrostaticFSI.Call.isUpdateAverages =
          [HydrostaticFSI.Call.update_averages s'.dt] := by
  have hs : (HydrostaticFSI.acousticBody (constFSI 1 (4/1000) (1/1000)) 5
      (firstAdvectionFSI 1 (4/1000) (1/1000))).isSome = true := by decide!
  obtain ⟨s', hs'⟩ := Option.isSome_iff_exists.mp hs
  obtain ⟨steps, calls, h1, _, _, h4, h5⟩ :=
    (C3_acoustic_substep_trace (constFSI 1 (4/1000) (1/1000))
      (firstAdvectionFSI 1 (4/1000) (1/1000))).1 5 s' hs'
  exact ⟨s', hs', calls, h1, h4, h5⟩

/-- C4, the code at the failing input: in the first acoustic sub-step of the pure-fluid
program (estimators returning `Dt = 1/10` and `dt = 1/100`) both relaxation operators are
called with the stale step `0`, the value `dt` was initialised with, while
`relaxation_time`, `integration_time` and `physical_time_` advance by `1/100`. -/
theorem C4_operators_get_stale_step :
    (StaticConfinement.acousticBody (constFluid (1/10) (1/100))
        (firstAdvectionFluid (1/10) (1/100))).trace =
      (firstAdvectionFluid (1/10) (1/100)).trace ++
        [StaticConfinement.Call.pressure_relaxation 0,
         StaticConfinement.Call.density_relaxation 0,
         StaticConfinement.Call.get_fluid_time_step_size] ∧
    (firstAdvectionFluid (1/10) (1/100)).physical_time_ = 0 ∧
    (firstAdvectionFluid (1/10) (1/100)).integration_time = 0 ∧
    (firstAdvectionFluid (1/10) (1/100)).relaxation_time = 0 ∧
    (StaticConfinement.acousticBody (constFluid (1/10) (1/100))
        (firstAdvectionFluid (1/10) (1/100))).physical_time_ = 1/100 ∧
    (StaticConfinement.acousticBody (constFluid (1/10) (1/100))
        (firstAdvectionFluid (1/10) (1/100))).integration_time = 1/100 ∧
    (StaticConfinement.acousticBody (constFluid (1/10) (1/100))
        (firstAdvectionFluid (1/10) (1/100))).relaxation_time = 1/100 := by
  decide!

/-- C6, as stated, fails in binary64 arithmetic: a positive step below half the spacing of
the doubles at the clock is absorbed. With `Dt = 1` and an acoustic estimator that returns
`0.25` and then `1e-17`, the first sub-step of either program moves `physical_time_` from
`0` to `0.25`, and the second, with the positive step `1e-17`, leaves it at `0.25`. -/
theorem C6_counterexample :
    0 < fl 1e-17 ∧ fl (1 / 4 + fl 1e-17) = 1 / 4 ∧
    ((HydrostaticFSI.Double.acousticBody (switchFSI 1 1 (1/4) (fl 1e-17) 1) 3
        (HydrostaticFSI.advectionHead (switchFSI 1 1 (1/4) (fl 1e-17) 1)
          HydrostaticFSI.initialState)).bind
      (fun s₁ => (HydrostaticFSI.Double.acousticBody (switchFSI 1 1 (1/4) (fl 1e-17) 1) 3 s₁).map
        (fun s₂ => (s₁.physical_time_, s₂.dt, s₂.physical_time_))) =
      some (1 / 4, fl 1e-17, 1 / 4)) ∧
    (StaticConfinement.Double.acousticBody (switchFluid 1 1 (1/4) (fl 1e-17))
        (StaticConfinement.advectionHead (switchFluid 1 1 (1/4) (fl 1e-17))
          (StaticConfinement.initialState 0 (fun _ => 0)))).physical_time_ = 1 / 4 ∧
    (StaticConfinement.Double.acousticBody (switchFluid 1 1 (1/4) (fl 1e-17))
        (StaticConfinement.Double.acousticBody (switchFluid 1 1 (1/4) (fl 1e-17))
          (StaticConfinement.advectionHead (switchFluid 1 1 (1/4) (fl 1e-17))
            (StaticConfinement.initialState 0 (fun _ => 0))))).dt = fl 1e-17 ∧
    (StaticConfinement.Double.acousticBody (switchFluid 1 1 (1/4) (fl 1e-17))
        (StaticConfinement.Double.acousticBody (switchFluid 1 1 (1/4) (fl 1e-17))
          (StaticConfinement.advectionHead (switchFluid 1 1 (1/4) (fl 1e-17))
            (StaticConfinement.initialState 0 (fun _ => 0))))).physical_time_ = 1 / 4 := by
  refine ⟨by decide!, by decide!, by decide!, by decide!, by decide!, by decide!⟩

/-- C6, amended: in binary64 arithmetic the simulation clock never decreases. For strictly
positive advection and acoustic estimator values, in both programs: an acoustic sub-step
from a binary64 `physical_time_` leaves `physical_time_` no smaller, and leaves it
unchanged only if the step is at most half the spacing of the doubles at the exact sum (the
step is then absorbed by the rounding of `physical_time_ += dt`); it leaves
`number_of_iterations` alone. The other statements of the integration loop (the reset of
the interval time, the start and the end of an advection interval, the recorder call that
ends an output interval) leave `physical_time_` alone, and only the end of an advection
interval changes `number_of_iterations`, by `+ 1`; hence over an advection interval and over
any run of the main loop `physical_time_` does not decrease, and `number_of_iterations`
grows by exactly one per advection interval and never decreases. -/
theorem C6_clock_never_decreases_amended
    (E : HydrostaticFSI.Estimators)
    (had : ∀ k, 0 < E.get_fluid_adevction_time_step_size k)
    (hac : ∀ k, 0 < E.get_fluid_time_step_size k)
    (F : StaticConfinement.Estimators)
    (hF : ∀ k, 0 < F.get_fluid_time_step_size k) :
    ((∀ fuel s s', IsDouble s.physical_time_ → 0 < s.Dt →
        HydrostaticFSI.Double.acousticBody E fuel s = some s' →
        s.physical_time_ ≤ s'.physical_time_ ∧
        (s'.physical_time_ = s.physical_time_ →
          s'.dt ≤ ulp (s.physical_time_ + s'.dt) / 2) ∧
        IsDouble s'.physical_time_ ∧ s'.Dt = s.Dt ∧
        s'.number_of_iterations = s.number_of_iterations) ∧
      (∀ s : HydrostaticFSI.State,
        ({ s with integeral_time := 0 } : HydrostaticFSI.State).physical_time_
          = s.physical_time_ ∧
        (HydrostaticFSI.advectionHead E s).physical_time_ = s.physical_time_ ∧
        (HydrostaticFSI.advectionHead E s).number_of_iterations = s.number_of_iterations ∧
        0 < (HydrostaticFSI.advectionHead E s).Dt ∧
        (HydrostaticFSI.advectionTail s).physical_time_ = s.physical_time_ ∧
        (HydrostaticFSI.advectionTail s).number_of_iterations = s.number_of_iterations + 1 ∧
        (HydrostaticFSI.outputTail s).physical_time_ = s.physical_time_ ∧
        (HydrostaticFSI.outputTail s).number_of_iterations = s.number_of_iterations) ∧
      (∀ fuel s s', IsDouble s.physical_time_ →
        HydrostaticFSI.Double.advectionBody E fuel s = some s' →
        s.physical_time_ ≤ s'.physical_time_ ∧ IsDouble s'.physical_time_ ∧
        s'.number_of_iterations = s.number_of_iterations + 1) ∧
      (∀ End_Time D_Time fuel s s', IsDouble s.physical_time_ →
        HydrostaticFSI.Double.mainLoop E End_Time D_Time fuel s = some s' →
        s.physical_time_ ≤ s'.physical_time_ ∧ IsDouble s'.physical_time_ ∧
        s.number_of_iterations ≤ s'.number_of_iterations)) ∧
    ((∀ s : StaticConfinement.State, IsDouble s.physical_time_ →
        s.physical_time_ ≤ (StaticConfinement.Double.acousticBody F s).physical_time_ ∧
        ((StaticConfinement.Double.acousticBody F s).physical_time_ = s.physical_time_ →
          (StaticConfinement.Double.acousticBody F s).dt ≤
            ulp (s.physical_time_ + (StaticConfinement.Double.acousticBody F s).dt) / 2) ∧
        IsDouble (StaticConfinement.Double.acousticBody F s).physical_time_ ∧
        (StaticConfinement.Double.acousticBody F s).number_of_iterations
          = s.number_of_iterations) ∧
      (∀ s : StaticConfinement.State,
        ({ s with integration_time := 0 } : StaticConfinement.State).physical_time_
          = s.physical_time_ ∧
        (StaticConfinement.advectionHead F s).physical_time_ = s.physical_time_ ∧
        (StaticConfinement.advectionHead F s).number_of_iterations = s.number_of_iterations ∧
        (StaticConfinement.Double.advectionTail s).physical_time_ = s.physical_time_ ∧
        (StaticConfinement.Double.advectionTail s).number_of_iterations
          = s.number_of_iterations + 1 ∧
        (StaticConfinement.outputTail s).physical_time_ = s.physical_time_ ∧
        (StaticConfinement.outputTail s).number_of_iterations = s.number_of_iterations) ∧
      (∀ fuel s s', IsDouble s.physical_time_ →
        StaticConfinement.Double.advectionBody F fuel s = some s' →
        s.physical_time_ ≤ s'.physical_time_ ∧ IsDouble s'.physical_time_ ∧
        s'.number_of_iterations = s.number_of_iterations + 1) ∧
      (∀ End_Time D_Time fuel s s', IsDouble s.physical_time_ →
        StaticConfinement.Double.mainLoop F End_Time D_Time fuel s = some s' →
        s.physical_time_ ≤ s'.physical_time_ ∧ IsDouble s'.physical_time_ ∧
        s.number_of_iterations ≤ s'.number_of_iterations)) := by
  have habs : ∀ x d : ℚ, fl (x + d) = x → d ≤ ulp (x + d) / 2 := by
    intro x d h
    have h1 := abs_fl_sub_le (x + d)
    rw [h, show x - (x + d) = -d by ring, abs_neg] at h1
    exact (le_abs_self d).trans h1
  refine ⟨⟨?_, ?_, ?_, ?_⟩, ⟨?_, ?_, ?_, ?_⟩⟩
  · intro fuel s s' hd hDt hb
    obtain ⟨_, _, _, h3, h4, h5, _, _, h8, _⟩ :=
      HydrostaticFSI.Double.dbl_acousticBody_spec E fuel s s' hb
    have hpos : 0 < s'.dt := by
      rw [h3]; exact lt_min (hac _) hDt
    refine ⟨?_, ?_, ?_, h4, h8⟩
    · rw [h5]; exact le_fl_of_le hd (by linarith)
    · intro heq
      rw [h5] at heq
      exact habs _ _ heq
    · rw [h5]; exact isDouble_fl _
  · intro s
    exact ⟨rfl, rfl, rfl, had _, rfl, rfl, rfl, rfl⟩
  · intro fuel s s' hd hb
    exact HydrostaticFSI.Double.dbl_advectionBody_clock E had hac fuel s s' hd hb
  · intro End_Time D_Time fuel s s' hd hm
    exact HydrostaticFSI.Double.dbl_mainLoop_clock E End_Time D_Time had hac fuel s s' hm hd
  · intro s hd
    obtain ⟨h1, h2⟩ := StaticConfinement.Double.dbl_fluid_acousticBody_clock F hF s hd
    exact ⟨h1, fun heq => habs _ _ heq, h2, rfl⟩
  · intro s
    exact ⟨rfl, rfl, rfl, rfl, rfl, rfl, rfl⟩
  · intro fuel s s' hd hb
    exact StaticConfinement.Double.dbl_fluid_advectionBody_clock F hF fuel s s' hd hb
  · intro End_Time D_Time fuel s s' hd hm
    exact StaticConfinement.Double.dbl_fluid_mainLoop_clock F End_Time D_Time hF fuel s s' hm hd

/-- Witness for the amended C6: the first acoustic sub-step of either program with all
estimators returning `1`. -/
theorem C6_clock_never_decreases_amended_witness :
    (∃ s', HydrostaticFSI.Double.acousticBody (constFSI 1 1 1) 2 (firstAdvectionFSI 1 1 1)
        = some s' ∧
      (firstAdvectionFSI 1 1 1).physical_time_ ≤ s'.physical_time_) ∧
    (firstAdvectionFluid 1 1).physical_time_ ≤
      (StaticConfinement.Double.acousticBody (constFluid 1 1)
        (firstAdvectionFluid 1 1)).physical_time_ := by
  have key := C6_clock_never_decreases_amended (constFSI 1 1 1)
    (fun _ => by show (0 : ℚ) < 1; norm_num) (fun _ => by show (0 : ℚ) < 1; norm_num)
    (constFluid 1 1) (fun _ => by show (0 : ℚ) < 1; norm_num)
  have hs : (HydrostaticFSI.Double.acousticBody (constFSI 1 1 1) 2
      (firstAdvectionFSI 1 1 1)).isSome = true := by decide!
  obtain ⟨s', hs'⟩ := Option.isSome_iff_exists.mp hs
  exact ⟨⟨s', hs', (key.1.1 2 _ s' (by decide!) (by decide!) hs').1⟩,
    (key.2.1 _ (by decide!)).1⟩

/-- C7, as stated, fails in the coupled program: `water_block_complex` is constructed with
`gate` among its contact bodies (line 292), yet in every rebuild its `updateConfiguration`
(line 425) comes before `gate->updateCellLinkedList()` (line 427). In the trace of the first
advection interval of a run the two calls sit at positions 28 and 29. -/
theorem C7_counterexample :
    Body.gate ∈ Relation.water_block_complex.bodies ∧
    (HydrostaticFSI.advectionBody (constFSI 1 1 1) 3 HydrostaticFSI.initialState).map
      (fun s =>
        (s.trace.indexOf (HydrostaticFSI.Call.updateConfiguration Relation.water_block_complex),
         s.trace.indexOf (HydrostaticFSI.Call.updateCellLinkedList Body.gate),
         s.trace.length)) = some (28, 29, 32) ∧
    ¬ (∀ (b : Body) (r : Relation), b ∈ r.bodies →
        HydrostaticFSI.Call.updateCellLinkedList b ∈ HydrostaticFSI.rebuild →
        HydrostaticFSI.Call.updateConfiguration r ∈ HydrostaticFSI.rebuild →
        HydrostaticFSI.rebuild.indexOf (HydrostaticFSI.Call.updateCellLinkedList b) <
          HydrostaticFSI.rebuild.indexOf (HydrostaticFSI.Call.updateConfiguration r)) := by
  refine ⟨by decide, by decide!, ?_⟩
  intro h
  have := h Body.gate Relation.water_block_complex (by decide) (by decide) (by decide)
  revert this
  decide

/-- C7, amended: in both programs every advection interval that completes has made its
rebuild calls exactly once, as one block after all other calls of the interval (in the
coupled program only the call of the tip recorder follows), so after the last acoustic
sub-step and before the next interval starts; the calls made by the acoustic loop, solid
sub-cycles included, contain no rebuild call. Within the block, the cell-linked list of the
body a relation is constructed on is updated before that relation. In the coupled program
the block is: water_block cell list, water_block_complex, gate cell list, gate_contact. -/
theorem C7_rebuild_once_per_interval_amended
    (E : HydrostaticFSI.Estimators) (fuel : ℕ) (s s' : HydrostaticFSI.State)
    (h : HydrostaticFSI.advectionBody E fuel s = some s')
    (F : StaticConfinement.Estimators) (fuelF : ℕ) (t t' : StaticConfinement.State)
    (hF : StaticConfinement.advectionBody F fuelF t = some t') :
    (∃ calls, s'.trace = s.trace ++ calls ++
        [HydrostaticFSI.Call.updateCellLinkedList Body.water_block,
         HydrostaticFSI.Call.updateConfiguration Relation.water_block_complex,
         HydrostaticFSI.Call.updateCellLinkedList Body.gate,
         HydrostaticFSI.Call.updateConfiguration Relation.gate_contact] ++
        [HydrostaticFSI.Call.write_beam_tip_displacement (s.number_of_iterations + 1)] ∧
      ∀ c ∈ calls, c.isRebuild = false) ∧
    (∃ calls, t'.trace = t.trace ++ calls ++
        [StaticConfinement.Call.updateCellLinkedList Body.water_block,
         StaticConfinement.Call.updateConfiguration Relation.water_block_inner,
         StaticConfinement.Call.updateConfiguration Relation.fluid_observer_contact] ∧
      ∀ c ∈ calls, c.isRebuild = false) ∧
    (∀ f u u', HydrostaticFSI.acousticLoop E f u = some u' →
      ∃ calls, u'.trace = u.trace ++ calls ∧ ∀ c ∈ calls, c.isRebuild = false) ∧
    (∀ f u u', StaticConfinement.acousticLoop F f u = some u' →
      ∃ calls, u'.trace = u.trace ++ calls ∧ ∀ c ∈ calls, c.isRebuild = false) ∧
    (∀ r : Relation,
      HydrostaticFSI.Call.updateCellLinkedList r.body ∈ HydrostaticFSI.rebuild →
      HydrostaticFSI.Call.updateConfiguration r ∈ HydrostaticFSI.rebuild →
      HydrostaticFSI.rebuild.indexOf (HydrostaticFSI.Call.updateCellLinkedList r.body) <
        HydrostaticFSI.rebuild.indexOf (HydrostaticFSI.Call.updateConfiguration r)) ∧
    (∀ r : Relation,
      StaticConfinement.Call.updateCellLinkedList r.body ∈ StaticConfinement.rebuild →
      StaticConfinement.Call.updateConfiguration r ∈ StaticConfinement.rebuild →
      StaticConfinement.rebuild.indexOf (StaticConfinement.Call.updateCellLinkedList r.body) <
        StaticConfinement.rebuild.indexOf (StaticConfinement.Call.updateConfiguration r)) := by
  refine ⟨?_, ?_, ?_, ?_, ?_, ?_⟩
  · exact HydrostaticFSI.advectionBody_trace E fuel s s' h
  · exact StaticConfinement.fluid_advectionBody_trace F fuelF t t' hF
  · exact HydrostaticFSI.acousticLoop_noRebuild E
  · exact StaticConfinement.fluid_acousticLoop_noRebuild F
  · intro r
    cases r <;> decide
  · intro r
    cases r <;> decide

/-- Witness for the amended C7: the first advection interval of either program with all
estimators returning `1`. -/
theorem C7_rebuild_once_per_interval_amended_witness :
    ∃ s' t',
      HydrostaticFSI.advectionBody (constFSI 1 1 1) 3 HydrostaticFSI.initialState = some s' ∧
      StaticConfinement.advectionBody (constFluid 1 1) 2
        (StaticConfinement.initialState 0 (fun _ => 0)) = some t' ∧
      (∃ calls, s'.trace = HydrostaticFSI.initialState.trace ++ calls ++
        [HydrostaticFSI.Call.updateCellLinkedList Body.water_block,
         HydrostaticFSI.Call.updateConfiguration Relation.water_block_complex,
         HydrostaticFSI.Call.updateCellLinkedList Body.gate,
         HydrostaticFSI.Call.updateConfiguration Relation.gate_contact] ++
        [HydrostaticFSI.Call.write_beam_tip_displacement
          (HydrostaticFSI.initialState.number_of_iterations + 1)] ∧
        ∀ c ∈ calls, c.isRebuild = false) ∧
      (∃ calls, t'.trace = (StaticConfinement.initialState 0 (fun _ => 0)).trace ++ calls ++
        [StaticConfinement.Call.updateCellLinkedList Body.water_block,
         StaticConfinement.Call.updateConfiguration Relation.water_block_inner,
         StaticConfinement.Call.updateConfiguration Relation.fluid_observer_contact] ∧
        ∀ c ∈ calls, c.isRebuild = false) := by
  have hs : (HydrostaticFSI.advectionBody (constFSI 1 1 1) 3
      HydrostaticFSI.initialState).isSome = true := by decide!
  have ht : (StaticConfinement.advectionBody (constFluid 1 1) 2
      (StaticConfinement.initialState 0 (fun _ => 0))).isSome = true := by decide!
  obtain ⟨s', hs'⟩ := Option.isSome_iff_exists.mp hs
  obtain ⟨t', ht'⟩ := Option.isSome_iff_exists.mp ht
  have key := C7_rebuild_once_per_interval_amended (constFSI 1 1 1) 3
    HydrostaticFSI.initialState s' hs' (constFluid 1 1) 2
    (StaticConfinement.initialState 0 (fun _ => 0)) t' ht'
  exact ⟨s', t', hs', ht', key.1, key.2.1⟩

/-- C8, as stated, fails. In the coupled program `gate_inner` and `gate_observer_contact`
reference the gate, but neither is among the relations updated at the end of an advection
interval, and the tip recorder, constructed on `gate_observer_contact`, is called right
after the rebuild. In the pure-fluid program the restart branch does not update
`fluid_observer_contact`: after a restart at step 1000 the pressure recorder constructed on
it is called (position 15 of the trace) before its first update (position 19). -/
theorem C8_counterexample :
    (Body.gate ∈ Relation.gate_inner.bodies ∧
      Body.gate ∈ Relation.gate_observer_contact.bodies ∧
      HydrostaticFSI.Call.updateConfiguration Relation.gate_inner ∉ HydrostaticFSI.rebuild ∧
      HydrostaticFSI.Call.updateConfiguration Relation.gate_observer_contact
        ∉ HydrostaticFSI.rebuild) ∧
    ((HydrostaticFSI.advectionBody (constFSI 1 1 1) 3 HydrostaticFSI.initialState).map
      (fun s =>
        (decide (HydrostaticFSI.Call.updateConfiguration Relation.gate_inner ∈ s.trace),
         decide (HydrostaticFSI.Call.updateConfiguration Relation.gate_observer_contact
           ∈ s.trace),
         (s.trace.getLast?).bind HydrostaticFSI.Call.relation)) =
      some (false, false, some Relation.gate_observer_contact)) ∧
    (Body.water_block ∈ Relation.fluid_observer_contact.bodies ∧
      StaticConfinement.Call.updateConfiguration Relation.fluid_observer_contact
        ∉ (StaticConfinement.initialState 1000 (fun _ => 5)).trace ∧
      (StaticConfinement.Call.write_recorded_water_pressure 6).relation
        = some Relation.fluid_observer_contact ∧
      (StaticConfinement.advectionBody (constFluid 1 1) 2
          (StaticConfinement.initialState 1000 (fun _ => 5))).map
        (fun s =>
          (s.trace.indexOf (StaticConfinement.Call.write_recorded_water_pressure 6),
           s.trace.indexOf
             (StaticConfinement.Call.updateConfiguration Relation.fluid_observer_contact),
           s.trace.length)) = some (15, 19, 20)) := by
  refine ⟨⟨by decide, by decide, by decide, by decide⟩, by decide!,
    ⟨by decide, by decide!, rfl, by decide!⟩⟩

/-- C8, amended. In the coupled program every advection interval ends by rebuilding the cell
lists of `water_block` and `gate` and updating `water_block_complex` and `gate_contact`,
followed only by the call of the tip recorder; over any run of the main loop these are
the only cell lists rebuilt and the only relations updated (`gate_inner` and
`gate_observer_contact` are not updated inside the loop). In the pure-fluid program every
advection interval ends by rebuilding the cell list of `water_block` and updating every
relation of the program that references `water_block`; on a restart the cell list of
`water_block` and `water_block_inner` are updated after the restart files are read and
before the main loop starts. -/
theorem C8_neighbor_refresh_coverage_amended
    (E : HydrostaticFSI.Estimators) (fuel : ℕ) (s s' : HydrostaticFSI.State)
    (h : HydrostaticFSI.advectionBody E fuel s = some s')
    (End_Time D_Time : ℚ) (fuelM : ℕ) (m m' : HydrostaticFSI.State)
    (hM : HydrostaticFSI.mainLoop E End_Time D_Time fuelM m = some m')
    (F : StaticConfinement.Estimators) (fuelF : ℕ) (t t' : StaticConfinement.State)
    (hF : StaticConfinement.advectionBody F fuelF t = some t')
    (restart_step_ : ℕ) (hr : restart_step_ ≠ 0) (readRestartFiles : ℕ → ℚ) :
    (∃ calls, s'.trace = s.trace ++ calls ++
        [HydrostaticFSI.Call.updateCellLinkedList Body.water_block,
         HydrostaticFSI.Call.updateConfiguration Relation.water_block_complex,
         HydrostaticFSI.Call.updateCellLinkedList Body.gate,
         HydrostaticFSI.Call.updateConfiguration Relation.gate_contact,
         HydrostaticFSI.Call.write_beam_tip_displacement (s.number_of_iterations + 1)]) ∧
    (∃ calls, m'.trace = m.trace ++ calls ∧
      (∀ b, HydrostaticFSI.Call.updateCellLinkedList b ∈ calls →
        b = Body.water_block ∨ b = Body.gate) ∧
      (∀ r, HydrostaticFSI.Call.updateConfiguration r ∈ calls →
        r = Relation.water_block_complex ∨ r = Relation.gate_contact)) ∧
    (∃ calls, t'.trace = t.trace ++ calls ++
        [StaticConfinement.Call.updateCellLinkedList Body.water_block,
         StaticConfinement.Call.updateConfiguration Relation.water_block_inner,
         StaticConfinement.Call.updateConfiguration Relation.fluid_observer_contact]) ∧
    (∀ r ∈ StaticConfinement.relations, Body.water_block ∈ r.bodies →
      StaticConfinement.Call.updateConfiguration r ∈
        [StaticConfinement.Call.updateCellLinkedList Body.water_block,
         StaticConfinement.Call.updateConfiguration Relation.water_block_inner,
         StaticConfinement.Call.updateConfiguration Relation.fluid_observer_contact]) ∧
    (StaticConfinement.initialState restart_step_ readRestartFiles).trace =
      [StaticConfinement.Call.initializeSystemCellLinkedLists,
       StaticConfinement.Call.initializeSystemConfigurations,
       StaticConfinement.Call.readRestartFiles restart_step_,
       StaticConfinement.Call.updateCellLinkedList Body.water_block,
       StaticConfinement.Call.updateConfiguration Relation.water_block_inner,
       StaticConfinement.Call.write_body_states (readRestartFiles restart_step_),
       StaticConfinement.Call.write_water_mechanical_energy
         (readRestartFiles restart_step_)] := by
  refine ⟨?_, ?_, ?_, ?_, ?_⟩
  · obtain ⟨calls, h1, _⟩ := HydrostaticFSI.advectionBody_trace E fuel s s' h
    exact ⟨calls, by rw [h1]; simp [HydrostaticFSI.rebuild]⟩
  · obtain ⟨calls, h1, h2⟩ :=
      HydrostaticFSI.mainLoop_rebuild_calls E End_Time D_Time fuelM m m' hM
    refine ⟨calls, h1, ?_, ?_⟩
    · intro b hb
      have := h2 _ hb rfl
      simp [HydrostaticFSI.rebuild] at this
      exact this
    · intro r hr'
      have := h2 _ hr' rfl
      simp [HydrostaticFSI.rebuild] at this
      exact this
  · obtain ⟨calls, h1, _⟩ := StaticConfinement.fluid_advectionBody_trace F fuelF t t' hF
    exact ⟨calls, by rw [h1]; rfl⟩
  · intro r hr' _
    simp [StaticConfinement.relations] at hr'
    rcases hr' with rfl | rfl <;> simp
  · simp [StaticConfinement.initialState, StaticConfinement.startTime,
      StaticConfinement.restartRebuild, hr]

/-- Witness for the amended C8: the first advection interval and a one-interval run of the
coupled program, the first advection interval of the pure-fluid program, and a restart at
step 1000. -/
theorem C8_neighbor_refresh_coverage_amended_witness :
    ∃ s' m' t',
      HydrostaticFSI.advectionBody (constFSI 1 1 1) 3 HydrostaticFSI.initialState = some s' ∧
      HydrostaticFSI.mainLoop (constFSI 1 1 1) 1 1 5 HydrostaticFSI.initialState = some m' ∧
      StaticConfinement.advectionBody (constFluid 1 1) 2
        (StaticConfinement.initialState 0 (fun _ => 0)) = some t' ∧
      (∃ calls, m'.trace = HydrostaticFSI.initialState.trace ++ calls ∧
        (∀ b, HydrostaticFSI.Call.updateCellLinkedList b ∈ calls →
          b = Body.water_block ∨ b = Body.gate) ∧
        (∀ r, HydrostaticFSI.Call.updateConfiguration r ∈ calls →
          r = Relation.water_block_complex ∨ r = Relation.gate_contact)) ∧
      (∃ calls, t'.trace = (StaticConfinement.initialState 0 (fun _ => 0)).trace ++ calls ++
        [StaticConfinement.Call.updateCellLinkedList Body.water_block,
         StaticConfinement.Call.updateConfiguration Relation.water_block_inner,
         StaticConfinement.Call.updateConfiguration Relation.fluid_observer_contact]) := by
  have hs : (HydrostaticFSI.advectionBody (constFSI 1 1 1) 3
      HydrostaticFSI.initialState).isSome = true := by decide!
  have hm : (HydrostaticFSI.mainLoop (constFSI 1 1 1) 1 1 5
      HydrostaticFSI.initialState).isSome = true := by decide!
  have ht : (StaticConfinement.advectionBody (constFluid 1 1) 2
      (StaticConfinement.initialState 0 (fun _ => 0))).isSome = true := by decide!
  obtain ⟨s', hs'⟩ := Option.isSome_iff_exists.mp hs
  obtain ⟨m', hm'⟩ := Option.isSome_iff_exists.mp hm
  obtain ⟨t', ht'⟩ := Option.isSome_iff_exists.mp ht
  have key := C8_neighbor_refresh_coverage_amended (constFSI 1 1 1) 3
    HydrostaticFSI.initialState s' hs' 1 1 5 HydrostaticFSI.initialState m' hm'
    (constFluid 1 1) 2 (StaticConfinement.initialState 0 (fun _ => 0)) t' ht'
    1000 (by decide) (fun _ => 5)
  exact ⟨s', m', t', hs', hm', ht', key.2.1, key.2.2.1⟩

/-- C9, as stated, fails in binary64 arithmetic: ten additions of `0.01` give
`0.09999999999999999 < 0.1`, so after ten sub-steps the acoustic loop of the scenario is
still running; the run takes an eleventh sub-step and ends at
`physical_time_ = 0.10999999999999999`, not at `0.1`. -/
theorem C9_counterexample :
    accumulate 0 (List.replicate 10 (fl 0.01)) = fl 0.09999999999999999 ∧
    fl 0.09999999999999999 < fl 0.1 ∧
    StaticConfinement.Double.acousticLoop (constFluid (fl 0.1) (fl 0.01)) 10
      (firstAdvectionFluid (fl 0.1) (fl 0.01)) = none ∧
    (StaticConfinement.Double.mainLoop (constFluid (fl 0.1) (fl 0.01)) (fl 0.1) (fl 0.1) 13
        (StaticConfinement.initialState 0 (fun _ => 0))).map
      (fun s => (s.physical_time_, s.acoustic_calls)) =
      some (fl 0.10999999999999999, 11) ∧
    fl 0.10999999999999999 ≠ fl 0.1 := by
  refine ⟨by decide!, by decide!, by decide!, by decide!, by decide!⟩

/-- C9, amended: the pure-fluid main loop in binary64 arithmetic with `End_Time = 0.1`,
`D_Time = 0.1`, an advection estimator returning `0.1` and an acoustic estimator returning
`0.01`, started without restart at `physical_time_ = 0`. The run ends with
`physical_time_ = 0.10999999999999999` after one advection interval and 11 acoustic
sub-steps; inside the loop there are 11 pressure-relaxation and 11 density-relaxation calls
and one body-state recorder call, with argument `0.10999999999999999`. -/
theorem C9_pure_fluid_scenario_amended :
    (StaticConfinement.initialState 0 (fun _ => 0)).physical_time_ = 0 ∧
    (StaticConfinement.Double.mainLoop (constFluid (fl 0.1) (fl 0.01)) (fl 0.1) (fl 0.1) 13
        (StaticConfinement.initialState 0 (fun _ => 0))).map
      (fun s => (s.physical_time_, s.advection_calls, s.acoustic_calls)) =
      some (fl 0.10999999999999999, 1, 11) ∧
    (StaticConfinement.Double.mainLoop (constFluid (fl 0.1) (fl 0.01)) (fl 0.1) (fl 0.1) 13
        (StaticConfinement.initialState 0 (fun _ => 0))).map
      (fun s =>
        ((s.trace.drop (StaticConfinement.initialState 0 (fun _ => 0)).trace.length).countP
           StaticConfinement.Call.isPressureRelaxation,
         (s.trace.drop (StaticConfinement.initialState 0 (fun _ => 0)).trace.length).countP
           StaticConfinement.Call.isDensityRelaxation)) =
      some (11, 11) ∧
    (StaticConfinement.Double.mainLoop (constFluid (fl 0.1) (fl 0.01)) (fl 0.1) (fl 0.1) 13
        (StaticConfinement.initialState 0 (fun _ => 0))).map
      (fun s =>
        (s.trace.drop (StaticConfinement.initialState 0 (fun _ => 0)).trace.length).filter
           StaticConfinement.Call.isBodyStates) =
      some [StaticConfinement.Call.write_body_states (fl 0.10999999999999999)] := by
  refine ⟨by decide!, by decide!, by decide!, by decide!⟩

/-- C11, as stated, fails in binary64 arithmetic: a positive lower bound on the estimates
does not make the loops terminate, since a step below half the spacing of the doubles at a
clock is absorbed. With the `End_Time` and `D_Time` of the source, `Dt = 1`, a solid
estimate of `1` and acoustic estimates `0.5` and then `1e-17`, all bounded below by
`1e-17 > 0`, `relaxation_time` reaches `0.5` and stays there: no amount of fuel lets the main
loop of either program return. -/
theorem C11_counterexample :
    0 < fl 1e-17 ∧
    (∀ k, fl 1e-17 ≤ (switchFSI 1 1 (1/2) (fl 1e-17) 1).get_fluid_adevction_time_step_size k ∧
      fl 1e-17 ≤ (switchFSI 1 1 (1/2) (fl 1e-17) 1).get_fluid_time_step_size k ∧
      fl 1e-17 ≤ (switchFSI 1 1 (1/2) (fl 1e-17) 1).gate_computing_time_step_size k) ∧
    (∀ k, fl 1e-17 ≤ (switchFluid 1 1 (1/2) (fl 1e-17)).get_fluid_advection_time_step_size k ∧
      fl 1e-17 ≤ (switchFluid 1 1 (1/2) (fl 1e-17)).get_fluid_time_step_size k) ∧
    0 < HydrostaticFSI.Double.D_Time ∧ 0 < StaticConfinement.Double.D_Time ∧
    (∀ fuel, HydrostaticFSI.Double.main (switchFSI 1 1 (1/2) (fl 1e-17) 1) fuel = none) ∧
    (∀ fuel, StaticConfinement.Double.main (switchFluid 1 1 (1/2) (fl 1e-17)) 0 (fun _ => 0)
      fuel = none) := by
  have hsw : ∀ k, fl 1e-17 ≤ switchAt 1 (1/2) (fl 1e-17) k := by
    intro k
    unfold switchAt
    split_ifs
    · decide!
    · exact le_refl _
  have hsw' : ∀ k, 1 ≤ k → switchAt 1 (1/2) (fl 1e-17) k = fl 1e-17 := by
    intro k hk
    unfold switchAt
    rw [if_neg (by omega)]
  have h1 : fl 1e-17 ≤ (1 : ℚ) := by decide!
  refine ⟨by decide!, fun k => ⟨h1, hsw k, h1⟩, fun k => ⟨h1, hsw k⟩, by decide!, by decide!,
    ?_, ?_⟩
  · refine HydrostaticFSI.Double.dbl_mainLoop_none _ _ _ _ (by decide!) (by decide!) ?_
    intro fuel
    have hc : (HydrostaticFSI.advectionHead (switchFSI 1 1 (1/2) (fl 1e-17) 1)
        { HydrostaticFSI.initialState with integeral_time := 0 }).relaxation_time <
        (HydrostaticFSI.advectionHead (switchFSI 1 1 (1/2) (fl 1e-17) 1)
          { HydrostaticFSI.initialState with integeral_time := 0 }).Dt := by decide!
    cases fuel with
    | zero => simp only [HydrostaticFSI.Double.acousticLoop, if_pos hc]
    | succ f =>
      simp only [HydrostaticFSI.Double.acousticLoop, if_pos hc]
      rcases hb : HydrostaticFSI.Double.acousticBody (switchFSI 1 1 (1/2) (fl 1e-17) 1) f
          (HydrostaticFSI.advectionHead (switchFSI 1 1 (1/2) (fl 1e-17) 1)
            { HydrostaticFSI.initialState with integeral_time := 0 }) with _ | t
      · rfl
      · obtain ⟨_, _, _, k3, k4, _, _, k7, _, _, k10, _⟩ :=
          HydrostaticFSI.Double.dbl_acousticBody_spec _ f _ t hb
        simp only [Option.some_bind]
        refine HydrostaticFSI.Double.dbl_acousticLoop_stall _ (1/2) (fl 1e-17) 1 1
          (by decide!) (by norm_num) hsw' f t ?_ ?_ ?_
        · rw [k4]; decide!
        · rw [k7, k3]; decide!
        · rw [k10]; decide
  · refine StaticConfinement.Double.dbl_fluid_mainLoop_none _ _ _ _ (by decide!) (by decide!) ?_
    intro fuel
    have hc : (StaticConfinement.advectionHead (switchFluid 1 1 (1/2) (fl 1e-17))
        { StaticConfinement.initialState 0 (fun _ => 0) with
          integration_time := 0 }).relaxation_time <
        (StaticConfinement.advectionHead (switchFluid 1 1 (1/2) (fl 1e-17))
          { StaticConfinement.initialState 0 (fun _ => 0) with integration_time := 0 }).Dt := by
      decide!
    cases fuel with
    | zero => simp only [StaticConfinement.Double.acousticLoop, if_pos hc]
    | succ f =>
      simp only [StaticConfinement.Double.acousticLoop, if_pos hc]
      exact StaticConfinement.Double.dbl_fluid_acousticLoop_stall _ (1/2) (fl 1e-17) 1 1
        (by decide!) (by norm_num) hsw' f _ (by decide!) (by decide!) (by decide)

/-- C11, amended. With the clock sums taken as exact reals the loops terminate: for every
`End_Time` and every `D_Time > 0`, when the advection, the fluid acoustic and the solid
estimator return values bounded below by a positive constant `c`, the main loop of either
program returns a state when given enough fuel (the coupled loop from any state with
`dt_s ≥ 0`, such as the one `main` enters it with; the pure-fluid loop from any state). In
binary64 arithmetic the loops need not terminate. In both readings the loops have no exit
but the outer condition: whatever state the main loop returns has
`physical_time_ ≥ End_Time`, and from a state with `physical_time_ < End_Time` the loop
always makes another pass through its body. -/
theorem C11_termination_amended
    (End_Time D_Time : ℚ) (hD : 0 < D_Time) (c : ℚ) (hc : 0 < c)
    (E : HydrostaticFSI.Estimators)
    (had : ∀ k, c ≤ E.get_fluid_adevction_time_step_size k)
    (hac : ∀ k, c ≤ E.get_fluid_time_step_size k)
    (hsol : ∀ k, c ≤ E.gate_computing_time_step_size k)
    (s : HydrostaticFSI.State) (hs : 0 ≤ s.dt_s)
    (F : StaticConfinement.Estimators)
    (hFad : ∀ k, c ≤ F.get_fluid_advection_time_step_size k)
    (hFac : ∀ k, c ≤ F.get_fluid_time_step_size k)
    (t : StaticConfinement.State) :
    ((∃ fuel s', HydrostaticFSI.mainLoop E End_Time D_Time fuel s = some s' ∧
        End_Time ≤ s'.physical_time_) ∧
      (∀ fuel s', HydrostaticFSI.mainLoop E End_Time D_Time fuel s = some s' →
        End_Time ≤ s'.physical_time_) ∧
      (∀ fuel (u : HydrostaticFSI.State), u.physical_time_ < End_Time →
        HydrostaticFSI.mainLoop E End_Time D_Time (fuel + 1) u =
          (HydrostaticFSI.outputBody E D_Time fuel u).bind
            (HydrostaticFSI.mainLoop E End_Time D_Time fuel)) ∧
      (∀ fuel s', HydrostaticFSI.Double.mainLoop E End_Time D_Time fuel s = some s' →
        End_Time ≤ s'.physical_time_) ∧
      (∀ fuel (u : HydrostaticFSI.State), u.physical_time_ < End_Time →
        HydrostaticFSI.Double.mainLoop E End_Time D_Time (fuel + 1) u =
          (HydrostaticFSI.Double.outputBody E D_Time fuel u).bind
            (HydrostaticFSI.Double.mainLoop E End_Time D_Time fuel))) ∧
    ((∃ fuel t', StaticConfinement.mainLoop F End_Time D_Time fuel t = some t' ∧
        End_Time ≤ t'.physical_time_) ∧
      (∀ fuel t', StaticConfinement.mainLoop F End_Time D_Time fuel t = some t' →
        End_Time ≤ t'.physical_time_) ∧
      (∀ fuel (u : StaticConfinement.State), u.physical_time_ < End_Time →
        StaticConfinement.mainLoop F End_Time D_Time (fuel + 1) u =
          (StaticConfinement.outputBody F D_Time fuel u).bind
            (StaticConfinement.mainLoop F End_Time D_Time fuel)) ∧
      (∀ fuel t', StaticConfinement.Double.mainLoop F End_Time D_Time fuel t = some t' →
        End_Time ≤ t'.physical_time_) ∧
      (∀ fuel (u : StaticConfinement.State), u.physical_time_ < End_Time →
        StaticConfinement.Double.mainLoop F End_Time D_Time (fuel + 1) u =
          (StaticConfinement.Double.outputBody F D_Time fuel u).bind
            (StaticConfinement.Double.mainLoop F End_Time D_Time fuel))) := by
  have hexit : ∀ fuel s', HydrostaticFSI.mainLoop E End_Time D_Time fuel s = some s' →
      End_Time ≤ s'.physical_time_ := fun fuel s' h =>
    not_lt.mp (HydrostaticFSI.mainLoop_book E End_Time D_Time fuel s s' h).1
  have hexitF : ∀ fuel t', StaticConfinement.mainLoop F End_Time D_Time fuel t = some t' →
      End_Time ≤ t'.physical_time_ := fun fuel t' h =>
    not_lt.mp (StaticConfinement.fluid_mainLoop_book F End_Time D_Time fuel t t' h).1
  refine ⟨⟨?_, hexit, ?_, ?_, ?_⟩, ⟨?_, hexitF, ?_, ?_, ?_⟩⟩
  · obtain ⟨n, hn⟩ := exists_nat_ge ((End_Time - s.physical_time_) / D_Time)
    obtain ⟨fuel, s', h⟩ := HydrostaticFSI.mainLoop_terminates E End_Time D_Time c hc had hac
      hsol n s hs ((div_le_iff₀ hD).mp hn)
    exact ⟨fuel, s', h, hexit fuel s' h⟩
  · intro fuel u hu
    simp only [HydrostaticFSI.mainLoop, if_pos hu]
  · intro fuel s' h
    exact not_lt.mp (HydrostaticFSI.Double.dbl_mainLoop_book E End_Time D_Time fuel s s' h).1
  · intro fuel u hu
    simp only [HydrostaticFSI.Double.mainLoop, if_pos hu]
  · obtain ⟨n, hn⟩ := exists_nat_ge ((End_Time - t.physical_time_) / D_Time)
    obtain ⟨fuel, t', h⟩ := StaticConfinement.fluid_mainLoop_terminates F End_Time D_Time c hc
      hFad hFac n t ((div_le_iff₀ hD).mp hn)
    exact ⟨fuel, t', h, hexitF fuel t' h⟩
  · intro fuel u hu
    simp only [StaticConfinement.mainLoop, if_pos hu]
  · intro fuel t' h
    exact not_lt.mp
      (StaticConfinement.Double.dbl_fluid_mainLoop_book F End_Time D_Time fuel t t' h).1
  · intro fuel u hu
    simp only [StaticConfinement.Double.mainLoop, if_pos hu]

/-- Witness for the amended C11: both programs from the state in which `main` enters the
loop. In the exact reading, with the `End_Time` and `D_Time` of the source and all estimators
returning `1/1000`, enough fuel returns a state at or past `End_Time`; in the binary64
reading, with `End_Time = 1`, `D_Time = 1` and all estimators returning `1`, the loops
return a state at or past `End_Time`. -/
theorem C11_termination_amended_witness :
    0 ≤ HydrostaticFSI.initialState.dt_s ∧
    (∃ fuel s', HydrostaticFSI.mainLoop (constFSI (1/1000) (1/1000) (1/1000))
        HydrostaticFSI.End_Time HydrostaticFSI.D_Time fuel HydrostaticFSI.initialState
          = some s' ∧
      HydrostaticFSI.End_Time ≤ s'.physical_time_) ∧
    (∃ fuel t', StaticConfinement.mainLoop (constFluid (1/1000) (1/1000))
        StaticConfinement.End_Time StaticConfinement.D_Time fuel
        (StaticConfinement.initialState 0 (fun _ => 0)) = some t' ∧
      StaticConfinement.End_Time ≤ t'.physical_time_) ∧
    (∃ s', HydrostaticFSI.Double.mainLoop (constFSI 1 1 1) 1 1 5 HydrostaticFSI.initialState
        = some s' ∧ 1 ≤ s'.physical_time_) ∧
    (∃ t', StaticConfinement.Double.mainLoop (constFluid 1 1) 1 1 3
        (StaticConfinement.initialState 0 (fun _ => 0)) = some t' ∧
      1 ≤ t'.physical_time_) := by
  have h1 := C11_termination_amended HydrostaticFSI.End_Time HydrostaticFSI.D_Time
    (by decide!) (1/1000) (by norm_num)
    (constFSI (1/1000) (1/1000) (1/1000)) (fun _ => le_refl _) (fun _ => le_refl _)
    (fun _ => le_refl _) HydrostaticFSI.initialState (le_refl _)
    (constFluid (1/1000) (1/1000)) (fun _ => le_refl _) (fun _ => le_refl _)
    (StaticConfinement.initialState 0 (fun _ => 0))
  have h2 := C11_termination_amended StaticConfinement.End_Time StaticConfinement.D_Time
    (by decide!) (1/1000) (by norm_num)
    (constFSI (1/1000) (1/1000) (1/1000)) (fun _ => le_refl _) (fun _ => le_refl _)
    (fun _ => le_refl _) HydrostaticFSI.initialState (le_refl _)
    (constFluid (1/1000) (1/1000)) (fun _ => le_refl _) (fun _ => le_refl _)
    (StaticConfinement.initialState 0 (fun _ => 0))
  have h3 := C11_termination_amended 1 1 (by norm_num) 1 (by norm_num)
    (constFSI 1 1 1) (fun _ => le_refl _) (fun _ => le_refl _)
    (fun _ => le_refl _) HydrostaticFSI.initialState (le_refl _)
    (constFluid 1 1) (fun _ => le_refl _) (fun _ => le_refl _)
    (StaticConfinement.initialState 0 (fun _ => 0))
  have hs : (HydrostaticFSI.Double.mainLoop (constFSI 1 1 1) 1 1 5
      HydrostaticFSI.initialState).isSome = true := by decide!
  have ht : (StaticConfinement.Double.mainLoop (constFluid 1 1) 1 1 3
      (StaticConfinement.initialState 0 (fun _ => 0))).isSome = true := by decide!
  obtain ⟨s', hs'⟩ := Option.isSome_iff_exists.mp hs
  obtain ⟨t', ht'⟩ := Option.isSome_iff_exists.mp ht
  exact ⟨le_refl _, h1.1.1, h2.2.1, ⟨s', hs', h3.1.2.2.2.1 5 s' hs'⟩,
    ⟨t', ht', h3.2.2.2.2.1 3 t' ht'⟩⟩

/-- C12, as stated, fails in both programs: no estimator value is checked. With an acoustic
estimator that returns `-1`, the first acoustic sub-step of the coupled program runs its
operators with `dt = SMIN(-1, Dt) = -1` and moves `physical_time_` from `0` to `-1`; the
pure-fluid sub-step moves `physical_time_` from `0` to `-1` as well. Both return a state
and the loops go on. -/
theorem C12_counterexample :
    (constFSI 1 (-1) 1).get_fluid_time_step_size 0 ≤ 0 ∧
    (HydrostaticFSI.acousticBody (constFSI 1 (-1) 1) 0 (firstAdvectionFSI 1 (-1) 1)).map
      (fun s => (s.dt, s.physical_time_, s.relaxation_time,
        s.trace.drop (firstAdvectionFSI 1 (-1) 1).trace.length)) =
      some (-1, -1, -1,
        [HydrostaticFSI.Call.get_fluid_time_step_size,
         HydrostaticFSI.Call.fluid_damping (-1),
         HydrostaticFSI.Call.pressure_relaxation (-1),
         HydrostaticFSI.Call.fluid_pressure_force_on_gate,
         HydrostaticFSI.Call.density_relaxation (-1),
         HydrostaticFSI.Call.initialize_displacement,
         HydrostaticFSI.Call.update_averages (-1)]) ∧
    (firstAdvectionFluid 1 (-1)).physical_time_ = 0 ∧
    (StaticConfinement.acousticBody (constFluid 1 (-1))
      (firstAdvectionFluid 1 (-1))).physical_time_ = -1 := by
  refine ⟨by decide!, by decide!, by decide!, by decide!⟩

/-- C12, amended: neither program checks what an estimator returns; a non-positive value
is used like any other and no path ends the run with an error. In the coupled program a
fluid acoustic estimate `a ≤ 0` gives `dt = SMIN(a, Dt) ≤ 0`: the fluid operators and
`update_averages` are called with it, the solid sub-cycle makes no pass, and the clocks
move by it. In the pure-fluid program the clocks move by whatever the acoustic estimator
returns. A solid step `dt_s ≤ 0` inside the solid sub-cycle is handed to the
stress-relaxation operators as it is. An advection estimate `Dt ≤ 0` makes the advection
interval complete without a sub-step. -/
theorem C12_no_instability_check_amended
    (E : HydrostaticFSI.Estimators) (s : HydrostaticFSI.State)
    (ha : E.get_fluid_time_step_size s.acoustic_calls ≤ 0)
    (F : StaticConfinement.Estimators) (t : StaticConfinement.State) :
    (∀ fuel, ∃ s', HydrostaticFSI.acousticBody E fuel s = some s' ∧
      s'.dt = SMIN (E.get_fluid_time_step_size s.acoustic_calls) s.Dt ∧
      s'.dt ≤ 0 ∧
      s'.physical_time_ = s.physical_time_ + s'.dt ∧
      s'.trace = s.trace ++
        [HydrostaticFSI.Call.get_fluid_time_step_size,
         HydrostaticFSI.Call.fluid_damping s'.dt,
         HydrostaticFSI.Call.pressure_relaxation s'.dt,
         HydrostaticFSI.Call.fluid_pressure_force_on_gate,
         HydrostaticFSI.Call.density_relaxation s'.dt,
         HydrostaticFSI.Call.initialize_displacement,
         HydrostaticFSI.Call.update_averages s'.dt]) ∧
    ((StaticConfinement.acousticBody F t).physical_time_ =
        t.physical_time_ + F.get_fluid_time_step_size t.acoustic_calls ∧
      (StaticConfinement.acousticBody F t).relaxation_time =
        t.relaxation_time + F.get_fluid_time_step_size t.acoustic_calls ∧
      (StaticConfinement.acousticBody F t).integration_time =
        t.integration_time + F.get_fluid_time_step_size t.acoustic_calls) ∧
    (∀ u : HydrostaticFSI.State, u.dt_s ≤ 0 → u.dt_s_sum < u.dt →
      (HydrostaticFSI.solidBody E u).trace = u.trace ++
        [HydrostaticFSI.Call.gate_stress_relaxation_first_half u.dt_s,
         HydrostaticFSI.Call.gate_constrain,
         HydrostaticFSI.Call.gate_stress_relaxation_second_half u.dt_s,
         HydrostaticFSI.Call.gate_computing_time_step_size] ∧
      (HydrostaticFSI.solidBody E u).dt_s_sum = u.dt_s_sum + u.dt_s) ∧
    (∀ (u : HydrostaticFSI.State) (fuel : ℕ),
      E.get_fluid_adevction_time_step_size u.advection_calls ≤ 0 →
      HydrostaticFSI.advectionBody E fuel u =
        some (HydrostaticFSI.advectionTail (HydrostaticFSI.advectionHead E u))) ∧
    (∀ (u : StaticConfinement.State) (fuel : ℕ),
      F.get_fluid_advection_time_step_size u.advection_calls ≤ 0 →
      StaticConfinement.advectionBody F fuel u =
        some (StaticConfinement.advectionTail (StaticConfinement.advectionHead F u))) := by
  refine ⟨?_, ⟨rfl, rfl, rfl⟩, ?_, ?_, ?_⟩
  · intro fuel
    have hdt : SMIN (E.get_fluid_time_step_size s.acoustic_calls) s.Dt ≤ 0 :=
      le_trans (min_le_left _ _) ha
    have hc : ¬ (HydrostaticFSI.acousticHead E s).dt_s_sum <
        (HydrostaticFSI.acousticHead E s).dt := by
      show ¬ (0 : ℚ) < SMIN (E.get_fluid_time_step_size s.acoustic_calls) s.Dt
      exact not_lt.mpr hdt
    have hl : HydrostaticFSI.solidLoop E fuel (HydrostaticFSI.acousticHead E s) =
        some (HydrostaticFSI.acousticHead E s) := by
      cases fuel <;> simp [HydrostaticFSI.solidLoop, hc]
    refine ⟨HydrostaticFSI.acousticTail (HydrostaticFSI.acousticHead E s), ?_, rfl, hdt,
      rfl, ?_⟩
    · simp [HydrostaticFSI.acousticBody, hl]
    · simp [HydrostaticFSI.acousticTail, HydrostaticFSI.acousticHead]
  · intro u hu hlt
    have hcl : HydrostaticFSI.clamp_dt_s u = u.dt_s := by
      unfold HydrostaticFSI.clamp_dt_s
      rw [if_neg]
      intro hh
      linarith
    simp [HydrostaticFSI.solidBody, hcl, HydrostaticFSI.solidCalls]
  · intro u fuel hu
    have hc : ¬ (HydrostaticFSI.advectionHead E u).relaxation_time <
        (HydrostaticFSI.advectionHead E u).Dt := by
      show ¬ (0 : ℚ) < E.get_fluid_adevction_time_step_size u.advection_calls
      exact not_lt.mpr hu
    have hl : HydrostaticFSI.acousticLoop E fuel (HydrostaticFSI.advectionHead E u) =
        some (HydrostaticFSI.advectionHead E u) := by
      cases fuel <;> simp [HydrostaticFSI.acousticLoop, hc]
    simp [HydrostaticFSI.advectionBody, hl]
  · intro u fuel hu
    have hc : ¬ (StaticConfinement.advectionHead F u).relaxation_time <
        (StaticConfinement.advectionHead F u).Dt := by
      show ¬ (0 : ℚ) < F.get_fluid_advection_time_step_size u.advection_calls
      exact not_lt.mpr hu
    have hl : StaticConfinement.acousticLoop F fuel (StaticConfinement.advectionHead F u) =
        some (StaticConfinement.advectionHead F u) := by
      cases fuel <;> simp [StaticConfinement.acousticLoop, hc]
    simp [StaticConfinement.advectionBody, hl]

/-- Witness for the amended C12: the first acoustic sub-step of the coupled program with an
acoustic estimator that returns `-1`. -/
theorem C12_no_instability_check_amended_witness :
    ∃ s', HydrostaticFSI.acousticBody (constFSI 1 (-1) 1) 0 (firstAdvectionFSI 1 (-1) 1)
        = some s' ∧ s'.dt ≤ 0 ∧
      s'.physical_time_ = (firstAdvectionFSI 1 (-1) 1).physical_time_ + s'.dt := by
  obtain ⟨s', h1, _, h3, h4, _⟩ :=
    (C12_no_instability_check_amended (constFSI 1 (-1) 1) (firstAdvectionFSI 1 (-1) 1)
      (by show (-1 : ℚ) ≤ 0; norm_num) (constFluid 1 (-1)) (firstAdvectionFluid 1 (-1))).1 0
  exact ⟨s', h1, h3, h4⟩

/-- C13: restart of the pure-fluid program. For a non-zero restart step whose restart files
hold the time `t0 = readRestartFiles restart_step_`, the main loop is entered with
`physical_time_ = t0` and `number_of_iterations = restart_step_`. When the first acoustic
sub-step runs, the calls made so far are: the two system initialisations, the restart read,
one cell-linked-list update of `water_block` followed by one update of `water_block_inner`,
the two start-state recorder calls, and the three calls that open the advection interval;
`physical_time_` is `t0` and `integration_time` is `0` there, and the sub-step takes them
to `t0 + a` and `a` for the acoustic estimate `a`. With `t0 < End_Time`, `D_Time > 0` and a
positive first advection estimate the main loop does start with that sub-step. -/
theorem C13_restart (F : StaticConfinement.Estimators) (restart_step_ : ℕ)
    (hr : restart_step_ ≠ 0) (readRestartFiles : ℕ → ℚ) (End_Time D_Time : ℚ)
    (hEnd : readRestartFiles restart_step_ < End_Time) (hD : 0 < D_Time)
    (hDt : 0 < F.get_fluid_advection_time_step_size 0) (fuel : ℕ) :
    (StaticConfinement.initialState restart_step_ readRestartFiles).physical_time_
      = readRestartFiles restart_step_ ∧
    (StaticConfinement.initialState restart_step_ readRestartFiles).number_of_iterations
      = restart_step_ ∧
    (StaticConfinement.advectionHead F
      { StaticConfinement.initialState restart_step_ readRestartFiles with
        integration_time := 0 }).trace =
      [StaticConfinement.Call.initializeSystemCellLinkedLists,
       StaticConfinement.Call.initializeSystemConfigurations,
       StaticConfinement.Call.readRestartFiles restart_step_,
       StaticConfinement.Call.updateCellLinkedList Body.water_block,
       StaticConfinement.Call.updateConfiguration Relation.water_block_inner,
       StaticConfinement.Call.write_body_states (readRestartFiles restart_step_),
       StaticConfinement.Call.write_water_mechanical_energy (readRestartFiles restart_step_),
       StaticConfinement.Call.initialize_a_fluid_step,
       StaticConfinement.Call.get_fluid_advection_time_step_size,
       StaticConfinement.Call.update_density_by_summation] ∧
    (StaticConfinement.advectionHead F
      { StaticConfinement.initialState restart_step_ readRestartFiles with
        integration_time := 0 }).physical_time_ = readRestartFiles restart_step_ ∧
    (StaticConfinement.advectionHead F
      { StaticConfinement.initialState restart_step_ readRestartFiles with
        integration_time := 0 }).integration_time = 0 ∧
    (StaticConfinement.acousticBody F (StaticConfinement.advectionHead F
      { StaticConfinement.initialState restart_step_ readRestartFiles with
        integration_time := 0 })).physical_time_ =
      readRestartFiles restart_step_ + F.get_fluid_time_step_size 0 ∧
    (StaticConfinement.acousticBody F (StaticConfinement.advectionHead F
      { StaticConfinement.initialState restart_step_ readRestartFiles with
        integration_time := 0 })).integration_time = F.get_fluid_time_step_size 0 ∧
    StaticConfinement.mainLoop F End_Time D_Time (fuel + 3)
        (StaticConfinement.initialState restart_step_ readRestartFiles) =
      ((((StaticConfinement.acousticLoop F fuel
            (StaticConfinement.acousticBody F (StaticConfinement.advectionHead F
              { StaticConfinement.initialState restart_step_ readRestartFiles with
                integration_time := 0 }))).map StaticConfinement.advectionTail).bind
          (StaticConfinement.advectionLoop F D_Time (fuel + 1))).map
          StaticConfinement.outputTail).bind
        (StaticConfinement.mainLoop F End_Time D_Time (fuel + 2)) := by
  have ht : StaticConfinement.startTime restart_step_ readRestartFiles
      = readRestartFiles restart_step_ := by
    simp [StaticConfinement.startTime, hr]
  refine ⟨ht, rfl, ?_, ht, rfl, ?_, ?_, ?_⟩
  · simp [StaticConfinement.advectionHead, StaticConfinement.initialState, ht,
      StaticConfinement.restartRebuild, hr]
  · simp [StaticConfinement.acousticBody, StaticConfinement.advectionHead,
      StaticConfinement.initialState, ht]
  · simp [StaticConfinement.acousticBody, StaticConfinement.advectionHead,
      StaticConfinement.initialState]
  · have h1 : (StaticConfinement.initialState restart_step_ readRestartFiles).physical_time_
        < End_Time := by
      show StaticConfinement.startTime restart_step_ readRestartFiles < End_Time
      rw [ht]; exact hEnd
    have h2 : (StaticConfinement.advectionHead F
        { StaticConfinement.initialState restart_step_ readRestartFiles with
          integration_time := 0 }).relaxation_time <
        (StaticConfinement.advectionHead F
        { StaticConfinement.initialState restart_step_ readRestartFiles with
          integration_time := 0 }).Dt := hDt
    rw [StaticConfinement.mainLoop, if_pos h1, StaticConfinement.outputBody,
      StaticConfinement.advectionLoop, if_pos (by exact hD), StaticConfinement.advectionBody,
      StaticConfinement.acousticLoop, if_pos h2]

/-- Witness for C13: a restart at step 1000 whose files hold the time `5`, with the
constants `End_Time = 20` and `D_Time = 1/10` of the source. -/
theorem C13_restart_witness :
    (StaticConfinement.initialState 1000 (fun _ => 5)).physical_time_ = 5 ∧
    (StaticConfinement.initialState 1000 (fun _ => 5)).number_of_iterations = 1000 ∧
    (StaticConfinement.acousticBody (constFluid 1 1) (StaticConfinement.advectionHead
      (constFluid 1 1)
      { StaticConfinement.initialState 1000 (fun _ => 5) with
        integration_time := 0 })).physical_time_ = 5 + 1 := by
  have key := C13_restart (constFluid 1 1) 1000 (by decide) (fun _ => 5)
    StaticConfinement.End_Time StaticConfinement.D_Time
    (by show (5 : ℚ) < 20; norm_num) (by show (0 : ℚ) < 1 / 10; norm_num)
    (by show (0 : ℚ) < 1; norm_num) 0
  exact ⟨key.1, key.2.1, key.2.2.2.2.2.1⟩

/-- C14, as stated, fails in both programs: nothing clamps the last advection interval of
an output interval. In binary64 arithmetic, with the `D_Time` of the source and all
estimators returning `0.6` of it, two advection intervals of one sub-step each end the first
output interval at `1.2` times `D_Time`, and the body-state recorder is called at that
time. -/
theorem C14_counterexample :
    HydrostaticFSI.Double.D_Time = fl 0.01 ∧
    (HydrostaticFSI.Double.outputBody (constFSI (fl 0.006) (fl 0.006) (fl 0.006))
        HydrostaticFSI.Double.D_Time 6 HydrostaticFSI.initialState).map
      (fun s => (s.integeral_time, s.physical_time_, s.advection_calls)) =
      some (fl 0.012, fl 0.012, 2) ∧
    StaticConfinement.Double.D_Time = fl 0.1 ∧
    (StaticConfinement.Double.outputBody (constFluid (fl 0.06) (fl 0.06))
        StaticConfinement.Double.D_Time 4
        (StaticConfinement.initialState 0 (fun _ => 0))).map
      (fun s => (s.integration_time, s.physical_time_, s.advection_calls,
        s.trace.getLast?)) =
      some (fl 0.12, fl 0.12, 2, some (StaticConfinement.Call.write_body_states (fl 0.12))) ∧
    fl 0.012 ≠ fl 0.01 ∧ fl 0.12 ≠ fl 0.1 := by
  refine ⟨by decide!, by decide!, by decide!, by decide!, by decide!, by decide!⟩

/-- C14, amended: in both programs, in binary64 arithmetic and for `D_Time > 0`, when an
output interval ends the interval time is at least `D_Time`. The last advection interval
started with the interval time below `D_Time` and added its acoustic steps to it, so the
interval time is at most the rounded sum of `D_Time` and the steps of that interval. Over
the output interval the interval time and `physical_time_` are the rounded sums of the same
acoustic steps, started from `0` and from the `physical_time_` the interval began with, each
clock rounding on its own. The last call of the output interval is that of the body-state
recorder, in the pure-fluid program with the `physical_time_` then reached. -/
theorem C14_output_interval_amended
    (E : HydrostaticFSI.Estimators) (D_Time : ℚ) (hD : 0 < D_Time) (fuel : ℕ)
    (s s' : HydrostaticFSI.State)
    (h : HydrostaticFSI.Double.outputBody E D_Time fuel s = some s')
    (F : StaticConfinement.Estimators) (fuelF : ℕ) (t t' : StaticConfinement.State)
    (hF : StaticConfinement.Double.outputBody F D_Time fuelF t = some t') :
    (D_Time ≤ s'.integeral_time ∧
      (∃ f u v last, u.integeral_time < D_Time ∧
        HydrostaticFSI.Double.advectionBody E f u = some v ∧
        s' = HydrostaticFSI.outputTail v ∧ v.trace = u.trace ++ last ∧
        s'.integeral_time = accumulate u.integeral_time (HydrostaticFSI.acousticSteps last) ∧
        s'.integeral_time ≤ accumulate D_Time (HydrostaticFSI.acousticSteps last)) ∧
      (∃ calls, s'.trace = s.trace ++ calls ∧
        s'.integeral_time = accumulate 0 (HydrostaticFSI.acousticSteps calls) ∧
        s'.physical_time_ =
          accumulate s.physical_time_ (HydrostaticFSI.acousticSteps calls)) ∧
      s'.trace.getLast? = some (HydrostaticFSI.Call.write_real_body_states_to_vtu none)) ∧
    (D_Time ≤ t'.integration_time ∧
      (∃ f u v, u.integration_time < D_Time ∧
        StaticConfinement.Double.advectionBody F f u = some v ∧
        t' = StaticConfinement.outputTail v ∧ u.acoustic_calls ≤ v.acoustic_calls ∧
        t'.integration_time = accumulate u.integration_time
          (StaticConfinement.Double.acousticSteps F u.acoustic_calls v.acoustic_calls) ∧
        t'.integration_time ≤ accumulate D_Time
          (StaticConfinement.Double.acousticSteps F u.acoustic_calls v.acoustic_calls)) ∧
      (t.acoustic_calls ≤ t'.acoustic_calls ∧
        t'.integration_time = accumulate 0
          (StaticConfinement.Double.acousticSteps F t.acoustic_calls t'.acoustic_calls) ∧
        t'.physical_time_ = accumulate t.physical_time_
          (StaticConfinement.Double.acousticSteps F t.acoustic_calls t'.acoustic_calls)) ∧
      t'.trace.getLast? = some (StaticConfinement.Call.write_body_states t'.physical_time_)) := by
  constructor
  · obtain ⟨h2, _, hbook⟩ := HydrostaticFSI.Double.dbl_outputBody_book E D_Time fuel s s' h
    obtain ⟨v, hv, rfl⟩ := HydrostaticFSI.Double.dbl_outputBody_inv E D_Time fuel s s' h
    obtain ⟨f, u, hu, hb⟩ :=
      HydrostaticFSI.Double.dbl_advectionLoop_last E D_Time fuel _ v hv hD
    obtain ⟨_, _, last, k1, _, k3, _⟩ :=
      HydrostaticFSI.Double.dbl_advectionBody_book E f u v hb
    refine ⟨not_lt.mp h2, ⟨f, u, v, last, hu, hb, rfl, k1, k3, ?_⟩, hbook, ?_⟩
    · show v.integeral_time ≤ _
      rw [k3]
      exact accumulate_mono _ hu.le
    · simp [HydrostaticFSI.outputTail]
  · obtain ⟨h2, _, hbook⟩ :=
      StaticConfinement.Double.dbl_fluid_outputBody_book F D_Time fuelF t t' hF
    obtain ⟨v, hv, rfl⟩ :=
      StaticConfinement.Double.dbl_fluid_outputBody_inv F D_Time fuelF t t' hF
    obtain ⟨f, u, hu, hb⟩ :=
      StaticConfinement.Double.dbl_fluid_advectionLoop_last F D_Time fuelF _ v hv hD
    obtain ⟨_, _, k0, _, k3, _⟩ :=
      StaticConfinement.Double.dbl_fluid_advectionBody_book F f u v hb
    refine ⟨not_lt.mp h2, ⟨f, u, v, hu, hb, rfl, k0, k3, ?_⟩, hbook, ?_⟩
    · show v.integration_time ≤ _
      rw [k3]
      exact accumulate_mono _ hu.le
    · simp [StaticConfinement.outputTail]

/-- Witness for the amended C14: the first output interval of both programs with
`D_Time = 0.1` and all estimators returning `0.06`. -/
theorem C14_output_interval_amended_witness :
    ∃ (s' : HydrostaticFSI.State) (t' : StaticConfinement.State),
      HydrostaticFSI.Double.outputBody (constFSI (fl 0.06) (fl 0.06) (fl 0.06)) (fl 0.1) 6
        HydrostaticFSI.initialState = some s' ∧
      StaticConfinement.Double.outputBody (constFluid (fl 0.06) (fl 0.06)) (fl 0.1) 4
        (StaticConfinement.initialState 0 (fun _ => 0)) = some t' ∧
      fl 0.1 ≤ s'.integeral_time ∧ fl 0.1 ≤ t'.integration_time ∧
      s'.trace.getLast? = some (HydrostaticFSI.Call.write_real_body_states_to_vtu none) ∧
      t'.trace.getLast? = some (StaticConfinement.Call.write_body_states t'.physical_time_) := by
  have hs : (HydrostaticFSI.Double.outputBody (constFSI (fl 0.06) (fl 0.06) (fl 0.06))
      (fl 0.1) 6 HydrostaticFSI.initialState).isSome = true := by decide!
  have ht : (StaticConfinement.Double.outputBody (constFluid (fl 0.06) (fl 0.06)) (fl 0.1) 4
      (StaticConfinement.initialState 0 (fun _ => 0))).isSome = true := by decide!
  obtain ⟨s', hs'⟩ := Option.isSome_iff_exists.mp hs
  obtain ⟨t', ht'⟩ := Option.isSome_iff_exists.mp ht
  have key := C14_output_interval_amended (constFSI (fl 0.06) (fl 0.06) (fl 0.06)) (fl 0.1)
    (by decide!) 6 HydrostaticFSI.initialState s' hs'
    (constFluid (fl 0.06) (fl 0.06)) 4 (StaticConfinement.initialState 0 (fun _ => 0)) t' ht'
  exact ⟨s', t', hs', ht', key.1.1, key.2.1, key.1.2.2.2, key.2.2.2.2⟩

/-- C15: recorder arguments are monotone. For a run of either main loop from the state in
which `main` enters it, the arguments passed to each recorder, the calls made before the
loop included, are in non-decreasing order (pure-fluid program: acoustic estimates
positive; body-state, mechanical-energy and observed-pressure writers are given times,
the restart writer iteration numbers; coupled program: the tip writer and the first call
of the body-state writer are given iteration numbers). Recorder calls inside the loop come
after the clock advances of the interval they report: those at the end of an advection
interval are given the `physical_time_` with which the interval ends (the restart writer
the iteration number with which it started, the tip writer the one with which it ends),
and the body-state writer is the last call of an output interval, in the pure-fluid
program with the `physical_time_` the interval ends with, in the coupled program without
an argument and (advection and acoustic estimates positive) with `physical_time_` not
below its value at the start of the interval. -/
theorem C15_recorder_arguments_monotone
    (E : HydrostaticFSI.Estimators)
    (had : ∀ k, 0 < E.get_fluid_adevction_time_step_size k)
    (hac : ∀ k, 0 < E.get_fluid_time_step_size k)
    (End_Time D_Time : ℚ) (fuelM : ℕ) (m' : HydrostaticFSI.State)
    (hM : HydrostaticFSI.mainLoop E End_Time D_Time fuelM HydrostaticFSI.initialState = some m')
    (fuelB : ℕ) (b b' : HydrostaticFSI.State)
    (hB : HydrostaticFSI.advectionBody E fuelB b = some b')
    (fuelO : ℕ) (o o' : HydrostaticFSI.State)
    (hO : HydrostaticFSI.outputBody E D_Time fuelO o = some o')
    (F : StaticConfinement.Estimators)
    (hF : ∀ k, 0 < F.get_fluid_time_step_size k)
    (restart_step_ : ℕ) (readRestartFiles : ℕ → ℚ) (fuelM' : ℕ) (n' : StaticConfinement.State)
    (hM' : StaticConfinement.mainLoop F End_Time D_Time fuelM'
      (StaticConfinement.initialState restart_step_ readRestartFiles) = some n')
    (fuelB' : ℕ) (p p' : StaticConfinement.State)
    (hB' : StaticConfinement.advectionBody F fuelB' p = some p')
    (fuelO' : ℕ) (q q' : StaticConfinement.State)
    (hO' : StaticConfinement.outputBody F D_Time fuelO' q = some q') :
    ((∀ r : HydrostaticFSI.Recorder,
        (HydrostaticFSI.recorded r m'.trace).Pairwise (fun x y => x ≤ y)) ∧
      (∃ calls, b'.trace = b.trace ++ calls ∧
        HydrostaticFSI.recorded HydrostaticFSI.Recorder.write_real_body_states_to_vtu calls
          = [] ∧
        HydrostaticFSI.recorded HydrostaticFSI.Recorder.write_beam_tip_displacement calls
          = [(b'.number_of_iterations : ℚ)]) ∧
      (o'.trace.getLast? = some (HydrostaticFSI.Call.write_real_body_states_to_vtu none) ∧
        o.physical_time_ ≤ o'.physical_time_)) ∧
    ((∀ r : StaticConfinement.Recorder,
        (StaticConfinement.recorded r n'.trace).Pairwise (fun x y => x ≤ y)) ∧
      (∃ calls, p'.trace = p.trace ++ calls ∧
        (∀ r : StaticConfinement.Recorder, r ≠ StaticConfinement.Recorder.restart_write →
          ∀ a ∈ StaticConfinement.recorded r calls, a = p'.physical_time_) ∧
        (∀ a ∈ StaticConfinement.recorded StaticConfinement.Recorder.restart_write calls,
          a = (p.number_of_iterations : ℚ))) ∧
      q'.trace.getLast? =
        some (StaticConfinement.Call.write_body_states q'.physical_time_)) := by
  refine ⟨⟨?_, ?_, ?_⟩, ⟨?_, ?_, ?_⟩⟩
  · intro r
    obtain ⟨calls, h1, h2⟩ :=
      HydrostaticFSI.mainLoop_segment E End_Time D_Time fuelM _ m' hM
    have h0 : Segment (r.clock HydrostaticFSI.initialState)
        (r.clock HydrostaticFSI.initialState)
        (HydrostaticFSI.recorded r HydrostaticFSI.initialState.trace) := by
      refine Segment.of_const (le_refl _) (le_refl _) ?_
      intro a ha
      cases r <;>
        simp [HydrostaticFSI.recorded, HydrostaticFSI.initialState, HydrostaticFSI.Call.arg]
          at ha <;>
        simp [HydrostaticFSI.Recorder.clock, HydrostaticFSI.initialState, ha]
    have e : HydrostaticFSI.recorded r m'.trace =
        HydrostaticFSI.recorded r HydrostaticFSI.initialState.trace ++
          HydrostaticFSI.recorded r calls := by
      rw [h1]; simp [HydrostaticFSI.recorded]
    rw [e]
    exact (h0.append (h2 r)).2.1
  · obtain ⟨calls, h1, _, h3, h4⟩ := HydrostaticFSI.advectionBody_reports E fuelB b b' hB
    exact ⟨calls, h1, h3, h4⟩
  · obtain ⟨u, hu, rfl⟩ := HydrostaticFSI.outputBody_inv E D_Time fuelO o o' hO
    refine ⟨by simp [HydrostaticFSI.outputTail], ?_⟩
    exact (HydrostaticFSI.advectionLoop_clock E D_Time had hac fuelO _ u hu).1
  · intro r
    obtain ⟨calls, h1, h2⟩ :=
      StaticConfinement.fluid_mainLoop_segment F End_Time D_Time hF fuelM' _ n' hM'
    have h0 : Segment (r.clock (StaticConfinement.initialState restart_step_ readRestartFiles))
        (r.clock (StaticConfinement.initialState restart_step_ readRestartFiles))
        (StaticConfinement.recorded r
          (StaticConfinement.initialState restart_step_ readRestartFiles).trace) := by
      refine Segment.of_const (le_refl _) (le_refl _) ?_
      intro a ha
      by_cases hr : restart_step_ = 0
      · subst hr
        cases r <;>
          simp [StaticConfinement.recorded, StaticConfinement.initialState,
            StaticConfinement.Call.arg] at ha <;>
          simp [StaticConfinement.Recorder.clock, StaticConfinement.initialState, ha]
      · cases r <;>
          simp [StaticConfinement.recorded, StaticConfinement.initialState,
            StaticConfinement.Call.arg, StaticConfinement.restartRebuild, hr] at ha <;>
          simp [StaticConfinement.Recorder.clock, StaticConfinement.initialState, ha]
    have e : StaticConfinement.recorded r n'.trace =
        StaticConfinement.recorded r
          (StaticConfinement.initialState restart_step_ readRestartFiles).trace ++
          StaticConfinement.recorded r calls := by
      rw [h1]; simp [StaticConfinement.recorded]
    rw [e]
    exact (h0.append (h2 r)).2.1
  · obtain ⟨t, calls, rfl, h1, h3, h2, _⟩ :=
      StaticConfinement.fluid_advectionBody_reports F hF fuelB' p p' hB'
    refine ⟨calls, h1, ?_, ?_⟩
    · intro r hr a ha
      have := h2 r a ha
      cases r <;> first | exact absurd rfl hr | exact this
    · intro a ha
      have := h2 _ a ha
      rw [this]
      show (t.number_of_iterations : ℚ) = _
      rw [h3]
  · obtain ⟨u, _, rfl⟩ := StaticConfinement.fluid_outputBody_inv F D_Time fuelO' q q' hO'
    simp [StaticConfinement.outputTail]

/-- Witness for C15: one-interval runs of both programs with all estimators returning `1`,
`D_Time = 1` and `End_Time = 1`. -/
theorem C15_recorder_arguments_monotone_witness :
    ∃ (m' : HydrostaticFSI.State) (n' : StaticConfinement.State),
      HydrostaticFSI.mainLoop (constFSI 1 1 1) 1 1 5 HydrostaticFSI.initialState = some m' ∧
      StaticConfinement.mainLoop (constFluid 1 1) 1 1 3
        (StaticConfinement.initialState 0 (fun _ => 0)) = some n' ∧
      (∀ r : HydrostaticFSI.Recorder,
        (HydrostaticFSI.recorded r m'.trace).Pairwise (fun x y => x ≤ y)) ∧
      (∀ r : StaticConfinement.Recorder,
        (StaticConfinement.recorded r n'.trace).Pairwise (fun x y => x ≤ y)) := by
  have hb : (HydrostaticFSI.advectionBody (constFSI 1 1 1) 3
      HydrostaticFSI.initialState).isSome = true := by decide!
  have ho : (HydrostaticFSI.outputBody (constFSI 1 1 1) 1 4
      HydrostaticFSI.initialState).isSome = true := by decide!
  have hm : (HydrostaticFSI.mainLoop (constFSI 1 1 1) 1 1 5
      HydrostaticFSI.initialState).isSome = true := by decide!
  have hb' : (StaticConfinement.advectionBody (constFluid 1 1) 1
      (StaticConfinement.initialState 0 (fun _ => 0))).isSome = true := by decide!
  have ho' : (StaticConfinement.outputBody (constFluid 1 1) 1 2
      (StaticConfinement.initialState 0 (fun _ => 0))).isSome = true := by decide!
  have hm' : (StaticConfinement.mainLoop (constFluid 1 1) 1 1 3
      (StaticConfinement.initialState 0 (fun _ => 0))).isSome = true := by decide!
  obtain ⟨b', hb⟩ := Option.isSome_iff_exists.mp hb
  obtain ⟨o', ho⟩ := Option.isSome_iff_exists.mp ho
  obtain ⟨m', hm⟩ := Option.isSome_iff_exists.mp hm
  obtain ⟨p', hb'⟩ := Option.isSome_iff_exists.mp hb'
  obtain ⟨q', ho'⟩ := Option.isSome_iff_exists.mp ho'
  obtain ⟨n', hm'⟩ := Option.isSome_iff_exists.mp hm'
  have key := C15_recorder_arguments_monotone (constFSI 1 1 1)
    (fun _ => by show (0 : ℚ) < 1; norm_num) (fun _ => by show (0 : ℚ) < 1; norm_num)
    1 1 5 m' hm 3 _ b' hb 4 _ o' ho (constFluid 1 1)
    (fun _ => by show (0 : ℚ) < 1; norm_num) 0 (fun _ => 0) 3 n' hm' 1 _ p' hb' 2 _ q' ho'
  exact ⟨m', n', hm, hm', key.1.1, key.2.1⟩

/-- C16: the iteration-cadence outputs of the pure-fluid program. At the end of an advection
interval, with `n` the value of `number_of_iterations` before the increment, the calls
made ahead of the rebuild contain the console line exactly when `n % 100 = 0`, one
mechanical-energy and one observed-pressure write exactly when `n % 200 = 0`, and one
restart write, with argument `n`, exactly when `n % 1000 = 0`; so the nesting of the
200- and 1000-checks inside the 100-check suppresses nothing. -/
theorem C16_iteration_cadence (s : StaticConfinement.State) :
    (StaticConfinement.advectionTail s).trace =
      s.trace ++ StaticConfinement.iterationOutput s ++
        [StaticConfinement.Call.updateCellLinkedList Body.water_block,
         StaticConfinement.Call.updateConfiguration Relation.water_block_inner,
         StaticConfinement.Call.updateConfiguration Relation.fluid_observer_contact] ∧
    (StaticConfinement.advectionTail s).number_of_iterations = s.number_of_iterations + 1 ∧
    (StaticConfinement.iterationOutput s).filter StaticConfinement.Call.isScreenOutput =
      (if s.number_of_iterations % 100 = 0 then
        [StaticConfinement.Call.screen_output s.number_of_iterations s.physical_time_ s.Dt s.dt]
       else []) ∧
    (StaticConfinement.iterationOutput s).filter StaticConfinement.Call.isMechanicalEnergy =
      (if s.number_of_iterations % 200 = 0 then
        [StaticConfinement.Call.write_water_mechanical_energy s.physical_time_]
       else []) ∧
    (StaticConfinement.iterationOutput s).filter StaticConfinement.Call.isRecordedPressure =
      (if s.number_of_iterations % 200 = 0 then
        [StaticConfinement.Call.write_recorded_water_pressure s.physical_time_]
       else []) ∧
    (StaticConfinement.iterationOutput s).filter StaticConfinement.Call.isRestartWrite =
      (if s.number_of_iterations % 1000 = 0 then
        [StaticConfinement.Call.restart_write (s.number_of_iterations : ℚ)]
       else []) := by
  refine ⟨rfl, rfl, ?_, ?_, ?_, ?_⟩ <;>
  · simp only [StaticConfinement.iterationOutput, StaticConfinement.screen_output_interval,
      StaticConfinement.observation_sample_interval, StaticConfinement.restart_output_interval]
    by_cases h1 : s.number_of_iterations % 100 = 0 <;>
    by_cases h2 : s.number_of_iterations % (100 * 2) = 0 <;>
    by_cases h3 : s.number_of_iterations % (100 * 10) = 0 <;>
    by_cases h4 : s.number_of_iterations % 200 = 0 <;>
    by_cases h5 : s.number_of_iterations % 1000 = 0 <;>
    first
      | omega
      | simp [h1, h2, h3, h4, h5, StaticConfinement.Call.isScreenOutput,
          StaticConfinement.Call.isMechanicalEnergy, StaticConfinement.Call.isRecordedPressure,
          StaticConfinement.Call.isRestartWrite]

/-- C17, as stated, fails in binary64 arithmetic: the rounded sum can land on `2 * Dt`.
With `Dt = 0.1` and a fluid acoustic estimator that returns `0.01` ten times and then `0.1`,
the coupled acoustic loop reaches `relaxation_time = 0.09999999999999999 < Dt` after ten
sub-steps and exits after the eleventh with `relaxation_time = 0.2 = 2 * Dt`. -/
theorem C17_counterexample :
    0 < fl 0.01 ∧ 0 < fl 0.1 ∧
    (HydrostaticFSI.Double.acousticLoop (switchFSI (fl 0.1) 10 (fl 0.01) (fl 0.1) 1) 12
        (HydrostaticFSI.advectionHead (switchFSI (fl 0.1) 10 (fl 0.01) (fl 0.1) 1)
          HydrostaticFSI.initialState)).map
      (fun s => (s.Dt, s.relaxation_time, s.acoustic_calls)) =
      some (fl 0.1, 2 * fl 0.1, 11) ∧
    ¬ (2 * fl 0.1 < 2 * fl 0.1) := by
  refine ⟨by decide!, by decide!, by decide!, lt_irrefl _⟩

/-- C17, amended: bounded overshoot of the coupled acoustic loop in binary64 arithmetic. For
a binary64 `Dt > 0`, when the loop `while (relaxation_time < Dt)`, entered with
`relaxation_time = 0`, exits, then `Dt ≤ relaxation_time ≤ 2 * Dt`: the last step is
`SMIN(a, Dt) ≤ Dt`, taken from a state with `relaxation_time < Dt`, and the sum is rounded. -/
theorem C17_bounded_overshoot_amended (E : HydrostaticFSI.Estimators) (fuel : ℕ)
    (s s' : HydrostaticFSI.State) (hDt : 0 < s.Dt) (hd : IsDouble s.Dt)
    (h0 : s.relaxation_time = 0)
    (h : HydrostaticFSI.Double.acousticLoop E fuel s = some s') :
    s.Dt ≤ s'.relaxation_time ∧ s'.relaxation_time ≤ 2 * s.Dt := by
  obtain ⟨f, u, hu, hDtu, hb⟩ :=
    HydrostaticFSI.Double.dbl_acousticLoop_last E fuel s s' h (by rw [h0]; exact hDt)
  obtain ⟨_, _, _, hdt, hDt', _, _, hrel, _⟩ :=
    HydrostaticFSI.Double.dbl_acousticBody_spec E f u s' hb
  have hle : s'.dt ≤ u.Dt := by rw [hdt]; exact min_le_right _ _
  obtain ⟨hx, hDs, _⟩ := HydrostaticFSI.Double.dbl_acousticLoop_book E fuel s s' h
  rw [hDs] at hx
  rw [hDtu] at hle hu
  refine ⟨not_lt.mp hx, ?_⟩
  rw [hrel]
  exact fl_le_of_le hd.two_mul (by linarith)

/-- Witness for the amended C17: the acoustic loop of the first advection interval with
`Dt = 0.1` and acoustic estimates of `0.01`, ten times, then `0.1`; it exits at
`relaxation_time = 2 * Dt`. -/
theorem C17_bounded_overshoot_amended_witness :
    ∃ s', HydrostaticFSI.Double.acousticLoop (switchFSI (fl 0.1) 10 (fl 0.01) (fl 0.1) 1) 12
        (HydrostaticFSI.advectionHead (switchFSI (fl 0.1) 10 (fl 0.01) (fl 0.1) 1)
          HydrostaticFSI.initialState) = some s' ∧
      fl 0.1 ≤ s'.relaxation_time ∧ s'.relaxation_time ≤ 2 * fl 0.1 := by
  have hs : (HydrostaticFSI.Double.acousticLoop (switchFSI (fl 0.1) 10 (fl 0.01) (fl 0.1) 1) 12
      (HydrostaticFSI.advectionHead (switchFSI (fl 0.1) 10 (fl 0.01) (fl 0.1) 1)
        HydrostaticFSI.initialState)).isSome = true := by decide!
  obtain ⟨s', hs'⟩ := Option.isSome_iff_exists.mp hs
  have key := C17_bounded_overshoot_amended (switchFSI (fl 0.1) 10 (fl 0.01) (fl 0.1) 1) 12
    (HydrostaticFSI.advectionHead (switchFSI (fl 0.1) 10 (fl 0.01) (fl 0.1) 1)
      HydrostaticFSI.initialState) s' (by decide!) (by decide!) rfl hs'
  exact ⟨s', hs', key⟩

/-- C18, as stated, fails in binary64 arithmetic: the three clocks are separate rounded
sums. With `D_Time = 0.1`, `Dt = 0.1` and an acoustic estimator that returns `0.1` and then
`0.01`, the first output interval of either program ends at `physical_time_ = 0.1`; after the
first sub-step of the second output interval `physical_time_ = 0.11` and the interval time
is `0.01`. With the same estimators the first advection interval ends at the interval time
`0.1`, and after the first sub-step of the second advection interval the interval time is
`0.11` and `relaxation_time = 0.01`. And `0.11 - 0.1` is not `0.01`, neither exactly nor as
a rounded difference. -/
theorem C18_counterexample :
    ((HydrostaticFSI.Double.outputBody (switchFSI (fl 0.1) 1 (fl 0.1) (fl 0.01) 1) (fl 0.1) 5
        HydrostaticFSI.initialState).bind
      (fun o => (HydrostaticFSI.Double.acousticBody (switchFSI (fl 0.1) 1 (fl 0.1) (fl 0.01) 1) 3
          (HydrostaticFSI.advectionHead (switchFSI (fl 0.1) 1 (fl 0.1) (fl 0.01) 1)
            { o with integeral_time := 0 })).map
        (fun a => (o.physical_time_, a.physical_time_, a.integeral_time))) =
      some (fl 0.1, fl 0.11, fl 0.01)) ∧
    ((StaticConfinement.Double.outputBody (switchFluid (fl 0.1) 1 (fl 0.1) (fl 0.01)) (fl 0.1) 3
        (StaticConfinement.initialState 0 (fun _ => 0))).map
      (fun o => (o.physical_time_,
        (StaticConfinement.Double.acousticBody (switchFluid (fl 0.1) 1 (fl 0.1) (fl 0.01))
          (StaticConfinement.advectionHead (switchFluid (fl 0.1) 1 (fl 0.1) (fl 0.01))
            { o with integration_time := 0 })).physical_time_,
        (StaticConfinement.Double.acousticBody (switchFluid (fl 0.1) 1 (fl 0.1) (fl 0.01))
          (StaticConfinement.advectionHead (switchFluid (fl 0.1) 1 (fl 0.1) (fl 0.01))
            { o with integration_time := 0 })).integration_time)) =
      some (fl 0.1, fl 0.11, fl 0.01)) ∧
    ((HydrostaticFSI.Double.advectionBody (switchFSI (fl 0.1) 1 (fl 0.1) (fl 0.01) 1) 4
        HydrostaticFSI.initialState).bind
      (fun b => (HydrostaticFSI.Double.acousticBody (switchFSI (fl 0.1) 1 (fl 0.1) (fl 0.01) 1) 3
          (HydrostaticFSI.advectionHead (switchFSI (fl 0.1) 1 (fl 0.1) (fl 0.01) 1) b)).map
        (fun a => (b.integeral_time, a.integeral_time, a.relaxation_time))) =
      some (fl 0.1, fl 0.11, fl 0.01)) ∧
    ((StaticConfinement.Double.advectionBody (switchFluid (fl 0.1) 1 (fl 0.1) (fl 0.01)) 2
        (StaticConfinement.initialState 0 (fun _ => 0))).map
      (fun b => (b.integration_time,
        (StaticConfinement.Double.acousticBody (switchFluid (fl 0.1) 1 (fl 0.1) (fl 0.01))
          (StaticConfinement.advectionHead (switchFluid (fl 0.1) 1 (fl 0.1) (fl 0.01))
            b)).integration_time,
        (StaticConfinement.Double.acousticBody (switchFluid (fl 0.1) 1 (fl 0.1) (fl 0.01))
          (StaticConfinement.advectionHead (switchFluid (fl 0.1) 1 (fl 0.1) (fl 0.01))
            b)).relaxation_time)) =
      some (fl 0.1, fl 0.11, fl 0.01)) ∧
    fl 0.11 - fl 0.1 ≠ fl 0.01 ∧ fl (fl 0.11 - fl 0.1) ≠ fl 0.01 := by
  refine ⟨by decide!, by decide!, by decide!, by decide!, by decide!, by decide!⟩

/-- C18, amended: in binary64 arithmetic the three clocks are advanced by the same steps,
each clock rounding its own sum. In both programs an acoustic sub-step adds the same `dt` to
`relaxation_time`, the interval time and `physical_time_`, every sum rounded on its own; an
advection interval starts with `relaxation_time = 0` and an output interval with the interval
time `0`, and the statements around the sub-steps change none of the three otherwise. So at
every state reached by sub-steps from the start of an advection interval, `relaxation_time`,
the interval time and `physical_time_` are the rounded sums (`accumulate`) of the same list
of steps, started from `0`, from the interval time and from `physical_time_` at the start of
the advection interval; at every state reached inside an output interval the interval time
and `physical_time_` are the rounded sums of the same steps, started from `0` and from
`physical_time_` at the start of the output interval; the same holds at the end of an
advection interval and of an output interval, and over a run of the main loop
`physical_time_` is the rounded sum of the initial `physical_time_` and the acoustic steps
taken: in the coupled program the arguments of the `update_averages` calls made, in the
pure-fluid program the estimates returned by the calls made. -/
theorem C18_clock_bookkeeping_amended
    (E : HydrostaticFSI.Estimators) (D_Time End_Time : ℚ)
    (fuelA : ℕ) (a a' : HydrostaticFSI.State)
    (hA : HydrostaticFSI.Double.acousticBody E fuelA a = some a')
    (fuelB : ℕ) (b b' : HydrostaticFSI.State)
    (hB : HydrostaticFSI.Double.advectionBody E fuelB b = some b')
    (fuelO : ℕ) (o o' : HydrostaticFSI.State)
    (hO : HydrostaticFSI.Double.outputBody E D_Time fuelO o = some o')
    (fuelM : ℕ) (m m' : HydrostaticFSI.State)
    (hM : HydrostaticFSI.Double.mainLoop E End_Time D_Time fuelM m = some m')
    (F : StaticConfinement.Estimators)
    (fuelB' : ℕ) (p p' : StaticConfinement.State)
    (hB' : StaticConfinement.Double.advectionBody F fuelB' p = some p')
    (fuelO' : ℕ) (q q' : StaticConfinement.State)
    (hO' : StaticConfinement.Double.outputBody F D_Time fuelO' q = some q')
    (fuelM' : ℕ) (n n' : StaticConfinement.State)
    (hM' : StaticConfinement.Double.mainLoop F End_Time D_Time fuelM' n = some n') :
    ((a'.physical_time_ = fl (a.physical_time_ + a'.dt) ∧
        a'.integeral_time = fl (a.integeral_time + a'.dt) ∧
        a'.relaxation_time = fl (a.relaxation_time + a'.dt)) ∧
      (∀ s : HydrostaticFSI.State,
        (HydrostaticFSI.advectionHead E s).relaxation_time = 0 ∧
        (HydrostaticFSI.advectionHead E s).integeral_time = s.integeral_time ∧
        (HydrostaticFSI.advectionHead E s).physical_time_ = s.physical_time_ ∧
        (HydrostaticFSI.advectionTail s).relaxation_time = s.relaxation_time ∧
        (HydrostaticFSI.advectionTail s).integeral_time = s.integeral_time ∧
        (HydrostaticFSI.advectionTail s).physical_time_ = s.physical_time_ ∧
        (HydrostaticFSI.outputTail s).integeral_time = s.integeral_time ∧
        (HydrostaticFSI.outputTail s).physical_time_ = s.physical_time_) ∧
      (∀ s u : HydrostaticFSI.State,
        Relation.ReflTransGen (HydrostaticFSI.Double.subStep E)
          (HydrostaticFSI.advectionHead E s) u →
        ∃ calls, u.trace = (HydrostaticFSI.advectionHead E s).trace ++ calls ∧
          u.relaxation_time = accumulate 0 (HydrostaticFSI.acousticSteps calls) ∧
          u.integeral_time = accumulate s.integeral_time (HydrostaticFSI.acousticSteps calls) ∧
          u.physical_time_ =
            accumulate s.physical_time_ (HydrostaticFSI.acousticSteps calls)) ∧
      (∀ s u : HydrostaticFSI.State,
        Relation.ReflTransGen (HydrostaticFSI.Double.intervalStep E)
          { s with integeral_time := 0 } u →
        ∃ calls, u.trace = s.trace ++ calls ∧
          u.integeral_time = accumulate 0 (HydrostaticFSI.acousticSteps calls) ∧
          u.physical_time_ =
            accumulate s.physical_time_ (HydrostaticFSI.acousticSteps calls)) ∧
      (∃ calls, b'.trace = b.trace ++ calls ∧
        b'.relaxation_time = accumulate 0 (HydrostaticFSI.acousticSteps calls) ∧
        b'.integeral_time = accumulate b.integeral_time (HydrostaticFSI.acousticSteps calls) ∧
        b'.physical_time_ =
          accumulate b.physical_time_ (HydrostaticFSI.acousticSteps calls)) ∧
      (∃ calls, o'.trace = o.trace ++ calls ∧
        o'.integeral_time = accumulate 0 (HydrostaticFSI.acousticSteps calls) ∧
        o'.physical_time_ =
          accumulate o.physical_time_ (HydrostaticFSI.acousticSteps calls)) ∧
      (∃ calls, m'.trace = m.trace ++ calls ∧
        m'.physical_time_ =
          accumulate m.physical_time_ (HydrostaticFSI.acousticSteps calls))) ∧
    ((∀ s : StaticConfinement.State,
        (StaticConfinement.Double.acousticBody F s).physical_time_ =
          fl (s.physical_time_ + (StaticConfinement.Double.acousticBody F s).dt) ∧
        (StaticConfinement.Double.acousticBody F s).integration_time =
          fl (s.integration_time + (StaticConfinement.Double.acousticBody F s).dt) ∧
        (StaticConfinement.Double.acousticBody F s).relaxation_time =
          fl (s.relaxation_time + (StaticConfinement.Double.acousticBody F s).dt) ∧
        (StaticConfinement.advectionHead F s).relaxation_time = 0 ∧
        (StaticConfinement.advectionHead F s).integration_time = s.integration_time ∧
        (StaticConfinement.advectionHead F s).physical_time_ = s.physical_time_ ∧
        (StaticConfinement.Double.advectionTail s).relaxation_time = s.relaxation_time ∧
        (StaticConfinement.Double.advectionTail s).integration_time = s.integration_time ∧
        (StaticConfinement.Double.advectionTail s).physical_time_ = s.physical_time_ ∧
        (StaticConfinement.outputTail s).integration_time = s.integration_time ∧
        (StaticConfinement.outputTail s).physical_time_ = s.physical_time_) ∧
      (∀ s u : StaticConfinement.State,
        Relation.ReflTransGen (StaticConfinement.Double.subStep F)
          (StaticConfinement.advectionHead F s) u →
        s.acoustic_calls ≤ u.acoustic_calls ∧
        u.relaxation_time = accumulate 0
          (StaticConfinement.Double.acousticSteps F s.acoustic_calls u.acoustic_calls) ∧
        u.integration_time = accumulate s.integration_time
          (StaticConfinement.Double.acousticSteps F s.acoustic_calls u.acoustic_calls) ∧
        u.physical_time_ = accumulate s.physical_time_
          (StaticConfinement.Double.acousticSteps F s.acoustic_calls u.acoustic_calls)) ∧
      (∀ s u : StaticConfinement.State,
        Relation.ReflTransGen (StaticConfinement.Double.intervalStep F)
          { s with integration_time := 0 } u →
        s.acoustic_calls ≤ u.acoustic_calls ∧
        u.integration_time = accumulate 0
          (StaticConfinement.Double.acousticSteps F s.acoustic_calls u.acoustic_calls) ∧
        u.physical_time_ = accumulate s.physical_time_
          (StaticConfinement.Double.acousticSteps F s.acoustic_calls u.acoustic_calls)) ∧
      (p.acoustic_calls ≤ p'.acoustic_calls ∧
        p'.relaxation_time = accumulate 0
          (StaticConfinement.Double.acousticSteps F p.acoustic_calls p'.acoustic_calls) ∧
        p'.integration_time = accumulate p.integration_time
          (StaticConfinement.Double.acousticSteps F p.acoustic_calls p'.acoustic_calls) ∧
        p'.physical_time_ = accumulate p.physical_time_
          (StaticConfinement.Double.acousticSteps F p.acoustic_calls p'.acoustic_calls)) ∧
      (q.acoustic_calls ≤ q'.acoustic_calls ∧
        q'.integration_time = accumulate 0
          (StaticConfinement.Double.acousticSteps F q.acoustic_calls q'.acoustic_calls) ∧
        q'.physical_time_ = accumulate q.physical_time_
          (StaticConfinement.Double.acousticSteps F q.acoustic_calls q'.acoustic_calls)) ∧
      (n.acoustic_calls ≤ n'.acoustic_calls ∧
        n'.physical_time_ = accumulate n.physical_time_
          (StaticConfinement.Double.acousticSteps F n.acoustic_calls n'.acoustic_calls))) := by
  have hscreen : ∀ t : HydrostaticFSI.State,
      HydrostaticFSI.acousticSteps (HydrostaticFSI.screenOutput t) = [] := by
    intro t
    unfold HydrostaticFSI.screenOutput
    split_ifs <;> rfl
  refine ⟨⟨?_, ?_, ?_, ?_, ?_, ?_, ?_⟩, ⟨?_, ?_, ?_, ?_, ?_, ?_⟩⟩
  · obtain ⟨_, _, _, _, _, h5, h6, h7, _⟩ :=
      HydrostaticFSI.Double.dbl_acousticBody_spec E fuelA a a' hA
    exact ⟨h5, h6, h7⟩
  · intro s
    exact ⟨rfl, rfl, rfl, rfl, rfl, rfl, rfl, rfl⟩
  · intro s u h
    induction h with
    | refl => exact ⟨[], by simp, rfl, rfl, rfl⟩
    | tail _ hstep ih =>
      obtain ⟨fuel, hb⟩ := hstep
      obtain ⟨_, _, _, _, _, h5, h6, h7, _⟩ :=
        HydrostaticFSI.Double.dbl_acousticBody_spec E fuel _ _ hb
      obtain ⟨c1, k1, k2⟩ := HydrostaticFSI.Double.dbl_acousticBody_steps E fuel _ _ hb
      obtain ⟨c0, i1, i2, i3, i4⟩ := ih
      refine ⟨c0 ++ c1, by rw [k1, i1, List.append_assoc], ?_, ?_, ?_⟩
      · rw [HydrostaticFSI.acousticSteps_append, k2, accumulate_concat, h7, i2]
      · rw [HydrostaticFSI.acousticSteps_append, k2, accumulate_concat, h6, i3]
      · rw [HydrostaticFSI.acousticSteps_append, k2, accumulate_concat, h5, i4]
  · intro s u h
    induction h with
    | refl => exact ⟨[], by simp, rfl, rfl⟩
    | tail _ hstep ih =>
      obtain ⟨c0, i1, i3, i4⟩ := ih
      rcases hstep with ⟨fuel, hb⟩ | rfl | rfl
      · obtain ⟨_, _, _, _, _, h5, h6, _⟩ :=
          HydrostaticFSI.Double.dbl_acousticBody_spec E fuel _ _ hb
        obtain ⟨c1, k1, k2⟩ := HydrostaticFSI.Double.dbl_acousticBody_steps E fuel _ _ hb
        refine ⟨c0 ++ c1, by rw [k1, i1, List.append_assoc], ?_, ?_⟩
        · rw [HydrostaticFSI.acousticSteps_append, k2, accumulate_concat, h6, i3]
        · rw [HydrostaticFSI.acousticSteps_append, k2, accumulate_concat, h5, i4]
      · refine ⟨c0 ++ [HydrostaticFSI.Call.initialize_a_fluid_step,
          HydrostaticFSI.Call.get_fluid_adevction_time_step_size,
          HydrostaticFSI.Call.update_fluid_desnity,
          HydrostaticFSI.Call.gate_update_normal], ?_, ?_, ?_⟩
        · simp only [HydrostaticFSI.advectionHead, i1, List.append_assoc]
        · rw [HydrostaticFSI.acousticSteps_append]
          simpa [HydrostaticFSI.acousticSteps, HydrostaticFSI.advectionHead] using i3
        · rw [HydrostaticFSI.acousticSteps_append]
          simpa [HydrostaticFSI.acousticSteps, HydrostaticFSI.advectionHead] using i4
      · rename_i t _
        refine ⟨c0 ++ (HydrostaticFSI.screenOutput t ++ HydrostaticFSI.rebuild ++
          [HydrostaticFSI.Call.write_beam_tip_displacement (t.number_of_iterations + 1)]),
          ?_, ?_, ?_⟩
        · simp only [HydrostaticFSI.advectionTail, i1, List.append_assoc]
        · rw [HydrostaticFSI.acousticSteps_append, HydrostaticFSI.acousticSteps_append,
            HydrostaticFSI.acousticSteps_append, hscreen]
          simpa [HydrostaticFSI.acousticSteps, HydrostaticFSI.advectionTail,
            HydrostaticFSI.rebuild] using i3
        · rw [HydrostaticFSI.acousticSteps_append, HydrostaticFSI.acousticSteps_append,
            HydrostaticFSI.acousticSteps_append, hscreen]
          simpa [HydrostaticFSI.acousticSteps, HydrostaticFSI.advectionTail,
            HydrostaticFSI.rebuild] using i4
  · exact (HydrostaticFSI.Double.dbl_advectionBody_book E fuelB b b' hB).2.2
  · exact (HydrostaticFSI.Double.dbl_outputBody_book E D_Time fuelO o o' hO).2.2
  · exact (HydrostaticFSI.Double.dbl_mainLoop_book E End_Time D_Time fuelM m m' hM).2.2
  · intro s
    exact ⟨rfl, rfl, rfl, rfl, rfl, rfl, rfl, rfl, rfl, rfl, rfl⟩
  · intro s u h
    induction h with
    | refl =>
      simp [StaticConfinement.Double.dbl_fluid_acousticSteps_self, accumulate,
        StaticConfinement.advectionHead]
    | tail hprev hstep ih =>
      rename_i t c
      obtain ⟨i0, i2, i3, i4⟩ := ih
      rw [hstep]
      have i0' : s.acoustic_calls ≤ t.acoustic_calls := i0
      have happ : StaticConfinement.Double.acousticSteps F s.acoustic_calls
            (t.acoustic_calls + 1) =
          StaticConfinement.Double.acousticSteps F s.acoustic_calls t.acoustic_calls ++
            [F.get_fluid_time_step_size t.acoustic_calls] := by
        rw [← StaticConfinement.Double.dbl_fluid_acousticSteps_succ,
          StaticConfinement.Double.dbl_fluid_acousticSteps_append F i0' (Nat.le_succ _)]
      refine ⟨Nat.le_succ_of_le i0', ?_, ?_, ?_⟩
      · show fl (t.relaxation_time + F.get_fluid_time_step_size t.acoustic_calls) =
          accumulate 0 (StaticConfinement.Double.acousticSteps F s.acoustic_calls
            (t.acoustic_calls + 1))
        rw [happ, accumulate_concat, i2]
      · show fl (t.integration_time + F.get_fluid_time_step_size t.acoustic_calls) =
          accumulate s.integration_time (StaticConfinement.Double.acousticSteps F
            s.acoustic_calls (t.acoustic_calls + 1))
        rw [happ, accumulate_concat, i3]
      · show fl (t.physical_time_ + F.get_fluid_time_step_size t.acoustic_calls) =
          accumulate s.physical_time_ (StaticConfinement.Double.acousticSteps F
            s.acoustic_calls (t.acoustic_calls + 1))
        rw [happ, accumulate_concat, i4]
  · intro s u h
    induction h with
    | refl =>
      simp [StaticConfinement.Double.dbl_fluid_acousticSteps_self, accumulate]
    | tail hprev hstep ih =>
      rename_i t c
      obtain ⟨i0, i3, i4⟩ := ih
      rcases hstep with hstep | rfl | rfl
      · rw [hstep]
        have i0' : s.acoustic_calls ≤ t.acoustic_calls := i0
        have happ : StaticConfinement.Double.acousticSteps F s.acoustic_calls
              (t.acoustic_calls + 1) =
            StaticConfinement.Double.acousticSteps F s.acoustic_calls t.acoustic_calls ++
              [F.get_fluid_time_step_size t.acoustic_calls] := by
          rw [← StaticConfinement.Double.dbl_fluid_acousticSteps_succ,
            StaticConfinement.Double.dbl_fluid_acousticSteps_append F i0' (Nat.le_succ _)]
        refine ⟨Nat.le_succ_of_le i0', ?_, ?_⟩
        · show fl (t.integration_time + F.get_fluid_time_step_size t.acoustic_calls) =
            accumulate 0 (StaticConfinement.Double.acousticSteps F
              s.acoustic_calls (t.acoustic_calls + 1))
          rw [happ, accumulate_concat, i3]
        · show fl (t.physical_time_ + F.get_fluid_time_step_size t.acoustic_calls) =
            accumulate s.physical_time_ (StaticConfinement.Double.acousticSteps F
              s.acoustic_calls (t.acoustic_calls + 1))
          rw [happ, accumulate_concat, i4]
      · exact ⟨i0, i3, i4⟩
      · exact ⟨i0, i3, i4⟩
  · obtain ⟨_, _, h3, h4, h5, h6⟩ :=
      StaticConfinement.Double.dbl_fluid_advectionBody_book F fuelB' p p' hB'
    exact ⟨h3, h4, h5, h6⟩
  · obtain ⟨_, _, h3, h4, h5⟩ :=
      StaticConfinement.Double.dbl_fluid_outputBody_book F D_Time fuelO' q q' hO'
    exact ⟨h3, h4, h5⟩
  · obtain ⟨_, _, h3, h4⟩ :=
      StaticConfinement.Double.dbl_fluid_mainLoop_book F End_Time D_Time fuelM' n n' hM'
    exact ⟨h3, h4⟩

/-- Witness for the amended C18: one-interval runs of both programs with all estimators
returning `1`, `D_Time = 1` and `End_Time = 1`. -/
theorem C18_clock_bookkeeping_amended_witness :
    ∃ (m' : HydrostaticFSI.State) (n' : StaticConfinement.State),
      HydrostaticFSI.Double.mainLoop (constFSI 1 1 1) 1 1 5 HydrostaticFSI.initialState
        = some m' ∧
      StaticConfinement.Double.mainLoop (constFluid 1 1) 1 1 3
        (StaticConfinement.initialState 0 (fun _ => 0)) = some n' ∧
      (∃ calls, m'.trace = HydrostaticFSI.initialState.trace ++ calls ∧
        m'.physical_time_ = accumulate HydrostaticFSI.initialState.physical_time_
          (HydrostaticFSI.acousticSteps calls)) ∧
      n'.physical_time_ =
        accumulate (StaticConfinement.initialState 0 (fun _ => 0)).physical_time_
          (StaticConfinement.Double.acousticSteps (constFluid 1 1)
            (StaticConfinement.initialState 0 (fun _ => 0)).acoustic_calls
            n'.acoustic_calls) := by
  have ha : (HydrostaticFSI.Double.acousticBody (constFSI 1 1 1) 2
      (firstAdvectionFSI 1 1 1)).isSome = true := by decide!
  have hb : (HydrostaticFSI.Double.advectionBody (constFSI 1 1 1) 3
      HydrostaticFSI.initialState).isSome = true := by decide!
  have ho : (HydrostaticFSI.Double.outputBody (constFSI 1 1 1) 1 4
      HydrostaticFSI.initialState).isSome = true := by decide!
  have hm : (HydrostaticFSI.Double.mainLoop (constFSI 1 1 1) 1 1 5
      HydrostaticFSI.initialState).isSome = true := by decide!
  have hb' : (StaticConfinement.Double.advectionBody (constFluid 1 1) 1
      (StaticConfinement.initialState 0 (fun _ => 0))).isSome = true := by decide!
  have ho' : (StaticConfinement.Double.outputBody (constFluid 1 1) 1 2
      (StaticConfinement.initialState 0 (fun _ => 0))).isSome = true := by decide!
  have hm' : (StaticConfinement.Double.mainLoop (constFluid 1 1) 1 1 3
      (StaticConfinement.initialState 0 (fun _ => 0))).isSome = true := by decide!
  obtain ⟨a', ha⟩ := Option.isSome_iff_exists.mp ha
  obtain ⟨b', hb⟩ := Option.isSome_iff_exists.mp hb
  obtain ⟨o', ho⟩ := Option.isSome_iff_exists.mp ho
  obtain ⟨m', hm⟩ := Option.isSome_iff_exists.mp hm
  obtain ⟨p', hb'⟩ := Option.isSome_iff_exists.mp hb'
  obtain ⟨q', ho'⟩ := Option.isSome_iff_exists.mp ho'
  obtain ⟨n', hm'⟩ := Option.isSome_iff_exists.mp hm'
  have key := C18_clock_bookkeeping_amended (constFSI 1 1 1) 1 1 2 _ a' ha 3 _ b' hb
    4 _ o' ho 5 _ m' hm (constFluid 1 1) 1 _ p' hb' 2 _ q' ho' 3 _ n' hm'
  exact ⟨m', n', hm, hm', key.1.2.2.2.2.2.2, key.2.2.2.2.2.2.2⟩
